import Mathlib

/-!
# Nutrify (7-day diet tracker): data layer and derived-state functions

Shallow embedding of `js/utils.js` and `js/store.js`.

Conventions of the embedding:

* A JavaScript number is modelled by its exact value, a rational (`ℚ`); the value `NaN` is
  modelled by `none` in an `Option`. The arithmetic of `computeGoal` and `defaultMeals` is
  IEEE 754 binary64 arithmetic: every numeric literal, every profile field and the exact
  result of every operation is rounded to the nearest double (`roundDouble`), and there
  `none` also stands for an infinite result. `Math.round` is exact on doubles. The other
  functions add, compare and display numbers and are kept in exact arithmetic.
* A property read `obj[key]` on an object literal follows the prototype chain: a key that is not
  an own property but names a member of `Object.prototype` yields that (truthy, non-numeric)
  member.
* A function that reads or writes `localStorage` takes the storage state and returns the state
  afterwards. `localStorage.setItem` may throw (quota exceeded); `getItem` and `removeItem`
  do not.
* The host functions `JSON.stringify`, `JSON.parse` and `String.prototype.localeCompare` are
  parameters (`Host`); what is assumed of them is stated as a hypothesis where it is used.
  The clock is a parameter as well: `now` is the string `new Date().toISOString()` returns.
  Such timestamps all have the shape `YYYY-MM-DDTHH:mm:ss.sssZ`, so that their order in time
  is their order as strings.
-/

namespace Nutrify

/-! ## Object-literal property reads -/

/-- Outcome of the property read `obj[key]` on an object literal whose own properties hold
values of type `α`. -/
inductive Lookup (α : Type) where
  /-- The key is an own property. -/
  | own (v : α)
  /-- The key is not an own property but is found on `Object.prototype`
  (a function, or the prototype object itself): truthy and not a number. -/
  | inherited
  /-- The key is found nowhere: the read gives `undefined`. -/
  | undefined
  deriving DecidableEq, Repr

/-- Property names that every object literal inherits from `Object.prototype`. -/
def objectPrototypeKeys : List String :=
  ["constructor", "__defineGetter__", "__defineSetter__", "hasOwnProperty",
   "__lookupGetter__", "__lookupSetter__", "isPrototypeOf", "propertyIsEnumerable",
   "toString", "valueOf", "__proto__", "toLocaleString"]

/-- The read `table[key]` where `table` is an object literal given by its own properties. -/
def lookupIn {α : Type} (table : List (String × α)) (key : String) : Lookup α :=
  match table.lookup key with
  | some v => Lookup.own v
  | none => if key ∈ objectPrototypeKeys then Lookup.inherited else Lookup.undefined

/-- Property key used when a possibly missing field indexes an object: a missing field is
`undefined`, whose property key is the string "undefined". -/
def propertyKey : Option String → String
  | some s => s
  | none => "undefined"

/-- Writing `value` under `key` in a keyed collection that keeps insertion order: the value
of an existing key is replaced in place, a new key is appended. -/
def putKey {α : Type} : List (String × α) → String → α → List (String × α)
  | [], key, value => [(key, value)]
  | (k, v) :: rest, key, value =>
    if k = key then (key, value) :: rest else (k, v) :: putKey rest key value

/-! ## Profile and calorie goal (`utils.computeGoal`) -/

/-- The profile record read by `computeGoal` and `defaultMeals`. The three enumerated fields
are free strings that may be missing (`none`), as the code provides fallbacks for them. -/
structure Profile where
  sex : String
  weightKg : ℚ
  heightCm : ℚ
  age : ℚ
  activityLevel : Option String
  goal : Option String
  dietaryPreference : Option String
  createdAt : String
  deriving DecidableEq, Repr

/-- A meal record. `calories = none` stands for `NaN`. -/
structure Meal where
  id : String
  name : String
  type : String
  calories : Option Int
  completed : Bool
  note : String
  deriving DecidableEq, Repr

/-- `Math.round`: the integer `⌊x + 1/2⌋`. -/
def mathRound (x : ℚ) : Int := ⌊x + 1 / 2⌋

/-! ## JavaScript numbers: IEEE 754 binary64 -/

/-- Rounding of a rational to the nearest integer, ties to the even one. -/
def roundHalfEven (x : ℚ) : Int :=
  if x - (⌊x⌋ : ℚ) < 1 / 2 then ⌊x⌋
  else if 1 / 2 < x - (⌊x⌋ : ℚ) then ⌊x⌋ + 1
  else if ⌊x⌋ % 2 = 0 then ⌊x⌋
  else ⌊x⌋ + 1

/-- The exponent `e` for which the doubles next to a number of absolute value `a` are
multiples of `2 ^ e`: 52 below the binary exponent of `a`, and -1074 in the subnormal range. -/
def ulpExponent (a : ℚ) : Int := max (Int.log 2 a - 52) (-1074)

/-- The double nearest to a rational, ties to the even significand: the value of a numeric
literal and of the exact result of an arithmetic operation on doubles. The result is `none`
when the rounding overflows to `Infinity` or `-Infinity`. -/
def roundDouble (q : ℚ) : Option ℚ :=
  if abs ((roundHalfEven (q / 2 ^ ulpExponent (abs q)) : ℚ) * 2 ^ ulpExponent (abs q))
      < 2 ^ (1024 : ℤ) then
    some ((roundHalfEven (q / 2 ^ ulpExponent (abs q)) : ℚ) * 2 ^ ulpExponent (abs q))
  else none

/-- The product `a * b` of JavaScript numbers; `none` is `NaN`, `Infinity` or `-Infinity`. -/
def mulDouble (a b : Option ℚ) : Option ℚ :=
  match a, b with
  | some x, some y => roundDouble (x * y)
  | _, _ => none

/-- The sum `a + b` of JavaScript numbers; `none` is `NaN`, `Infinity` or `-Infinity`. -/
def addDouble (a b : Option ℚ) : Option ℚ :=
  match a, b with
  | some x, some y => roundDouble (x + y)
  | _, _ => none

/-- The difference `a - b` of JavaScript numbers; `none` is `NaN`, `Infinity` or
`-Infinity`. -/
def subDouble (a b : Option ℚ) : Option ℚ :=
  match a, b with
  | some x, some y => roundDouble (x - y)
  | _, _ => none

namespace utils

/-- The `multipliers` object literal of `computeGoal`. The entries are the decimal numerals of
the source; `computeGoal` takes the doubles they denote. -/
def multipliers : List (String × ℚ) :=
  [("sedentary", 1.2), ("lightly_active", 1.375), ("moderately_active", 1.55),
   ("very_active", 1.725)]

/-- The `adjustments` object literal of `computeGoal`. -/
def adjustments : List (String × ℚ) :=
  [("lose_weight", -500), ("maintain", 0), ("gain_muscle", 300)]

/-- The `bmr` constant of `computeGoal` (Mifflin-St Jeor), evaluated as JavaScript evaluates
`(10 * weightKg) + (6.25 * heightCm) - (5 * age) + 5` (or `- 161`): every literal and every
field is a double and every operation rounds its exact result to a double. -/
def bmr (p : Profile) : Option ℚ :=
  if p.sex = "male" then
    addDouble
      (subDouble
        (addDouble (mulDouble (roundDouble 10) (roundDouble p.weightKg))
          (mulDouble (roundDouble 6.25) (roundDouble p.heightCm)))
        (mulDouble (roundDouble 5) (roundDouble p.age)))
      (roundDouble 5)
  else
    subDouble
      (subDouble
        (addDouble (mulDouble (roundDouble 10) (roundDouble p.weightKg))
          (mulDouble (roundDouble 6.25) (roundDouble p.heightCm)))
        (mulDouble (roundDouble 5) (roundDouble p.age)))
      (roundDouble 161)

/-- The factor `multipliers[activityLevel] || 1.2`; `none` when the read yields an inherited
member, which makes the product `NaN`. -/
def activityMultiplier (p : Profile) : Option ℚ :=
  match lookupIn multipliers (propertyKey p.activityLevel) with
  | Lookup.own v => if v = 0 then some 1.2 else some v
  | Lookup.inherited => none
  | Lookup.undefined => some 1.2

/-- The summand `adjustments[goal] ?? 0`; `none` when the read yields an inherited member,
which makes the rounded sum `NaN`. -/
def goalAdjustment (p : Profile) : Option ℚ :=
  match lookupIn adjustments (propertyKey p.goal) with
  | Lookup.own v => some v
  | Lookup.inherited => none
  | Lookup.undefined => some 0

/-- `utils.computeGoal(profile)`: `Math.round(maintenance + adjustment)` with
`maintenance = bmr * (multipliers[activityLevel] || 1.2)`, product and sum in doubles;
`none` stands for `NaN` (and for an infinite result, which takes a weight, height or age
beyond `10^300`). -/
def computeGoal (p : Profile) : Option Int :=
  match activityMultiplier p, goalAdjustment p with
  | some m, some adjustment =>
    (addDouble (mulDouble (bmr p) (roundDouble m)) (roundDouble adjustment)).map mathRound
  | _, _ => none

/-! ## Default plan generator (`utils.defaultMeals`) -/

/-- The `splits` object literal of `defaultMeals`. The entries are the decimal numerals of the
source; `defaultMeal` takes the doubles they denote. -/
def splits : List (String × ℚ) :=
  [("Breakfast", 0.25), ("Lunch", 0.35), ("Snack", 0.10), ("Dinner", 0.30)]

/-- One day of a template: the meal name of each of the four slots. -/
def dayTemplate (b l s d : String) : List (String × String) :=
  [("Breakfast", b), ("Lunch", l), ("Snack", s), ("Dinner", d)]

/-- The `templates` object literal of `defaultMeals`. -/
def templates : List (String × List (List (String × String))) :=
  [("none",
     [dayTemplate "Poha with peanuts" "Chicken curry with rice" "Boiled egg" "Roti with dal makhani",
      dayTemplate "Idli with sambar" "Egg fried rice" "Banana" "Grilled chicken with salad",
      dayTemplate "Paratha with curd" "Fish curry with rice" "Mixed nuts" "Dal tadka with roti",
      dayTemplate "Upma with chutney" "Mutton keema with roti" "Apple" "Paneer bhurji with roti",
      dayTemplate "Oats with milk" "Chicken biryani" "Sprouts chaat" "Vegetable soup with bread",
      dayTemplate "Dosa with sambar" "Prawn masala with rice" "Roasted chana" "Egg curry with roti",
      dayTemplate "Bread omelette" "Rajma chawal" "Curd with fruit" "Grilled fish with salad"]),
   ("vegetarian",
     [dayTemplate "Poha with peanuts" "Paneer curry with rice" "Banana" "Dal tadka with roti",
      dayTemplate "Idli with sambar" "Rajma chawal" "Mixed nuts" "Palak paneer with roti",
      dayTemplate "Paratha with curd" "Chole with bhature" "Apple" "Vegetable khichdi",
      dayTemplate "Upma with chutney" "Vegetable biryani" "Sprouts chaat" "Paneer bhurji with roti",
      dayTemplate "Oats with milk" "Dal makhani with rice" "Roasted chana" "Aloo gobi with roti",
      dayTemplate "Dosa with sambar" "Kadhi chawal" "Curd with fruit" "Methi thepla with curd",
      dayTemplate "Bread with peanut butter" "Matar paneer with roti" "Fruit salad" "Vegetable soup with bread"]),
   ("vegan",
     [dayTemplate "Poha with peanuts" "Chana masala with rice" "Banana" "Dal tadka with roti",
      dayTemplate "Idli with sambar" "Rajma chawal" "Mixed nuts" "Aloo palak with roti",
      dayTemplate "Upma with chutney" "Vegetable biryani" "Apple" "Vegetable khichdi",
      dayTemplate "Oats with plant milk" "Chole with rice" "Sprouts chaat" "Tofu stir fry with roti",
      dayTemplate "Fruit smoothie" "Dal makhani (vegan) + rice" "Roasted chana" "Aloo gobi with roti",
      dayTemplate "Dosa with sambar" "Kadhi (vegan) with rice" "Fruit salad" "Methi thepla with hummus",
      dayTemplate "Bread with peanut butter" "Matar mushroom with roti" "Coconut water" "Vegetable soup with bread"])]

/-- The `types` array of `defaultMeals`. -/
def types : List String := ["Breakfast", "Lunch", "Snack", "Dinner"]

/-- The value `profile.dietaryPreference || 'none'`: a missing or empty preference is falsy. -/
def prefOf (p : Profile) : String :=
  match p.dietaryPreference with
  | some s => if s = "" then "none" else s
  | none => "none"

/-- The value `templates[pref] || templates.none`; `none` when the read yields an inherited
member of `Object.prototype`, which is truthy and is kept. -/
def dayTemplatesOf (pref : String) : Option (List (List (String × String))) :=
  match lookupIn templates pref with
  | Lookup.own t => some t
  | Lookup.inherited => none
  | Lookup.undefined => some ((templates.lookup "none").getD [])

/-- The meal built by the inner `types.map` callback for one day and one slot. The reads
`dayMeals[type]` and `splits[type]` always hit own properties for the four slot names. The
calories are `Math.round(goal * splits[type])`, the product being a double product. -/
def defaultMeal (goal : Option Int) (dayMeals : List (String × String)) (dayIndex : Nat)
    (type : String) : Meal :=
  { id := "default-" ++ Nat.repr dayIndex ++ "-" ++ type.toLower
    name := (dayMeals.lookup type).getD "undefined"
    type := type
    calories :=
      (mulDouble (goal.map fun g : Int => (g : ℚ))
        (roundDouble ((splits.lookup type).getD 0))).map mathRound
    completed := false
    note := "" }

/-- `utils.defaultMeals(profile)`. The result is `none` when the call throws a `TypeError`:
`dayTemplates` is then an inherited member of `Object.prototype`, which has no `map`. -/
def defaultMeals (p : Profile) : Option (List (List Meal)) :=
  let goal := computeGoal p
  (dayTemplatesOf (prefOf p)).map fun dayTemplates =>
    (List.zip dayTemplates (List.range dayTemplates.length)).map fun dm =>
      types.map fun type => defaultMeal goal dm.1 dm.2 type

end utils

/-! ## JSON values and host functions -/

/-- A JSON value: what `JSON.parse` returns and `JSON.stringify` accepts. An object is the list
of its own properties in insertion order. -/
inductive Json where
  | null
  | bool (b : Bool)
  | num (q : ℚ)
  | str (s : String)
  | arr (items : List Json)
  | obj (fields : List (String × Json))
  deriving Repr

/-- The host functions the data layer calls. -/
structure Host where
  /-- `JSON.stringify(value)`. -/
  stringify : Json → String
  /-- `JSON.parse(text)`; `none` when it throws a `SyntaxError`. -/
  jsonParse : String → Option Json
  /-- The call `a.localeCompare(b)`. -/
  localeCompare : String → String → Int

/-- Contract of the host's JSON functions: parsing a serialization gives the value back. -/
def Host.JsonRoundTrip (H : Host) : Prop :=
  ∀ v : Json, H.jsonParse (H.stringify v) = some v

/-- A calendar date key 'YYYY-MM-DD', as `utils.todayKey` builds it. -/
def isDateKey (s : String) : Bool :=
  match s.data with
  | [a, b, c, d, e, f, g, h, i, j] =>
    a.isDigit && b.isDigit && c.isDigit && d.isDigit && e == '-' &&
      f.isDigit && g.isDigit && h == '-' && i.isDigit && j.isDigit
  | _ => false

/-- Contract of the host's `localeCompare` on date keys: it orders them as the code-unit
order of strings does, which on date keys is the chronological order. -/
def Host.ComparesDateKeys (H : Host) : Prop :=
  ∀ a b : String, isDateKey a = true → isDateKey b = true →
    (H.localeCompare a b ≤ 0 ↔ a ≤ b)

/-! ## The browser's `localStorage` -/

/-- The state of `localStorage`: the stored items in insertion order and the origin's quota,
counted in characters of keys and values. -/
structure LocalStorage where
  items : List (String × String)
  quota : Nat
  deriving DecidableEq, Repr

/-- The items after a successful `setItem`: the value of an existing key is replaced in
place, a new key is appended. -/
def putItem (items : List (String × String)) (key value : String) : List (String × String) :=
  putKey items key value

/-- The items after `removeItem`. -/
def eraseKey : List (String × String) → String → List (String × String)
  | [], _ => []
  | (k, v) :: rest, key => if k = key then eraseKey rest key else (k, v) :: eraseKey rest key

/-- Space taken by a list of items. -/
def usedSpace (items : List (String × String)) : Nat :=
  (items.map (fun kv => kv.1.length + kv.2.length)).sum

namespace LocalStorage

/-- `localStorage.getItem(key)`; `none` is JavaScript's `null`. -/
def getItem (s : LocalStorage) (key : String) : Option String :=
  s.items.lookup key

/-- `localStorage.removeItem(key)`. -/
def removeItem (s : LocalStorage) (key : String) : LocalStorage :=
  { s with items := eraseKey s.items key }

/-- `localStorage.setItem(key, value)`; `none` when it throws `QuotaExceededError`. -/
def setItem (s : LocalStorage) (key value : String) : Option LocalStorage :=
  if usedSpace (putItem s.items key value) ≤ s.quota then
    some { s with items := putItem s.items key value }
  else
    none

end LocalStorage

/-! ## The store (`js/store.js`) -/

namespace KEYS

def PROFILE : String := "ddt_profile"
def PLAN : String := "ddt_plan"
def GOAL : String := "ddt_goal"
def THEME : String := "ddt_theme"
def STREAK : String := "ddt_streak"
def WEIGHT_LOG : String := "ddt_weight_log"

end KEYS

namespace store

/-- `store.get(key, defaultValue)`: the returned value and the storage afterwards. The `catch`
branch runs when `JSON.parse` throws. -/
def get (H : Host) (s : LocalStorage) (key : String) (defaultValue : Json) :
    Json × LocalStorage :=
  match s.getItem key with
  | none => (defaultValue, s)
  | some raw =>
    match H.jsonParse raw with
    | some v => (v, s)
    | none => (defaultValue, s.removeItem key)

/-- `store.set(key, value)`: the storage afterwards. The `catch` branch swallows the
exception of a rejected write. -/
def set (H : Host) (s : LocalStorage) (key : String) (value : Json) : LocalStorage :=
  match s.setItem key (H.stringify value) with
  | some s1 => s1
  | none => s

/-- Whether the host accepts the write that `store.set(key, value)` attempts. -/
def writeAccepted (H : Host) (s : LocalStorage) (key : String) (value : Json) : Bool :=
  (s.setItem key (H.stringify value)).isSome

/-- The assignment `obj[key] = value` on the own properties of an object. -/
def assignField (fields : List (String × Json)) (key : String) (value : Json) :
    List (String × Json) :=
  putKey fields key value

/-- `store.getPlan()`. -/
def getPlan (H : Host) (s : LocalStorage) : Json × LocalStorage :=
  get H s KEYS.PLAN Json.null

/-- `store.setPlan(plan)` for a plan object given by its own properties; `now` is the string
`new Date().toISOString()` returns. -/
def setPlan (H : Host) (s : LocalStorage) (plan : List (String × Json)) (now : String) :
    LocalStorage :=
  set H s KEYS.PLAN (Json.obj (assignField plan "updatedAt" (Json.str now)))

/-- The key of the water count of a date. -/
def waterKey (date : String) : String := "ddt_water_" ++ date

/-- `store.getWater(date)`. -/
def getWater (H : Host) (s : LocalStorage) (date : String) : Json × LocalStorage :=
  get H s (waterKey date) (Json.num 0)

/-- `store.setWater(date, count)` for an integer count. -/
def setWater (H : Host) (s : LocalStorage) (date : String) (count : Int) : LocalStorage :=
  set H s (waterKey date) (Json.num ((max 0 (min 8 count) : Int) : ℚ))

end store

/-- The property read `value.key` on a parsed JSON value; `none` is `undefined`. -/
def Json.field : Json → String → Option Json
  | Json.obj fields, key => fields.lookup key
  | _, _ => none

/-! ### Weight log -/

/-- An entry `{ date, weight }` of the weight log. -/
structure WeightEntry where
  date : String
  weight : ℚ
  deriving DecidableEq, Repr

/-- The JSON object of an entry. -/
def WeightEntry.toJson (e : WeightEntry) : Json :=
  Json.obj [("date", Json.str e.date), ("weight", Json.num e.weight)]

/-- Reads a parsed JSON value as an entry: an object with a string `date` and a numeric
`weight`. -/
def WeightEntry.ofJson : Json → Option WeightEntry
  | Json.obj fields =>
    match fields.lookup "date", fields.lookup "weight" with
    | some (Json.str d), some (Json.num w) => some { date := d, weight := w }
    | _, _ => none
  | _ => none

/-- The JSON array of a log. -/
def encodeLog (log : List WeightEntry) : Json :=
  Json.arr (log.map WeightEntry.toJson)

/-- Reads the elements of a parsed array as entries. -/
def decodeEntries : List Json → Option (List WeightEntry)
  | [] => some []
  | j :: js =>
    match WeightEntry.ofJson j, decodeEntries js with
    | some e, some es => some (e :: es)
    | _, _ => none

/-- Reads a parsed JSON value as a weight log: an array of entries. -/
def decodeLog : Json → Option (List WeightEntry)
  | Json.arr items => decodeEntries items
  | _ => none

/-- The upsert of `appendWeight`: `findIndex` by date, then `log[idx] = entry` when an entry
of that date exists (`idx !== -1`) and `log.push(entry)` otherwise. -/
def upsert (log : List WeightEntry) (entry : WeightEntry) : List WeightEntry :=
  let idx := log.findIdx (fun e => e.date == entry.date)
  if idx < log.length then log.set idx entry else log ++ [entry]

/-- `log.sort((a, b) => a.date.localeCompare(b.date))`: a stable sort by the comparator. -/
def sortByDate (H : Host) (log : List WeightEntry) : List WeightEntry :=
  log.insertionSort (fun a b => H.localeCompare a.date b.date ≤ 0)

/-- Order of entries by the code-unit order of their dates. -/
def dateLE (a b : WeightEntry) : Prop := a.date ≤ b.date

instance : DecidableRel dateLE := fun a b => inferInstanceAs (Decidable (a.date ≤ b.date))

instance : IsTotal WeightEntry dateLE := ⟨fun a b => le_total a.date b.date⟩

instance : IsTrans WeightEntry dateLE := ⟨fun _ _ _ h1 h2 => le_trans h1 h2⟩

namespace store

/-- `store.getWeightLog()`. -/
def getWeightLog (H : Host) (s : LocalStorage) : Json × LocalStorage :=
  get H s KEYS.WEIGHT_LOG (Json.arr [])

/-- The value `appendWeight(entry)` passes to `set`: the stored log with the entry upserted,
sorted by date. It is `none` when the stored value is not a weight log (an array of
`{ date, weight }` records); such stored values are outside the model. -/
def appendWeightValue (H : Host) (s : LocalStorage) (entry : WeightEntry) : Option Json :=
  (decodeLog (getWeightLog H s).1).map fun log => encodeLog (sortByDate H (upsert log entry))

/-- `store.appendWeight(entry)`: the storage afterwards; defined where `appendWeightValue`
is. -/
def appendWeight (H : Host) (s : LocalStorage) (entry : WeightEntry) : Option LocalStorage :=
  (appendWeightValue H s entry).map fun v => set H (getWeightLog H s).2 KEYS.WEIGHT_LOG v

/-- The entries appended one by one, the first of the list first. -/
def appendWeights (H : Host) : LocalStorage → List WeightEntry → Option LocalStorage
  | s, [] => some s
  | s, e :: es =>
    match appendWeight H s e with
    | some s1 => appendWeights H s1 es
    | none => none

/-- Whether the host accepts every write of `appendWeights`. -/
def appendsAccepted (H : Host) : LocalStorage → List WeightEntry → Bool
  | _, [] => true
  | s, e :: es =>
    match appendWeightValue H s e with
    | some v =>
      writeAccepted H (getWeightLog H s).2 KEYS.WEIGHT_LOG v &&
        appendsAccepted H (set H (getWeightLog H s).2 KEYS.WEIGHT_LOG v) es
    | none => false

end store

/-! ## A reference host

A concrete host, used to instantiate the results: a compact JSON-like text format with its
reader, and the code-unit comparison of strings. Numbers are written as a signed fraction. -/

namespace RefCodec

/-- The decimal digit character of a digit value. -/
def digitChar (d : Nat) : Char := Char.ofNat (48 + d)

/-- The value of a decimal digit character. -/
def digitVal (c : Char) : Nat := c.toNat - 48

/-- Decimal digits of `n`, least significant first. -/
def natDigits : Nat → Nat → List Nat
  | 0, _ => []
  | fuel + 1, n => if n = 0 then [] else (n % 10) :: natDigits fuel (n / 10)

/-- The number with the given decimal digits, least significant first. -/
def fromDigits : List Nat → Nat
  | [] => 0
  | d :: ds => d + 10 * fromDigits ds

/-- The decimal numeral of `n` (empty for zero). -/
def encNat (n : Nat) : List Char := (natDigits n n).reverse.map digitChar

/-- Reads a decimal numeral up to the character `stop`; `acc` holds the digits read so far. -/
def parseNatUntil (stop : Char) : List Char → List Nat → Option (Nat × List Char)
  | [], _ => none
  | c :: rest, acc =>
    if c = stop then some (fromDigits acc, rest)
    else if c.isDigit then parseNatUntil stop rest (digitVal c :: acc)
    else none

/-- A rational as sign, numerator, '/', denominator, ';'. -/
def encNum (q : ℚ) : List Char :=
  (if q.num < 0 then '-' else '+') :: (encNat q.num.natAbs ++ '/' :: (encNat q.den ++ [';']))

/-- Reads numerator and denominator after the sign. -/
def parseFrac (neg : Bool) (cs : List Char) : Option (ℚ × List Char) :=
  match parseNatUntil '/' cs [] with
  | none => none
  | some (n, r1) =>
    match parseNatUntil ';' r1 [] with
    | none => none
    | some (d, r2) => some (mkRat (if neg then -(n : Int) else (n : Int)) d, r2)

/-- The characters of a string with quote and backslash escaped, then the closing quote. -/
def encStr : List Char → List Char
  | [] => ['"']
  | c :: cs => if c = '"' ∨ c = '\\' then '\\' :: c :: encStr cs else c :: encStr cs

/-- Reads an escaped string up to its closing quote. -/
def parseStr : List Char → Option (List Char × List Char)
  | [] => none
  | [c] => if c = '"' then some ([], []) else none
  | c :: d :: rest =>
    if c = '"' then some ([], d :: rest)
    else if c = '\\' then
      match parseStr rest with
      | none => none
      | some (s, r) => some (d :: s, r)
    else
      match parseStr (d :: rest) with
      | none => none
      | some (s, r) => some (c :: s, r)

mutual
/-- The text of a value. -/
def encV : Json → List Char
  | Json.null => ['n', 'u', 'l', 'l']
  | Json.bool true => ['t', 'r', 'u', 'e']
  | Json.bool false => ['f', 'a', 'l', 's', 'e']
  | Json.num q => encNum q
  | Json.str s => '"' :: encStr s.data
  | Json.arr xs => '[' :: encL xs
  | Json.obj fs => '{' :: encF fs
/-- The text of the elements of an array, each followed by a comma, then the bracket. -/
def encL : List Json → List Char
  | [] => [']']
  | x :: xs => encV x ++ ',' :: encL xs
/-- The text of the properties of an object, each followed by a comma, then the brace. -/
def encF : List (String × Json) → List Char
  | [] => ['}']
  | (k, v) :: fs => '"' :: (encStr k.data ++ ':' :: (encV v ++ ',' :: encF fs))
end

mutual
/-- Reads one value; `fuel` bounds the nesting and the number of elements. -/
def parseV : Nat → List Char → Option (Json × List Char)
  | 0, _ => none
  | _ + 1, [] => none
  | fuel + 1, c :: r =>
    if c = 'n' then
      (if r.take 3 = ['u', 'l', 'l'] then some (Json.null, r.drop 3) else none)
    else if c = 't' then
      (if r.take 3 = ['r', 'u', 'e'] then some (Json.bool true, r.drop 3) else none)
    else if c = 'f' then
      (if r.take 4 = ['a', 'l', 's', 'e'] then some (Json.bool false, r.drop 4) else none)
    else if c = '"' then
      (match parseStr r with
       | none => none
       | some (s, r1) => some (Json.str (String.mk s), r1))
    else if c = '[' then
      (match parseL fuel r with
       | none => none
       | some (xs, r1) => some (Json.arr xs, r1))
    else if c = '{' then
      (match parseF fuel r with
       | none => none
       | some (fs, r1) => some (Json.obj fs, r1))
    else if c = '-' then
      (match parseFrac true r with
       | none => none
       | some (q, r1) => some (Json.num q, r1))
    else if c = '+' then
      (match parseFrac false r with
       | none => none
       | some (q, r1) => some (Json.num q, r1))
    else none
/-- Reads the elements of an array up to the closing bracket. -/
def parseL : Nat → List Char → Option (List Json × List Char)
  | 0, _ => none
  | _ + 1, [] => none
  | fuel + 1, c :: r =>
    if c = ']' then some ([], r)
    else
      match parseV fuel (c :: r) with
      | none => none
      | some (_, []) => none
      | some (v, c1 :: r2) =>
        if c1 = ',' then
          (match parseL fuel r2 with
           | none => none
           | some (xs, r3) => some (v :: xs, r3))
        else none
/-- Reads the properties of an object up to the closing brace. -/
def parseF : Nat → List Char → Option (List (String × Json) × List Char)
  | 0, _ => none
  | _ + 1, [] => none
  | fuel + 1, c :: r =>
    if c = '}' then some ([], r)
    else if c = '"' then
      match parseStr r with
      | none => none
      | some (_, []) => none
      | some (k, c1 :: r2) =>
        if c1 = ':' then
          (match parseV fuel r2 with
           | none => none
           | some (_, []) => none
           | some (v, c2 :: r4) =>
             if c2 = ',' then
               (match parseF fuel r4 with
                | none => none
                | some (fs, r5) => some ((String.mk k, v) :: fs, r5))
             else none)
        else none
    else none
end

mutual
/-- Fuel that suffices to read back the text of a value. -/
def needV : Json → Nat
  | Json.arr xs => needL xs + 1
  | Json.obj fs => needF fs + 1
  | _ => 1
/-- Fuel that suffices to read back the text of the elements of an array. -/
def needL : List Json → Nat
  | [] => 1
  | x :: xs => max (needV x) (needL xs) + 1
/-- Fuel that suffices to read back the text of the properties of an object. -/
def needF : List (String × Json) → Nat
  | [] => 1
  | (_, v) :: fs => max (needV v) (needF fs) + 1
end

/-- The text of a value, as a string. -/
def stringify (v : Json) : String := String.mk (encV v)

/-- Reads a whole string as one value. -/
def parse (s : String) : Option Json :=
  match parseV (s.length + 1) s.data with
  | some (v, []) => some v
  | _ => none

end RefCodec

/-- The reference host. -/
def refHost : Host :=
  { stringify := RefCodec.stringify
    jsonParse := RefCodec.parse
    localeCompare := fun a b => if a.data < b.data then -1 else if a = b then 0 else 1 }

/-! ## Specification-side definitions and sample values -/

/-- The basal metabolic rate as the specification words it: Mifflin-St Jeor, plus 5 for
'male' and minus 161 otherwise. -/
def specBmr (p : Profile) : ℚ :=
  if p.sex = "male" then 10 * p.weightKg + 6.25 * p.heightCm - 5 * p.age + 5
  else 10 * p.weightKg + 6.25 * p.heightCm - 5 * p.age - 161

/-- The activity factor of the specification's table; `none` off the table. -/
def specActivityFactor : Option String → Option ℚ
  | some "sedentary" => some 1.2
  | some "lightly_active" => some 1.375
  | some "moderately_active" => some 1.55
  | some "very_active" => some 1.725
  | _ => none

/-- The goal adjustment of the specification's table; `none` off the table. -/
def specGoalAdjustment : Option String → Option ℚ
  | some "lose_weight" => some (-500)
  | some "maintain" => some 0
  | some "gain_muscle" => some 300
  | _ => none

/-- The profile of the specification's worked example. -/
def exampleProfile : Profile :=
  { sex := "male", weightKg := 70, heightCm := 175, age := 30,
    activityLevel := some "moderately_active", goal := some "lose_weight",
    dietaryPreference := some "none", createdAt := "2024-01-01T00:00:00.000Z" }

/-- The example profile with a dietary preference that names a member of
`Object.prototype`. -/
def tamperedProfile : Profile :=
  { exampleProfile with dietaryPreference := some "constructor" }

/-- The part of a meal the plan generator's contract speaks of: type, calories, completed,
note. -/
def mealRow (m : Meal) : String × Option Int × Bool × String :=
  (m.type, m.calories, m.completed, m.note)

/-- One day as the specification words it: the four slots in order, each with its share of
the goal rounded (the share is the double product `goal * fraction`), not completed, with an
empty note. -/
def specDayRows (goal : Option Int) : List (String × Option Int × Bool × String) :=
  [("Breakfast",
      (mulDouble (goal.map fun g : Int => (g : ℚ)) (roundDouble 0.25)).map mathRound, false, ""),
   ("Lunch",
      (mulDouble (goal.map fun g : Int => (g : ℚ)) (roundDouble 0.35)).map mathRound, false, ""),
   ("Snack",
      (mulDouble (goal.map fun g : Int => (g : ℚ)) (roundDouble 0.10)).map mathRound, false, ""),
   ("Dinner",
      (mulDouble (goal.map fun g : Int => (g : ℚ)) (roundDouble 0.30)).map mathRound, false, "")]

/-- An empty storage with a quota of five million characters. -/
def emptyStorage : LocalStorage := { items := [], quota := 5000000 }

/-- An empty storage without quota, which rejects every write (as a browser does in a
private mode without storage). -/
def fullStorage : LocalStorage := { items := [], quota := 0 }

/-- The shape `YYYY-MM-DDTHH:mm:ss.sssZ` of the strings `toISOString` returns. -/
def isIsoTimestamp (s : String) : Bool :=
  match s.data with
  | [y1, y2, y3, y4, d1, m1, m2, d2, a1, a2, t, h1, h2, c1, n1, n2, c2, s1, s2, p, f1, f2, f3,
      z] =>
    y1.isDigit && y2.isDigit && y3.isDigit && y4.isDigit && d1 == '-' && m1.isDigit &&
      m2.isDigit && d2 == '-' && a1.isDigit && a2.isDigit && t == 'T' && h1.isDigit &&
      h2.isDigit && c1 == ':' && n1.isDigit && n2.isDigit && c2 == ':' && s1.isDigit &&
      s2.isDigit && p == '.' && f1.isDigit && f2.isDigit && f3.isDigit && z == 'Z'
  | _ => false

/-- A plan object whose `updatedAt` lies in the future. -/
def futurePlan : List (String × Json) :=
  [("days", Json.arr []), ("createdAt", Json.str "2024-01-01T00:00:00.000Z"),
   ("updatedAt", Json.str "2999-12-31T23:59:59.999Z")]

/-- A plan object whose `updatedAt` lies in the past. -/
def pastPlan : List (String × Json) :=
  [("days", Json.arr []), ("createdAt", Json.str "2024-01-01T00:00:00.000Z"),
   ("updatedAt", Json.str "2024-01-02T08:30:00.000Z")]

/-- Three weighings, the last on the date of the first. -/
def sampleEntries : List WeightEntry :=
  [{ date := "2024-03-02", weight := 71 }, { date := "2024-03-01", weight := 70 },
   { date := "2024-03-02", weight := 72 }]

/-- A reading of the clock. -/
def sampleNow : String := "2026-11-06T12:00:00.000Z"

/-- `utils.progressRatio(consumed, goal)`; `none` stands for `NaN` (for `goal` also for
`null`), which `!goal` treats as absent. -/
def utils.progressRatio (consumed goal : Option ℚ) : Option ℚ :=
  match goal with
  | none => some 0
  | some g => if g = 0 ∨ g ≤ 0 then some 0 else consumed.map fun c => c / g

/-- The example profile with an activity level that names a member of `Object.prototype`. -/
def protoActivityProfile : Profile :=
  { exampleProfile with activityLevel := some "constructor" }

/-- The example profile with a goal that names a member of `Object.prototype`. -/
def protoGoalProfile : Profile :=
  { exampleProfile with goal := some "toString" }

/-- The example profile with an activity level and a goal off the tables. -/
def unknownKeysProfile : Profile :=
  { exampleProfile with activityLevel := some "couch", goal := some "bulk" }

/-- The example profile without a dietary preference. -/
def noPreferenceProfile : Profile :=
  { exampleProfile with dietaryPreference := none }

/-- `Date.now().toString()` for the clock reading `t` in milliseconds: the decimal numeral of
an integer. -/
def dateNowString (t : Int) : String :=
  match t with
  | Int.ofNat m => Nat.repr m
  | Int.negSucc m => "-" ++ Nat.repr (m + 1)

/-- The ids the plan generator's contract gives the default meals: for day index `i` and slot
`t` the text `default-<i>-<t lower-cased>`. -/
def defaultIds : List (List String) :=
  (List.range 7).map fun i =>
    utils.types.map fun t => "default-" ++ Nat.repr i ++ "-" ++ t.toLower

/-- A profile within the ranges of the data model (female, 95 years, 30 kg, 120 cm,
sedentary, lose_weight) whose calorie goal is negative. -/
def frailProfile : Profile :=
  { sex := "female", weightKg := 30, heightCm := 120, age := 95,
    activityLevel := some "sedentary", goal := some "lose_weight",
    dietaryPreference := some "none", createdAt := "2024-01-01T00:00:00.000Z" }

/-- A profile onboarding accepts (female, 15 years, 20.1 kg, 128.2 cm, sedentary, maintain)
for which the exact value of the Mifflin-St Jeor formula ends in one half. -/
def lightProfile : Profile :=
  { sex := "female", weightKg := 20.1, heightCm := 128.2, age := 15,
    activityLevel := some "sedentary", goal := some "maintain",
    dietaryPreference := some "none", createdAt := "2024-01-01T00:00:00.000Z" }

/-- The same person with goal gain_muscle, the weight and the height being exactly the
doubles that the numerals 20.1 and 128.2 denote. -/
def lightDoubleProfile : Profile :=
  { sex := "female", weightKg := 2828823515942093 / 140737488355328,
    heightCm := 2255318250894131 / 17592186044416, age := 15,
    activityLevel := some "sedentary", goal := some "gain_muscle",
    dietaryPreference := some "none", createdAt := "2024-01-01T00:00:00.000Z" }

/-- A profile within the ranges of the data model (male, 30 years, 60 kg, 196 cm,
lightly_active, gain_muscle) whose calorie goal, 2610, is the same in exact and in double
arithmetic. -/
def athleteProfile : Profile :=
  { sex := "male", weightKg := 60, heightCm := 196, age := 30,
    activityLevel := some "lightly_active", goal := some "gain_muscle",
    dietaryPreference := some "none", createdAt := "2024-01-01T00:00:00.000Z" }

/-- A profile with an enormous weight, `2^51` kg, which the onboarding check `weight > 0`
lets through (male, 32 years, 128 cm, lightly_active, maintain). -/
def heavyProfile : Profile :=
  { sex := "male", weightKg := 2251799813685248, heightCm := 128, age := 32,
    activityLevel := some "lightly_active", goal := some "maintain",
    dietaryPreference := some "none", createdAt := "2024-01-01T00:00:00.000Z" }

/-! ## The remaining records of the store, and `clearAll` -/

/-- The streak record `{ count, lastCompletedDate }`; `lastCompletedDate = none` is `null`. -/
structure Streak where
  count : ℚ
  lastCompletedDate : Option String
  deriving DecidableEq, Repr

/-- The JSON object of a streak. -/
def Streak.toJson (st : Streak) : Json :=
  Json.obj [("count", Json.num st.count),
    ("lastCompletedDate",
      match st.lastCompletedDate with
      | some d => Json.str d
      | none => Json.null)]

/-- Reads a parsed JSON value as a streak: an object with a numeric `count` and a
`lastCompletedDate` that is a string, `null` or missing. -/
def Streak.ofJson : Json → Option Streak
  | Json.obj fields =>
    match fields.lookup "count", fields.lookup "lastCompletedDate" with
    | some (Json.num c), some (Json.str d) => some { count := c, lastCompletedDate := some d }
    | some (Json.num c), some Json.null => some { count := c, lastCompletedDate := none }
    | some (Json.num c), none => some { count := c, lastCompletedDate := none }
    | _, _ => none
  | _ => none

/-- The default streak `{ count: 0, lastCompletedDate: null }` of `getStreak`. -/
def defaultStreak : Streak := { count := 0, lastCompletedDate := none }

/-- The test `k.startsWith('ddt_water_')`. -/
def isWaterKey (k : String) : Bool :=
  List.isPrefixOf "ddt_water_".data k.data

namespace store

/-- `store.delete(key)`. -/
def delete (s : LocalStorage) (key : String) : LocalStorage :=
  s.removeItem key

/-- The fixed keys `Object.values(KEYS)`. -/
def fixedKeys : List String :=
  [KEYS.PROFILE, KEYS.PLAN, KEYS.GOAL, KEYS.THEME, KEYS.STREAK, KEYS.WEIGHT_LOG]

/-- `store.clearAll()`: removes the fixed keys, then the keys of the storage that start with
`ddt_water_`. -/
def clearAll (s : LocalStorage) : LocalStorage :=
  let s1 := fixedKeys.foldl LocalStorage.removeItem s
  let waterKeys := (s1.items.map Prod.fst).filter isWaterKey
  waterKeys.foldl LocalStorage.removeItem s1

/-- `store.getProfile()`. -/
def getProfile (H : Host) (s : LocalStorage) : Json × LocalStorage :=
  get H s KEYS.PROFILE Json.null

/-- `store.setProfile(profile)`. -/
def setProfile (H : Host) (s : LocalStorage) (profile : Json) : LocalStorage :=
  set H s KEYS.PROFILE profile

/-- `store.getGoalOverride()`. -/
def getGoalOverride (H : Host) (s : LocalStorage) : Json × LocalStorage :=
  get H s KEYS.GOAL Json.null

/-- `store.setGoalOverride(kcal)`. -/
def setGoalOverride (H : Host) (s : LocalStorage) (kcal : Json) : LocalStorage :=
  set H s KEYS.GOAL kcal

/-- `store.getTheme()`. -/
def getTheme (H : Host) (s : LocalStorage) : Json × LocalStorage :=
  get H s KEYS.THEME (Json.str "light")

/-- `store.setTheme(theme)`. -/
def setTheme (H : Host) (s : LocalStorage) (theme : String) : LocalStorage :=
  set H s KEYS.THEME (Json.str theme)

/-- `store.getStreak()`. -/
def getStreak (H : Host) (s : LocalStorage) : Json × LocalStorage :=
  get H s KEYS.STREAK defaultStreak.toJson

/-- `store.setStreak(streak)`. -/
def setStreak (H : Host) (s : LocalStorage) (streak : Streak) : LocalStorage :=
  set H s KEYS.STREAK streak.toJson

end store

/-- A storage holding a profile, a theme, a corrupted streak and two water counts. -/
def usedStorage : LocalStorage :=
  { items := [("ddt_profile", "null"), ("ddt_water_2024-03-01", "5"), ("ddt_theme", "\"dark\""),
      ("ddt_streak", "\x7b"), ("other_app", "1"), ("ddt_water_2024-03-02", "8")],
    quota := 5000000 }

/-! ## Calendar dates and the streak update (`js/tracker.js`) -/

/-- Year, month and day of a date key 'YYYY-MM-DD'. -/
def parseDateKey (s : String) : Option (Nat × Nat × Nat) :=
  if isDateKey s then
    match s.data with
    | [a, b, c, d, _, f, g, _, i, j] =>
      some (1000 * (a.toNat - 48) + 100 * (b.toNat - 48) + 10 * (c.toNat - 48) + (d.toNat - 48),
        10 * (f.toNat - 48) + (g.toNat - 48), 10 * (i.toNat - 48) + (j.toNat - 48))
    | _ => none
  else none

/-- Leap years of the Gregorian calendar. -/
def isLeapYear (y : Nat) : Bool :=
  (y % 4 == 0 && y % 100 != 0) || y % 400 == 0

/-- Number of days of a month, in a leap year or not. -/
def daysInMonthOf (leap : Bool) (m : Nat) : Nat :=
  if m = 2 then (if leap then 29 else 28)
  else if m = 4 ∨ m = 6 ∨ m = 9 ∨ m = 11 then 30
  else 31

/-- Number of days of a month. -/
def daysInMonth (y m : Nat) : Nat := daysInMonthOf (isLeapYear y) m

/-- A date of the calendar. -/
def validDate (ymd : Nat × Nat × Nat) : Bool :=
  1 ≤ ymd.2.1 && ymd.2.1 ≤ 12 && 1 ≤ ymd.2.2 && ymd.2.2 ≤ daysInMonth ymd.1 ymd.2.1

/-- Number of leap years among the years `0 .. y - 1`. -/
def leapYearsBefore (y : Nat) : Int :=
  ((y + 3) / 4 : Nat) - ((y + 99) / 100 : Nat) + ((y + 399) / 400 : Nat)

/-- Number of days of the year before the first of the month, in a leap year or not. -/
def daysBeforeMonthOf (leap : Bool) (m : Nat) : Nat :=
  (match m with
    | 1 => 0 | 2 => 31 | 3 => 59 | 4 => 90 | 5 => 120 | 6 => 151
    | 7 => 181 | 8 => 212 | 9 => 243 | 10 => 273 | 11 => 304 | 12 => 334
    | _ => 0)
    + (if 2 < m ∧ leap = true then 1 else 0)

/-- Number of days of the year before the first of the month. -/
def daysBeforeMonth (y m : Nat) : Nat := daysBeforeMonthOf (isLeapYear y) m

/-- Day number of a date, counted from 1970-01-01: the time value of `new Date('YYYY-MM-DD')`,
which is midnight UTC of that date, divided by 86400000. -/
def epochDay (ymd : Nat × Nat × Nat) : Int :=
  365 * (ymd.1 : Int) + leapYearsBefore ymd.1 + (daysBeforeMonth ymd.1 ymd.2.1 : Int)
    + (ymd.2.2 : Int) - 1 - 719528

/-- The next calendar day. -/
def nextDay (ymd : Nat × Nat × Nat) : Nat × Nat × Nat :=
  if ymd.2.2 < daysInMonth ymd.1 ymd.2.1 then (ymd.1, ymd.2.1, ymd.2.2 + 1)
  else if ymd.2.1 < 12 then (ymd.1, ymd.2.1 + 1, 1)
  else (ymd.1 + 1, 1, 1)

/-- The calendar day `n` days later. -/
def daysLater (n : Nat) (ymd : Nat × Nat × Nat) : Nat × Nat × Nat :=
  nextDay^[n] ymd

/-- Contract of the host's date reader `text ↦ new Date(text).getTime()` (`none` is `NaN`) on
date keys of calendar dates: the time value is midnight UTC of the date. -/
def ReadsDateKeys (dateTime : String → Option Int) : Prop :=
  ∀ (s : String) (ymd : Nat × Nat × Nat), parseDateKey s = some ymd → validDate ymd = true →
    dateTime s = some (epochDay ymd * 86400000)

/-- A date reader that reads the date keys of calendar dates and nothing else. -/
def refDateTime (s : String) : Option Int :=
  match parseDateKey s with
  | some ymd => if validDate ymd then some (epochDay ymd * 86400000) else none
  | none => none

/-- The constant `diffDays` of `computeAndSaveStreak`:
`Math.round((curr - last) / 86400000)`; `none` is `NaN`. -/
def diffDays (dateTime : String → Option Int) (last completedDate : String) : Option Int :=
  match dateTime completedDate, dateTime last with
  | some curr, some l => some (mathRound (((curr - l : Int) : ℚ) / 86400000))
  | _, _ => none

/-- The streak that `computeAndSaveStreak(completedDate)` passes to `store.setStreak`, for
the streak `store.getStreak()` returned; `none` when no branch calls `setStreak`. The test
`!streak.lastCompletedDate` holds for `null` and for the empty string; with `diffDays` equal
to `NaN` both comparisons are false. -/
def streakUpdate (dateTime : String → Option Int) (streak : Streak) (completedDate : String) :
    Option Streak :=
  match streak.lastCompletedDate with
  | none => some { count := 1, lastCompletedDate := some completedDate }
  | some last =>
    if last = "" then some { count := 1, lastCompletedDate := some completedDate }
    else
      match diffDays dateTime last completedDate with
      | some n =>
        if n = 1 then some { count := streak.count + 1, lastCompletedDate := some completedDate }
        else if 1 < n then some { count := 1, lastCompletedDate := some completedDate }
        else none
      | none => none

/-- `computeAndSaveStreak(completedDate)`: the storage afterwards. It is `none` when the
stored value is not a streak record; such stored values are outside the model. -/
def computeAndSaveStreak (H : Host) (dateTime : String → Option Int) (s : LocalStorage)
    (completedDate : String) : Option LocalStorage :=
  match Streak.ofJson (store.getStreak H s).1 with
  | none => none
  | some streak =>
    match streakUpdate dateTime streak completedDate with
    | some next => some (store.setStreak H (store.getStreak H s).2 next)
    | none => some (store.getStreak H s).2

/-- A storage holding the streak `{ count: 3, lastCompletedDate: '2024-02-29' }`. -/
def streakStorage : LocalStorage :=
  { items := [("ddt_streak",
      refHost.stringify (Streak.toJson { count := 3, lastCompletedDate := some "2024-02-29" }))],
    quota := 5000000 }

/-- A storage filled to its quota that holds the streak
`{ count: 9, lastCompletedDate: '2024-02-29' }`. -/
def filledStreakStorage : LocalStorage :=
  { items := [("ddt_streak",
      refHost.stringify (Streak.toJson { count := 9, lastCompletedDate := some "2024-02-29" }))],
    quota := usedSpace [("ddt_streak",
      refHost.stringify (Streak.toJson { count := 9, lastCompletedDate := some "2024-02-29" }))] }

/-! ## The tracker's meal form (`js/tracker.js`) -/

/-- A day of the plan: `{ dayIndex, meals }`. -/
structure Day where
  dayIndex : Nat
  meals : List Meal
  deriving DecidableEq, Repr

/-- The plan object `{ days, createdAt, updatedAt }` the tracker page holds in `plan`. -/
structure Plan where
  days : List Day
  createdAt : String
  updatedAt : String
  deriving DecidableEq, Repr

/-- The JSON object of a meal; `JSON.stringify` writes `NaN` as `null`. -/
def Meal.toJson (m : Meal) : Json :=
  Json.obj [("id", Json.str m.id), ("name", Json.str m.name), ("type", Json.str m.type),
    ("calories",
      match m.calories with
      | some c => Json.num c
      | none => Json.null),
    ("completed", Json.bool m.completed), ("note", Json.str m.note)]

/-- The JSON object of a day. -/
def Day.toJson (d : Day) : Json :=
  Json.obj [("dayIndex", Json.num d.dayIndex), ("meals", Json.arr (d.meals.map Meal.toJson))]

/-- The own properties of a plan object. -/
def Plan.fields (p : Plan) : List (String × Json) :=
  [("days", Json.arr (p.days.map Day.toJson)), ("createdAt", Json.str p.createdAt),
    ("updatedAt", Json.str p.updatedAt)]

/-- The state the meal form reads and writes: the module variables `plan` and
`editingMealId` (`none` is `null`) and the storage. -/
structure TrackerState where
  plan : Plan
  editingMealId : Option String
  storage : LocalStorage
  deriving DecidableEq, Repr

/-- The test `!cal || cal <= 0 || cal > 9999 || isNaN(cal)` on `cal = parseFloat(calEl.value)`;
`none` is `NaN`. -/
def calRejected (cal : Option ℚ) : Bool :=
  match cal with
  | none => true
  | some c => decide (c = 0) || decide (c ≤ 0) || decide (c > 9999)

/-- The edit branch on the meals of a day: `meals.find(m => m.id === id)` returns the first
meal with that id, which is then assigned `name`, `type` and `calories`; without such a meal
nothing changes. -/
def editMeal (meals : List Meal) (id name type : String) (calories : Option Int) : List Meal :=
  match meals with
  | [] => []
  | m :: rest =>
    if m.id = id then { m with name := name, type := type, calories := calories } :: rest
    else m :: editMeal rest id name type calories

/-- The meals of the day after the branch `if (editingMealId) ... else ...`; `clock` is the
reading of `Date.now()`. The empty string is falsy like `null`. -/
def saveMeal (editingMealId : Option String) (meals : List Meal) (name type : String)
    (calories : Option Int) (clock : Int) : List Meal :=
  match editingMealId with
  | some id =>
    if id = "" then
      meals ++ [{ id := dateNowString clock, name := name, type := type, calories := calories,
                  completed := false, note := "" }]
    else editMeal meals id name type calories
  | none =>
    meals ++ [{ id := dateNowString clock, name := name, type := type, calories := calories,
                completed := false, note := "" }]

/-- The days after a change of `plan.days[dayIdx].meals`; `none` when `plan.days[dayIdx]` is
`undefined`, where reading `.meals` throws a `TypeError`. -/
def modifyDay (days : List Day) (dayIdx : Nat) (f : List Meal → List Meal) :
    Option (List Day) :=
  match days, dayIdx with
  | [], _ => none
  | d :: rest, 0 => some ({ d with meals := f d.meals } :: rest)
  | d :: rest, i + 1 => (modifyDay rest i f).map fun days1 => d :: days1

/-- `onMealFormSave(e)` for the form of day `dayIdx`, which is on the page: `name` is
`nameEl.value.trim()`, `type` is `typeEl.value`, `cal` is `parseFloat(calEl.value)` with
`none` for `NaN`, `clock` is the reading of `Date.now()` and `now` the string
`new Date().toISOString()` returns inside `store.setPlan`. The result is `none` when the
handler throws. `hideMealForm` resets `editingMealId`; rendering is not modelled. -/
def onMealFormSave (H : Host) (st : TrackerState) (dayIdx : Nat) (name type : String)
    (cal : Option ℚ) (clock : Int) (now : String) : Option TrackerState :=
  if name = "" ∨ calRejected cal = true then some st
  else
    match modifyDay st.plan.days dayIdx
        (fun meals => saveMeal st.editingMealId meals name type (cal.map mathRound) clock) with
    | none => none
    | some days =>
      some { plan := { st.plan with days := days, updatedAt := now }
             editingMealId := none
             storage := store.setPlan H st.storage ({ st.plan with days := days }).fields now }

/-- A tracker page whose plan has one day without meals, with the add form open. -/
def sampleTracker : TrackerState :=
  { plan := { days := [{ dayIndex := 0, meals := [] }], createdAt := "2024-03-01T07:00:00.000Z",
              updatedAt := "2024-03-01T07:00:00.000Z" }
    editingMealId := none
    storage := emptyStorage }

/-! ## Sums of calories (`js/progress.js`, `js/tracker.js`) -/

/-- The sum `s + m.calories` of JavaScript numbers; `none` is `NaN`. -/
def addCalories (s calories : Option Int) : Option Int :=
  match s, calories with
  | some a, some b => some (a + b)
  | _, _ => none

/-- The call `meals.reduce((s, m) => s + m.calories, 0)`. -/
def sumCalories (meals : List Meal) : Option Int :=
  meals.foldl (fun s m => addCalories s m.calories) (some 0)

/-- The example profile with another dietary preference and another creation time. -/
def veganProfile : Profile :=
  { exampleProfile with dietaryPreference := some "vegan", createdAt := "2025-06-30T18:45:00.000Z" }

/-! ## The weight chart (`utils.formatWeightChartSVG`) -/

/-- `Math.min(...ws)` for a non-empty list. For the empty list JavaScript gives `Infinity`,
which the chart never computes; the value 0 stands in for it. -/
def mathMin : List ℚ → ℚ
  | [] => 0
  | w :: rest => rest.foldl min w

/-- `Math.max(...ws)` for a non-empty list. For the empty list JavaScript gives `-Infinity`,
which the chart never computes; the value 0 stands in for it. -/
def mathMax : List ℚ → ℚ
  | [] => 0
  | w :: rest => rest.foldl max w

namespace utils

/-- The constant `range = maxW - minW || 1` of `formatWeightChartSVG`. -/
def chartRange (entries : List WeightEntry) : ℚ :=
  if mathMax (entries.map WeightEntry.weight) - mathMin (entries.map WeightEntry.weight) = 0 then 1
  else mathMax (entries.map WeightEntry.weight) - mathMin (entries.map WeightEntry.weight)

/-- The function `toX` of `formatWeightChartSVG`, with `pad.left = 40` and
`chartW = width - pad.left - pad.right`. -/
def toX (entries : List WeightEntry) (width : ℚ) (i : Nat) : ℚ :=
  40 + ((i : ℚ) / ((entries.length : ℚ) - 1)) * (width - 40 - 16)

/-- The function `toY` of `formatWeightChartSVG`, with `pad.top = 16` and
`chartH = height - pad.top - pad.bottom`. -/
def toY (entries : List WeightEntry) (height : ℚ) (w : ℚ) : ℚ :=
  16 + (height - 16 - 32)
    - ((w - mathMin (entries.map WeightEntry.weight)) / chartRange entries) * (height - 16 - 32)

/-- The layout of `utils.formatWeightChartSVG(entries, width, height)`: `none` is the
'Not enough data' placeholder, otherwise the list holds, for every entry in order, the
coordinates `toX(i)` and `toY(e.weight)` of its polyline point and dot. The text of the SVG,
in which `toFixed(1)` prints the coordinates, is not modelled. -/
def formatWeightChartSVG (entries : List WeightEntry) (width height : ℚ) :
    Option (List (ℚ × ℚ)) :=
  if entries.length < 2 then none
  else
    some ((List.zip entries (List.range entries.length)).map fun ei =>
      (toX entries width ei.2, toY entries height ei.1.weight))

end utils

/-- Three weighings on consecutive days. -/
def chartEntries : List WeightEntry :=
  [{ date := "2024-03-01", weight := 70 }, { date := "2024-03-02", weight := 72 },
   { date := "2024-03-03", weight := 71 }]

/-! ## The weekly summary (`js/progress.js`) -/

/-- The constant `dayConsumed` of `renderSummary`:
`day.meals.filter(m => m.completed).reduce((s, m) => s + m.calories, 0)`. -/
def dayConsumed (day : Day) : Option Int :=
  sumCalories (day.meals.filter fun m => m.completed)

/-- The constant `dayPlanned` of `renderSummary`. -/
def dayPlanned (day : Day) : Option Int :=
  sumCalories day.meals

/-- The test `day.meals.length > 0 && day.meals.every(m => m.completed)`. -/
def allDone (day : Day) : Bool :=
  decide (0 < day.meals.length) && day.meals.all fun m => m.completed

/-- The comparison `x > 0` of JavaScript numbers, false for `NaN`. -/
def isPositive (x : Option Int) : Bool :=
  match x with
  | some v => decide (0 < v)
  | none => false

/-- The four accumulators of `renderSummary`. -/
structure SummaryTotals where
  totalConsumed : Option Int
  totalPlanned : Option Int
  daysCompleted : Nat
  daysWithData : Nat
  deriving DecidableEq, Repr

/-- The body of the `plan.days.forEach` callback of `renderSummary`. -/
def summaryStep (acc : SummaryTotals) (day : Day) : SummaryTotals :=
  { totalConsumed := addCalories acc.totalConsumed (dayConsumed day)
    totalPlanned := addCalories acc.totalPlanned (dayPlanned day)
    daysCompleted := if allDone day then acc.daysCompleted + 1 else acc.daysCompleted
    daysWithData := if isPositive (dayConsumed day) then acc.daysWithData + 1
      else acc.daysWithData }

/-- The numbers `renderSummary` computes. -/
structure Summary where
  totalConsumed : Option Int
  totalPlanned : Option Int
  daysCompleted : Nat
  daysWithData : Nat
  weeklyGoal : Option ℚ
  avgConsumed : Option Int
  deriving DecidableEq, Repr

/-- `renderSummary(plan, goal)`: `none` is the 'No plan data yet.' message shown for a `null`
plan, otherwise the numbers computed for the grid; `none` in a number is `NaN`. The markup of
the grid is not modelled. -/
def renderSummary (plan : Option Plan) (goal : Option ℚ) : Option Summary :=
  match plan with
  | none => none
  | some plan =>
    let acc := plan.days.foldl summaryStep
      { totalConsumed := some 0, totalPlanned := some 0, daysCompleted := 0, daysWithData := 0 }
    some
      { totalConsumed := acc.totalConsumed
        totalPlanned := acc.totalPlanned
        daysCompleted := acc.daysCompleted
        daysWithData := acc.daysWithData
        weeklyGoal := goal.map fun g : ℚ => g * 7
        avgConsumed :=
          if 0 < acc.daysWithData then
            acc.totalConsumed.map fun t : Int => mathRound ((t : ℚ) / (acc.daysWithData : ℚ))
          else some 0 }

/-- The completed meals of all days of a plan, in order. -/
def completedMeals (plan : Plan) : List Meal :=
  (plan.days.map fun d => d.meals.filter fun m => m.completed).flatten

/-- The meals of all days of a plan, in order. -/
def allMeals (plan : Plan) : List Meal :=
  (plan.days.map fun d => d.meals).flatten

/-- A plan with a day whose meals are all completed and a day from which every meal has
been deleted. -/
def emptyDayPlan : Plan :=
  { days := [{ dayIndex := 0,
               meals := [{ id := "default-0-breakfast", name := "Poha with peanuts",
                           type := "Breakfast", calories := some 514, completed := true,
                           note := "" }] },
             { dayIndex := 1, meals := [] }]
    createdAt := "2024-03-01T07:00:00.000Z"
    updatedAt := "2024-03-02T07:00:00.000Z" }

/-- A plan with one day of the default meals of the profile female, 95 years, 30 kg, 120 cm,
sedentary, lose_weight, the breakfast being completed. -/
def frailPlan : Plan :=
  { days := [{ dayIndex := 0,
               meals := [{ id := "default-0-breakfast", name := "Poha with peanuts",
                           type := "Breakfast", calories := some (-1), completed := true,
                           note := "" },
                         { id := "default-0-lunch", name := "Chicken curry with rice",
                           type := "Lunch", calories := some (-1), completed := false,
                           note := "" },
                         { id := "default-0-snack", name := "Boiled egg",
                           type := "Snack", calories := some 0, completed := false,
                           note := "" },
                         { id := "default-0-dinner", name := "Roti with dal makhani",
                           type := "Dinner", calories := some (-1), completed := false,
                           note := "" }] }]
    createdAt := "2024-03-01T07:00:00.000Z"
    updatedAt := "2024-03-02T07:00:00.000Z" }

/-- A plan with two days, the first with both meals completed. -/
def weekPlan : Plan :=
  { days := [{ dayIndex := 0,
               meals := [{ id := "default-0-breakfast", name := "Poha with peanuts",
                           type := "Breakfast", calories := some 514, completed := true,
                           note := "" },
                         { id := "default-0-lunch", name := "Chicken curry with rice",
                           type := "Lunch", calories := some 720, completed := true,
                           note := "" }] },
             { dayIndex := 1,
               meals := [{ id := "default-1-breakfast", name := "Idli with sambar",
                           type := "Breakfast", calories := some 514, completed := true,
                           note := "" },
                         { id := "default-1-lunch", name := "Egg fried rice",
                           type := "Lunch", calories := some 720, completed := false,
                           note := "" }] }]
    createdAt := "2024-03-01T07:00:00.000Z"
    updatedAt := "2024-03-02T07:00:00.000Z" }

/-! ## The goal in use (`js/tracker.js`, `js/progress.js`, `utils.planToText`) -/

/-- Reads the value `store.getGoalOverride()` returned as a number (`some`) or `null`
(`none`). Stored values of another type are outside the model (the outer `none`): the
settings page stores a number or deletes the key. -/
def goalOverrideOfJson : Json → Option (Option ℚ)
  | Json.null => some none
  | Json.num q => some (some q)
  | _ => none

/-- The expression `goalOverride || computed` for a goal override that is a number or `null`:
0 is falsy like `null`. In the numbers `none` is `NaN`. -/
def orGoal (goalOverride : Option ℚ) (computed : Option ℚ) : Option ℚ :=
  match goalOverride with
  | some q => if q = 0 then computed else some q
  | none => computed

/-- The comparison `a > b` of JavaScript numbers, false when either is `NaN`. -/
def gtNumber (a b : Option ℚ) : Bool :=
  match a, b with
  | some x, some y => decide (y < x)
  | _, _ => false

/-- The difference `a - b` of JavaScript numbers. -/
def subNumber (a b : Option ℚ) : Option ℚ :=
  match a, b with
  | some x, some y => some (x - y)
  | _, _ => none

/-- The call `Math.min(x, 1)`. -/
def minOne (x : Option ℚ) : Option ℚ :=
  x.map fun r : ℚ => min r 1

/-- A sum of calories as a JavaScript number. -/
def toNumber (x : Option Int) : Option ℚ :=
  x.map fun c : Int => (c : ℚ)

/-- The constants `renderDayColumn` computes before it builds the markup. -/
structure DayColumn where
  goal : Option ℚ
  consumed : Option ℚ
  remaining : Option ℚ
  ratio : Option ℚ
  exceeded : Bool
  allDone : Bool
  deriving DecidableEq, Repr

/-- The constants of `renderDayColumn(day, dayIdx, dayName)` of the tracker page, for the
module variable `profile`; `none` when the stored goal override is outside the model. The
markup is not modelled. -/
def renderDayColumn (H : Host) (s : LocalStorage) (profile : Profile) (day : Day) :
    Option DayColumn :=
  match goalOverrideOfJson (store.getGoalOverride H s).1 with
  | none => none
  | some goalOverride =>
    some
      { goal := orGoal goalOverride (toNumber (utils.computeGoal profile))
        consumed := toNumber (dayConsumed day)
        remaining := subNumber (orGoal goalOverride (toNumber (utils.computeGoal profile)))
          (toNumber (dayConsumed day))
        ratio := minOne (utils.progressRatio (toNumber (dayConsumed day))
          (orGoal goalOverride (toNumber (utils.computeGoal profile))))
        exceeded := gtNumber (toNumber (dayConsumed day))
          (orGoal goalOverride (toNumber (utils.computeGoal profile)))
        allDone := allDone day }

/-- The constant `goal` of the progress page's `DOMContentLoaded` handler, which it passes to
`renderSummary` and `renderDailyBreakdown`; `none` when the stored goal override is outside
the model. -/
def progressGoal (H : Host) (s : LocalStorage) (profile : Profile) : Option (Option ℚ) :=
  match goalOverrideOfJson (store.getGoalOverride H s).1 with
  | none => none
  | some goalOverride => some (orGoal goalOverride (toNumber (utils.computeGoal profile)))

/-- The constants of one row of `renderDailyBreakdown`; the label of the row reads
`consumed / goal kcal`. -/
structure BreakdownRow where
  consumed : Option ℚ
  goal : Option ℚ
  ratio : Option ℚ
  exceeded : Bool
  deriving DecidableEq, Repr

/-- The rows of `renderDailyBreakdown(plan, goal)`; for a `null` plan there are none. The
markup is not modelled. -/
def renderDailyBreakdown (plan : Option Plan) (goal : Option ℚ) : List BreakdownRow :=
  match plan with
  | none => []
  | some plan =>
    plan.days.map fun day =>
      { consumed := toNumber (dayConsumed day)
        goal := goal
        ratio := minOne (utils.progressRatio (toNumber (dayConsumed day)) goal)
        exceeded := gtNumber (toNumber (dayConsumed day)) goal }

/-- The array `dayNames`. -/
def dayNames : List String :=
  ["Monday", "Tuesday", "Wednesday", "Thursday", "Friday", "Saturday", "Sunday"]

/-- The text of `goalOverride || day.dailyGoal || '—'` in the template of `planToText`, for a
goal override that is a number or `null`; the days of a plan carry no `dailyGoal`.
`numberText` is the host's conversion of a number to a string. -/
def dayGoalText (numberText : ℚ → String) (goalOverride : Option ℚ) : String :=
  match goalOverride with
  | some q => if q = 0 then "—" else numberText q
  | none => "—"

/-- The text of `meal.calories` in a template. -/
def caloriesText (numberText : ℚ → String) (calories : Option Int) : String :=
  match calories with
  | some c => numberText c
  | none => "NaN"

/-- The name of the day at index `i` in the template of `planToText`: `dayNames[i]`, or
'Day' followed by the number `i + 1` when the array has no such index. -/
def dayTitle (numberText : ℚ → String) (i : Nat) : String :=
  match dayNames[i]? with
  | some name => name
  | none => "Day " ++ numberText ((i : ℚ) + 1)

/-- The lines `planToText` pushes for the day at index `i`. -/
def dayLines (numberText : ℚ → String) (goalOverride : Option ℚ) (day : Day) (i : Nat) :
    List String :=
  [dayTitle numberText i ++ "  (Goal: " ++ dayGoalText numberText goalOverride ++ " kcal)",
    String.mk (List.replicate 36 '─')]
  ++ (if day.meals = [] then ["  (no meals)"]
      else day.meals.map fun meal =>
        "  • [" ++ meal.type ++ "] " ++ meal.name ++ " — "
          ++ caloriesText numberText meal.calories ++ " kcal")
  ++ [""]

/-- `utils.planToText(plan, goalOverride)` for a goal override that is a number or `null`. -/
def utils.planToText (numberText : ℚ → String) (plan : Option Plan) (goalOverride : Option ℚ) :
    String :=
  match plan with
  | none => ""
  | some plan =>
    "\n".intercalate
      (["Nutrify — 7-Day Diet Plan", String.mk (List.replicate 40 '═'), ""]
        ++ ((List.zip plan.days (List.range plan.days.length)).map fun di =>
              dayLines numberText goalOverride di.1 di.2).flatten)

/-- The text `onDownloadPDF` copies to the clipboard: `utils.planToText(plan,
store.getGoalOverride())`; `none` when the stored goal override is outside the model. -/
def onDownloadPDF (H : Host) (numberText : ℚ → String) (s : LocalStorage) (plan : Plan) :
    Option String :=
  (goalOverrideOfJson (store.getGoalOverride H s).1).map fun goalOverride =>
    utils.planToText numberText (some plan) goalOverride

/-- A storage that holds the goal override 1800. -/
def goalStorage : LocalStorage :=
  { items := [("ddt_goal", refHost.stringify (Json.num 1800))], quota := 5000000 }

/-- A conversion of numbers to strings that prints integers in decimal. -/
def refNumberText (q : ℚ) : String :=
  if q.den = 1 then dateNowString q.num else "?"

/-! ## Sequences of streak updates -/

/-- The day number of a date key of a calendar date; `none` for any other string. -/
def calendarDay (d : String) : Option Int :=
  match parseDateKey d with
  | some x => if validDate x then some (epochDay x) else none
  | none => none

/-- The day number of the last completion of a streak, if it is a calendar date. -/
def streakDay (st : Streak) : Option Int :=
  st.lastCompletedDate.bind calendarDay

/-- The calls `computeAndSaveStreak(d)` for the dates of a list, in order. -/
def runStreakUpdates (H : Host) (dateTime : String → Option Int) :
    LocalStorage → List String → Option LocalStorage
  | s, [] => some s
  | s, d :: ds =>
    match computeAndSaveStreak H dateTime s d with
    | some s1 => runStreakUpdates H dateTime s1 ds
    | none => none

/-! ## The events of the tracker page (`js/tracker.js`) -/

/-- The call `meals.find(m => m.id === id)` followed by an assignment to a property of the
meal found: the first meal with that id is replaced by `f` of it. -/
def updateMeal (meals : List Meal) (id : String) (f : Meal → Meal) : List Meal :=
  match meals with
  | [] => []
  | m :: rest => if m.id = id then f m :: rest else m :: updateMeal rest id f

/-- The click handler of the '+ Add Meal' button: `editingMealId = null`, then the form is
shown. -/
def onAddMealClick (st : TrackerState) : TrackerState :=
  { st with editingMealId := none }

/-- `onEditMeal(e)`: `editingMealId = mealId`, then the form is shown. -/
def onEditMeal (st : TrackerState) (mealId : String) : TrackerState :=
  { st with editingMealId := some mealId }

/-- `onDeleteMeal(e)`; `none` when `plan.days[dayIdx]` is `undefined` and the handler
throws. -/
def onDeleteMeal (H : Host) (st : TrackerState) (dayIdx : Nat) (mealId now : String) :
    Option TrackerState :=
  match modifyDay st.plan.days dayIdx (fun meals => meals.filter fun m => m.id ≠ mealId) with
  | none => none
  | some days =>
    some { plan := { st.plan with days := days, updatedAt := now }
           editingMealId := st.editingMealId
           storage := store.setPlan H st.storage ({ st.plan with days := days }).fields now }

/-- `onMealToggle(e)`: `checked` is `e.target.checked`, `today` is `utils.todayKey()`. The
result is `none` when `plan.days[dayIdx]` is `undefined` and the handler throws, and when the
stored streak is outside the model of `computeAndSaveStreak`. -/
def onMealToggle (H : Host) (dateTime : String → Option Int) (st : TrackerState) (dayIdx : Nat)
    (mealId : String) (checked : Bool) (today now : String) : Option TrackerState :=
  match st.plan.days[dayIdx]? with
  | none => none
  | some day =>
    if day.meals.any (fun m => decide (m.id = mealId)) then
      if allDone { day with
          meals := updateMeal day.meals mealId fun m => { m with completed := checked } } then
        (computeAndSaveStreak H dateTime
          (store.setPlan H st.storage
            ({ st.plan with
                days := st.plan.days.set dayIdx
                  { day with
                    meals := updateMeal day.meals mealId
                      fun m => { m with completed := checked } } }).fields now)
          today).map fun s2 =>
            { plan :=
                { st.plan with
                  days := st.plan.days.set dayIdx
                    { day with
                      meals := updateMeal day.meals mealId
                        fun m => { m with completed := checked } }
                  updatedAt := now }
              editingMealId := st.editingMealId
              storage := s2 }
      else
        some
          { plan :=
              { st.plan with
                days := st.plan.days.set dayIdx
                  { day with
                    meals := updateMeal day.meals mealId
                      fun m => { m with completed := checked } }
                updatedAt := now }
            editingMealId := st.editingMealId
            storage := store.setPlan H st.storage
              ({ st.plan with
                  days := st.plan.days.set dayIdx
                    { day with
                      meals := updateMeal day.meals mealId
                        fun m => { m with completed := checked } } }).fields now }
    else some st

/-- `onMealNoteInput(e)`: `text` is `e.target.value`; `none` when `plan.days[dayIdx]` is
`undefined` and the handler throws. -/
def onMealNoteInput (H : Host) (st : TrackerState) (dayIdx : Nat) (mealId text now : String) :
    Option TrackerState :=
  match st.plan.days[dayIdx]? with
  | none => none
  | some day =>
    if day.meals.any (fun m => decide (m.id = mealId)) then
      some
        { plan :=
            { st.plan with
              days := st.plan.days.set dayIdx
                { day with meals := updateMeal day.meals mealId fun m => { m with note := text } }
              updatedAt := now }
          editingMealId := st.editingMealId
          storage := store.setPlan H st.storage
            ({ st.plan with
                days := st.plan.days.set dayIdx
                  { day with
                    meals := updateMeal day.meals mealId
                      fun m => { m with note := text } } }).fields now }
    else some st

/-- The events of the tracker page that read or write the meals of the plan, with the inputs
of their handlers. -/
inductive TrackerEvent where
  | addMeal (dayIdx : Nat)
  | editMeal (dayIdx : Nat) (mealId : String)
  | save (dayIdx : Nat) (name type : String) (cal : Option ℚ) (clock : Int) (now : String)
  | delete (dayIdx : Nat) (mealId now : String)
  | toggle (dayIdx : Nat) (mealId : String) (checked : Bool) (today now : String)
  | note (dayIdx : Nat) (mealId text now : String)

/-- The handler of an event. -/
def applyEvent (H : Host) (dateTime : String → Option Int) (ev : TrackerEvent)
    (st : TrackerState) : Option TrackerState :=
  match ev with
  | TrackerEvent.addMeal _ => some (onAddMealClick st)
  | TrackerEvent.editMeal _ mealId => some (onEditMeal st mealId)
  | TrackerEvent.save dayIdx name type cal clock now =>
    onMealFormSave H st dayIdx name type cal clock now
  | TrackerEvent.delete dayIdx mealId now => onDeleteMeal H st dayIdx mealId now
  | TrackerEvent.toggle dayIdx mealId checked today now =>
    onMealToggle H dateTime st dayIdx mealId checked today now
  | TrackerEvent.note dayIdx mealId text now => onMealNoteInput H st dayIdx mealId text now

/-- The handlers of a sequence of events, one after the other; `none` when one of them does
not return. -/
def runEvents (H : Host) (dateTime : String → Option Int) :
    List TrackerEvent → TrackerState → Option TrackerState
  | [], st => some st
  | ev :: rest, st =>
    match applyEvent H dateTime ev st with
    | some st1 => runEvents H dateTime rest st1
    | none => none

/-- The meal ids of every day are pairwise distinct. -/
def idsDistinct (days : List Day) : Prop :=
  ∀ day ∈ days, (day.meals.map Meal.id).Nodup

/-- Whether a save event in this state adds a meal whose id, the numeral of the clock
reading, is not yet an id of a meal of the day; true for every other event. -/
def freshAt (ev : TrackerEvent) (st : TrackerState) : Bool :=
  match ev with
  | TrackerEvent.save dayIdx _ _ _ clock _ =>
    match st.plan.days[dayIdx]? with
    | some day =>
      (match st.editingMealId with
        | some id => decide (id ≠ "")
        | none => false)
      || decide (dateNowString clock ∉ day.meals.map Meal.id)
    | none => true
  | _ => true

/-- Whether every meal added along the run of the events gets a fresh id. -/
def freshClock (H : Host) (dateTime : String → Option Int) :
    List TrackerEvent → TrackerState → Bool
  | [], _ => true
  | ev :: rest, st =>
    freshAt ev st &&
      match applyEvent H dateTime ev st with
      | some st1 => freshClock H dateTime rest st1
      | none => true

/-- Two saves through the add form with the same clock reading. -/
def sameClockEvents : List TrackerEvent :=
  [TrackerEvent.addMeal 0,
   TrackerEvent.save 0 "Tea" "Snack" (some 120) 1709280000000 "2024-03-01T08:00:00.000Z",
   TrackerEvent.addMeal 0,
   TrackerEvent.save 0 "Milk" "Snack" (some 90) 1709280000000 "2024-03-01T08:00:00.000Z"]

/-- Two additions, a note, a toggle, an edit and a deletion on the first day. -/
def sampleEvents : List TrackerEvent :=
  [TrackerEvent.addMeal 0,
   TrackerEvent.save 0 "Tea" "Snack" (some 120) 1709280000000 "2024-03-01T08:00:00.000Z",
   TrackerEvent.note 0 "1709280000000" "with milk" "2024-03-01T08:01:00.000Z",
   TrackerEvent.toggle 0 "1709280000000" false "2024-03-01" "2024-03-01T08:02:00.000Z",
   TrackerEvent.editMeal 0 "1709280000000",
   TrackerEvent.save 0 "Green tea" "Snack" (some 5) 1709280060000 "2024-03-01T08:03:00.000Z",
   TrackerEvent.addMeal 0,
   TrackerEvent.save 0 "Milk" "Snack" (some 90) 1709280120000 "2024-03-01T08:04:00.000Z",
   TrackerEvent.delete 0 "1709280000000" "2024-03-01T08:05:00.000Z"]

/-! # Results

## Keyed collections and `localStorage` -/

theorem lookup_cons_ite {α : Type} (key k : String) (v : α) (rest : List (String × α)) :
    List.lookup key ((k, v) :: rest) = if k = key then some v else List.lookup key rest := by
  by_cases h : k = key
  · subst h; simp [List.lookup]
  · have hb : (key == k) = false := by simpa using fun e => h e.symm
    simp [List.lookup, hb, h]

theorem lookup_putKey_self {α : Type} (items : List (String × α)) (key : String) (value : α) :
    (putKey items key value).lookup key = some value := by
  induction items with
  | nil => simp [putKey, lookup_cons_ite]
  | cons kv items ih =>
    obtain ⟨k, v⟩ := kv
    by_cases h : k = key
    · simp [putKey, h, lookup_cons_ite]
    · simp [putKey, h, lookup_cons_ite, ih]

theorem lookup_putKey_ne {α : Type} (items : List (String × α)) (key other : String) (value : α)
    (hne : other ≠ key) : (putKey items key value).lookup other = items.lookup other := by
  induction items with
  | nil => simp [putKey, lookup_cons_ite, Ne.symm hne]
  | cons kv items ih =>
    obtain ⟨k, v⟩ := kv
    by_cases h : k = key
    · have h2 : ¬ k = other := fun e => hne (e.symm.trans h)
      simp [putKey, h, lookup_cons_ite, Ne.symm hne]
    · simp [putKey, h, lookup_cons_ite, ih]

theorem lookup_eraseKey_self (items : List (String × String)) (key : String) :
    (eraseKey items key).lookup key = none := by
  induction items with
  | nil => rfl
  | cons kv items ih =>
    obtain ⟨k, v⟩ := kv
    by_cases h : k = key
    · simp [eraseKey, h, ih]
    · simp [eraseKey, h, lookup_cons_ite, ih]

theorem lookup_eraseKey_ne (items : List (String × String)) (key other : String)
    (hne : other ≠ key) : (eraseKey items key).lookup other = items.lookup other := by
  induction items with
  | nil => rfl
  | cons kv items ih =>
    obtain ⟨k, v⟩ := kv
    by_cases h : k = key
    · have h2 : ¬ k = other := fun e => hne (e.symm.trans h)
      simp [eraseKey, h, lookup_cons_ite, ih, Ne.symm hne]
    · simp [eraseKey, h, lookup_cons_ite, ih]

namespace LocalStorage

theorem getItem_setItem_self (s s1 : LocalStorage) (key value : String)
    (h : s.setItem key value = some s1) : s1.getItem key = some value := by
  unfold setItem at h
  split at h
  · injection h with h; subst h
    exact lookup_putKey_self _ _ _
  · exact absurd h (by simp)

theorem getItem_setItem_ne (s s1 : LocalStorage) (key value other : String)
    (h : s.setItem key value = some s1) (hne : other ≠ key) :
    s1.getItem other = s.getItem other := by
  unfold setItem at h
  split at h
  · injection h with h; subst h
    exact lookup_putKey_ne _ _ _ _ hne
  · exact absurd h (by simp)

theorem getItem_removeItem_self (s : LocalStorage) (key : String) :
    (s.removeItem key).getItem key = none :=
  lookup_eraseKey_self _ _

theorem setItem_none_of_quota_zero (items : List (String × String)) (key value : String)
    (hk : key ≠ "") : (LocalStorage.mk items 0).setItem key value = none := by
  have hpos : 0 < usedSpace (putItem items key value) := by
    have hlen : 0 < key.length := by
      rcases key with ⟨cs⟩
      cases cs with
      | nil => exact absurd rfl hk
      | cons c cs => simp [String.length]
    unfold putItem
    induction items with
    | nil => simp [putKey, usedSpace]; omega
    | cons kv items ih =>
      obtain ⟨k, v⟩ := kv
      by_cases h : k = key
      · simp [putKey, h, usedSpace]; omega
      · simp only [putKey, h, if_false, usedSpace, List.map_cons, List.sum_cons]
        unfold usedSpace at ih
        omega
  unfold setItem
  simp only
  rw [if_neg (by omega)]

end LocalStorage

namespace store

theorem get_absent (H : Host) (s : LocalStorage) (key : String) (d : Json)
    (h : s.getItem key = none) : get H s key d = (d, s) := by
  simp [get, h]

theorem get_valid (H : Host) (s : LocalStorage) (key raw : String) (d v : Json)
    (h : s.getItem key = some raw) (hv : H.jsonParse raw = some v) : get H s key d = (v, s) := by
  simp [get, h, hv]

theorem get_corrupted (H : Host) (s : LocalStorage) (key raw : String) (d : Json)
    (h : s.getItem key = some raw) (hv : H.jsonParse raw = none) :
    get H s key d = (d, s.removeItem key) := by
  simp [get, h, hv]

theorem set_of_rejected (H : Host) (s : LocalStorage) (key : String) (v : Json)
    (h : s.setItem key (H.stringify v) = none) : set H s key v = s := by
  simp [set, h]

theorem set_of_quota_zero (H : Host) (items : List (String × String)) (key : String) (v : Json)
    (hk : key ≠ "") : set H (LocalStorage.mk items 0) key v = LocalStorage.mk items 0 :=
  set_of_rejected H _ key v (LocalStorage.setItem_none_of_quota_zero items key _ hk)

theorem get_set_self (H : Host) (hJ : H.JsonRoundTrip) (s : LocalStorage) (key : String)
    (v d : Json) (hw : writeAccepted H s key v = true) :
    get H (set H s key v) key d = (v, set H s key v) := by
  unfold writeAccepted at hw
  cases hs : s.setItem key (H.stringify v) with
  | none => rw [hs] at hw; simp at hw
  | some s1 =>
    have e : set H s key v = s1 := by simp [set, hs]
    rw [e]
    exact get_valid H s1 key _ d v (LocalStorage.getItem_setItem_self s s1 key _ hs) (hJ v)

theorem getItem_set_ne (H : Host) (s : LocalStorage) (key other : String) (v : Json)
    (hne : other ≠ key) : (set H s key v).getItem other = s.getItem other := by
  cases hs : s.setItem key (H.stringify v) with
  | none => simp [set, hs]
  | some s1 =>
    have e : set H s key v = s1 := by simp [set, hs]
    rw [e]
    exact LocalStorage.getItem_setItem_ne s s1 key _ other hs hne

theorem get_value_congr (H : Host) (s s1 : LocalStorage) (key : String) (d : Json)
    (h : s1.getItem key = s.getItem key) : (get H s1 key d).1 = (get H s key d).1 := by
  unfold get
  rw [h]
  cases s.getItem key with
  | none => rfl
  | some raw =>
    cases hv : H.jsonParse raw with
    | none => simp [hv]
    | some v => simp [hv]

theorem get_get (H : Host) (s : LocalStorage) (key : String) (d : Json) :
    get H (get H s key d).2 key d = get H s key d := by
  cases h : s.getItem key with
  | none => simp [get, h]
  | some raw =>
    cases hv : H.jsonParse raw with
    | some v => simp [get, h, hv]
    | none =>
      have e : get H s key d = (d, s.removeItem key) := get_corrupted H s key raw d h hv
      rw [e]
      exact get_absent H _ key d (LocalStorage.getItem_removeItem_self s key)

theorem waterKey_injective (a b : String) (h : waterKey a = waterKey b) : a = b := by
  unfold waterKey at h
  have h2 := congrArg String.data h
  simp only [String.data_append] at h2
  exact String.ext (List.append_cancel_left h2)

end store

/-! ## The reference host meets the host contracts -/

namespace RefCodec

theorem digitChar_props (d : Nat) (h : d < 10) :
    digitChar d ≠ '/' ∧ digitChar d ≠ ';' ∧ (digitChar d).isDigit = true ∧
      digitVal (digitChar d) = d := by
  interval_cases d <;> decide

theorem natDigits_lt (fuel n d : Nat) (h : d ∈ natDigits fuel n) : d < 10 := by
  induction fuel generalizing n with
  | zero => simp [natDigits] at h
  | succ fuel ih =>
    unfold natDigits at h
    split at h
    · simp at h
    · rcases List.mem_cons.mp h with h | h
      · omega
      · exact ih _ h

theorem fromDigits_natDigits (fuel n : Nat) (h : n ≤ fuel) :
    fromDigits (natDigits fuel n) = n := by
  induction fuel generalizing n with
  | zero =>
    have : n = 0 := by omega
    simp [natDigits, fromDigits, this]
  | succ fuel ih =>
    unfold natDigits
    split
    · rename_i h0; simp [fromDigits, h0]
    · rename_i h0
      have hle : n / 10 ≤ fuel := by omega
      simp only [fromDigits, ih _ hle]
      omega

theorem parseNatUntil_map (stop : Char) (hs : stop = '/' ∨ stop = ';') (L : List Nat)
    (hL : ∀ d ∈ L, d < 10) (acc : List Nat) (rest : List Char) :
    parseNatUntil stop (L.map digitChar ++ stop :: rest) acc
      = some (fromDigits (L.reverse ++ acc), rest) := by
  induction L generalizing acc with
  | nil => simp [parseNatUntil]
  | cons d L ih =>
    obtain ⟨h1, h2, h3, h4⟩ := digitChar_props d (hL d (List.mem_cons_self _ _))
    have hne : digitChar d ≠ stop := by
      rcases hs with rfl | rfl
      · exact h1
      · exact h2
    simp only [List.map_cons, List.cons_append, parseNatUntil, hne, if_false, h3, if_true, h4]
    have := ih (fun x hx => hL x (List.mem_cons_of_mem _ hx)) (d :: acc)
    simp only [List.reverse_cons, List.append_assoc, List.singleton_append]
    exact this

theorem parseNatUntil_encNat (stop : Char) (hs : stop = '/' ∨ stop = ';') (n : Nat)
    (rest : List Char) :
    parseNatUntil stop (encNat n ++ stop :: rest) [] = some (n, rest) := by
  unfold encNat
  rw [parseNatUntil_map stop hs _ (fun d hd => by
    rw [List.mem_reverse] at hd
    exact natDigits_lt _ _ _ hd)]
  simp [fromDigits_natDigits n n (le_refl n)]

theorem parseFrac_encNum (q : ℚ) (rest : List Char) :
    parseFrac (decide (q.num < 0)) (encNat q.num.natAbs ++ '/' :: (encNat q.den ++ ';' :: rest))
      = some (q, rest) := by
  unfold parseFrac
  rw [parseNatUntil_encNat '/' (Or.inl rfl)]
  simp only
  rw [parseNatUntil_encNat ';' (Or.inr rfl)]
  simp only [Option.some.injEq, Prod.mk.injEq, and_true]
  have hq := Rat.mkRat_self q
  by_cases h : q.num < 0
  · simp only [h, decide_True, if_true]
    have : -((q.num.natAbs : ℕ) : Int) = q.num := by
      rw [Int.natCast_natAbs, abs_of_neg h, neg_neg]
    rw [this]; exact hq
  · simp only [h, decide_False, Bool.false_eq_true, if_false]
    have : ((q.num.natAbs : ℕ) : Int) = q.num := by
      rw [Int.natCast_natAbs, abs_of_nonneg (not_lt.mp h)]
    rw [this]; exact hq

theorem parseStr_encStr (cs rest : List Char) :
    parseStr (encStr cs ++ rest) = some (cs, rest) := by
  induction cs with
  | nil =>
    cases rest <;> simp [encStr, parseStr]
  | cons c cs ih =>
    by_cases hc : c = '"' ∨ c = '\\'
    · simp only [encStr, hc, if_true, List.cons_append]
      simp [parseStr, ih]
    · simp only [encStr, hc, if_false, List.cons_append]
      have h1 : c ≠ '"' := fun h => hc (Or.inl h)
      have h2 : c ≠ '\\' := fun h => hc (Or.inr h)
      cases hcs : encStr cs ++ rest with
      | nil =>
        rw [hcs] at ih; simp [parseStr] at ih
      | cons d r =>
        rw [hcs] at ih
        simp [parseStr, h1, h2, ih]

theorem encV_head (v : Json) : ∃ c r, encV v = c :: r ∧ c ≠ ']' := by
  cases v with
  | null => exact ⟨_, _, rfl, by decide⟩
  | bool b => cases b <;> exact ⟨_, _, rfl, by decide⟩
  | num q =>
    refine ⟨_, _, rfl, ?_⟩
    split <;> decide
  | str s => exact ⟨_, _, rfl, by decide⟩
  | arr xs => exact ⟨_, _, by rw [encV], by decide⟩
  | obj fs => exact ⟨_, _, by rw [encV], by decide⟩

mutual
theorem parseV_encV : ∀ (v : Json) (fuel : Nat) (rest : List Char), needV v ≤ fuel →
    parseV fuel (encV v ++ rest) = some (v, rest)
  | Json.null, fuel + 1, rest, _ => by simp [encV, parseV]
  | Json.bool true, fuel + 1, rest, _ => by simp [encV, parseV]
  | Json.bool false, fuel + 1, rest, _ => by simp [encV, parseV]
  | Json.num q, fuel + 1, rest, _ => by
    have hf := parseFrac_encNum q rest
    by_cases h : q.num < 0
    · simp only [h, decide_True] at hf
      simp only [encV, encNum, h, if_true, List.cons_append, parseV]
      simp [hf]
    · simp only [h, decide_False] at hf
      simp only [encV, encNum, h, if_false, List.cons_append, parseV]
      simp [hf]
  | Json.str s, fuel + 1, rest, _ => by
    simp [encV, parseV, parseStr_encStr]
  | Json.arr xs, fuel + 1, rest, h => by
    have hx : needL xs ≤ fuel := by simp [needV] at h; exact h
    simp [encV, parseV, parseL_encL xs fuel rest hx]
  | Json.obj fs, fuel + 1, rest, h => by
    have hx : needF fs ≤ fuel := by simp [needV] at h; exact h
    simp [encV, parseV, parseF_encF fs fuel rest hx]
  | v, 0, _, h => by
    exfalso
    cases v <;> simp [needV] at h
theorem parseL_encL : ∀ (xs : List Json) (fuel : Nat) (rest : List Char), needL xs ≤ fuel →
    parseL fuel (encL xs ++ rest) = some (xs, rest)
  | [], fuel + 1, rest, _ => by simp [encL, parseL]
  | x :: xs, fuel + 1, rest, h => by
    have h1 : needV x ≤ fuel := by simp [needL] at h; exact h.1
    have h2 : needL xs ≤ fuel := by simp [needL] at h; exact h.2
    obtain ⟨c, r, hc, hne⟩ := encV_head x
    have e := parseV_encV x fuel (',' :: (encL xs ++ rest)) h1
    rw [hc] at e
    simp only [encL, hc, List.cons_append, List.append_assoc, parseL, hne, if_false]
    simp only [List.cons_append] at e
    rw [e]
    simp [parseL_encL xs fuel rest h2]
  | xs, 0, _, h => by
    exfalso
    cases xs <;> simp [needL] at h
theorem parseF_encF : ∀ (fs : List (String × Json)) (fuel : Nat) (rest : List Char),
    needF fs ≤ fuel → parseF fuel (encF fs ++ rest) = some (fs, rest)
  | [], fuel + 1, rest, _ => by simp [encF, parseF]
  | (k, v) :: fs, fuel + 1, rest, h => by
    have h1 : needV v ≤ fuel := by simp [needF] at h; exact h.1
    have h2 : needF fs ≤ fuel := by simp [needF] at h; exact h.2
    have e := parseV_encV v fuel (',' :: (encF fs ++ rest)) h1
    have e2 := parseF_encF fs fuel rest h2
    have e3 := parseStr_encStr k.data (':' :: (encV v ++ ',' :: (encF fs ++ rest)))
    simp only [encF, List.cons_append, List.append_assoc, parseF]
    simp only [List.cons_append, List.append_assoc] at e e3
    simp [e3, e, e2]
  | fs, 0, _, h => by
    exfalso
    cases fs with
    | nil => simp [needF] at h
    | cons kv fs => cases kv; simp [needF] at h
end

mutual
theorem needV_le : ∀ v : Json, needV v ≤ (encV v).length
  | Json.null => by simp [needV, encV]
  | Json.bool true => by simp [needV, encV]
  | Json.bool false => by simp [needV, encV]
  | Json.num q => by simp [needV, encV, encNum]
  | Json.str s => by simp [needV, encV]
  | Json.arr xs => by
    have := needL_le xs
    simp [needV, encV]; omega
  | Json.obj fs => by
    have := needF_le fs
    simp [needV, encV]; omega
theorem needL_le : ∀ xs : List Json, needL xs ≤ (encL xs).length
  | [] => by simp [needL, encL]
  | x :: xs => by
    have h1 := needV_le x
    have h2 := needL_le xs
    simp [needL, encL]; omega
theorem needF_le : ∀ fs : List (String × Json), needF fs ≤ (encF fs).length
  | [] => by simp [needF, encF]
  | (k, v) :: fs => by
    have h1 := needV_le v
    have h2 := needF_le fs
    simp [needF, encF]; omega
end

theorem parse_stringify (v : Json) : parse (stringify v) = some v := by
  have h := parseV_encV v ((encV v).length + 1) [] (Nat.le_succ_of_le (needV_le v))
  simp only [List.append_nil] at h
  simp [parse, stringify, String.length, h]

end RefCodec

theorem refHost_jsonRoundTrip : refHost.JsonRoundTrip :=
  fun v => RefCodec.parse_stringify v

theorem refHost_comparesDateKeys : refHost.ComparesDateKeys := by
  intro a b _ _
  have hlt : a.data < b.data ↔ a < b := (String.lt_iff_toList_lt).symm
  simp only [refHost, hlt]
  constructor
  · intro h
    by_contra hab
    have hlt : ¬ a < b := fun h1 => hab (le_of_lt h1)
    have hne : ¬ a = b := fun h1 => hab (le_of_eq h1)
    simp [hlt, hne] at h
  · intro h
    rcases lt_or_eq_of_le h with h1 | h1
    · simp [h1]
    · subst h1; simp


/-! ## Rounding to the nearest double -/

theorem roundHalfEven_near (x : ℚ) : |(roundHalfEven x : ℚ) - x| ≤ 1 / 2 := by
  have h1 := Int.floor_le x
  have h2 := Int.lt_floor_add_one x
  unfold roundHalfEven
  rw [abs_le]
  split_ifs <;> push_cast <;> constructor <;> linarith

theorem roundHalfEven_eq (x : ℚ) (m : Int) (h : |x - m| < 1 / 2) : roundHalfEven x = m := by
  rw [abs_lt] at h
  obtain ⟨h1, h2⟩ := h
  by_cases hx : (m : ℚ) ≤ x
  · have hf : ⌊x⌋ = m := by
      rw [Int.floor_eq_iff]
      constructor <;> linarith
    unfold roundHalfEven
    rw [hf, if_pos (by linarith)]
  · have hf : ⌊x⌋ = m - 1 := by
      rw [Int.floor_eq_iff]
      push_cast
      constructor <;> linarith
    unfold roundHalfEven
    rw [hf]
    push_cast
    rw [if_neg (by linarith), if_pos (by linarith)]
    ring

theorem ulpExponent_spec (a : ℚ) (ha : 0 < a) :
    a < 2 ^ (ulpExponent a + 53) ∧ -1074 ≤ ulpExponent a ∧
      (ulpExponent a = -1074 ∨ (2 : ℚ) ^ (ulpExponent a + 52) ≤ a) := by
  have h1 : (2 : ℚ) ^ Int.log 2 a ≤ a := by exact_mod_cast Int.zpow_log_le_self (by norm_num) ha
  have h2 : a < (2 : ℚ) ^ (Int.log 2 a + 1) := by
    exact_mod_cast Int.lt_zpow_succ_log_self (by norm_num : 1 < 2) a
  unfold ulpExponent
  by_cases hc : -1074 ≤ Int.log 2 a - 52
  · rw [max_eq_left hc]
    refine ⟨?_, hc, Or.inr ?_⟩
    · have e : Int.log 2 a - 52 + 53 = Int.log 2 a + 1 := by ring
      rw [e]; exact h2
    · have e : Int.log 2 a - 52 + 52 = Int.log 2 a := by ring
      rw [e]; exact h1
  · have hc2 : Int.log 2 a - 52 ≤ -1074 := by omega
    rw [max_eq_right hc2]
    refine ⟨?_, le_refl _, Or.inl rfl⟩
    refine lt_of_lt_of_le h2 ?_
    exact zpow_le_zpow_right₀ (by norm_num) (by omega)

theorem roundDouble_value (q v : ℚ) (h : roundDouble q = some v) :
    v = (roundHalfEven (q / 2 ^ ulpExponent (abs q)) : ℚ) * 2 ^ ulpExponent (abs q) ∧
      abs v < 2 ^ (1024 : ℤ) := by
  unfold roundDouble at h
  split at h
  · rename_i hlt
    injection h with h
    rw [← h]
    exact ⟨rfl, hlt⟩
  · exact absurd h (by simp)

theorem roundDouble_zero : roundDouble 0 = some 0 := by
  have hp : (0 : ℚ) < 2 ^ (1024 : ℤ) := zpow_pos (by norm_num) _
  simp [roundDouble, roundHalfEven, hp]

theorem half_zpow (e : ℤ) : (2 : ℚ) ^ e / 2 = 2 ^ (e + 52) * 2 ^ (-53 : ℤ) := by
  rw [← zpow_add₀ (by norm_num : (2 : ℚ) ≠ 0)]
  have e1 : e + 52 + -53 = e + -1 := by ring
  rw [e1, zpow_add₀ (by norm_num : (2 : ℚ) ≠ 0)]
  norm_num
  ring

theorem roundDouble_half_ulp (q v : ℚ) (h : roundDouble q = some v) :
    abs (v - q) ≤ 2 ^ ulpExponent (abs q) / 2 := by
  obtain ⟨hv, _⟩ := roundDouble_value q v h
  have hpos : (0 : ℚ) < 2 ^ ulpExponent (abs q) := zpow_pos (by norm_num) _
  have hnear := roundHalfEven_near (q / 2 ^ ulpExponent (abs q))
  have e : v - q = ((roundHalfEven (q / 2 ^ ulpExponent (abs q)) : ℚ)
      - q / 2 ^ ulpExponent (abs q)) * 2 ^ ulpExponent (abs q) := by
    rw [hv]
    field_simp
  rw [e, abs_mul, abs_of_pos hpos]
  have := mul_le_mul_of_nonneg_right hnear (le_of_lt hpos)
  linarith

theorem half_ulp_le (a : ℚ) (ha : 0 < a) :
    (2 : ℚ) ^ ulpExponent a / 2 ≤ a * 2 ^ (-53 : ℤ) + 2 ^ (-1075 : ℤ) := by
  obtain ⟨_, _, h3⟩ := ulpExponent_spec a ha
  have hp1 : (0 : ℚ) < 2 ^ (-53 : ℤ) := zpow_pos (by norm_num) _
  have hp2 : (0 : ℚ) < 2 ^ (-1075 : ℤ) := zpow_pos (by norm_num) _
  rcases h3 with h3 | h3
  · rw [h3]
    have e : (2 : ℚ) ^ (-1074 : ℤ) / 2 = 2 ^ (-1075 : ℤ) := by
      have e1 : (-1075 : ℤ) = -1074 + -1 := by norm_num
      rw [e1, zpow_add₀ (by norm_num : (2 : ℚ) ≠ 0)]
      norm_num
    rw [e]
    have := mul_pos ha hp1
    linarith
  · rw [half_zpow]
    have := mul_le_mul_of_nonneg_right h3 (le_of_lt hp1)
    linarith

theorem roundDouble_error (q v : ℚ) (h : roundDouble q = some v) :
    abs (v - q) ≤ abs q * 2 ^ (-53 : ℤ) + 2 ^ (-1075 : ℤ) := by
  by_cases hq : q = 0
  · subst hq
    rw [roundDouble_zero] at h
    injection h with h
    rw [← h]
    simp only [sub_self, abs_zero, zero_mul, zero_add]
    exact le_of_lt (zpow_pos (by norm_num) _)
  · exact le_trans (roundDouble_half_ulp q v h) (half_ulp_le _ (abs_pos.mpr hq))

theorem roundDouble_isSome (q : ℚ) (h : abs q ≤ 2 ^ (1023 : ℤ)) :
    ∃ v, roundDouble q = some v := by
  by_cases hlt : abs ((roundHalfEven (q / 2 ^ ulpExponent (abs q)) : ℚ)
      * 2 ^ ulpExponent (abs q)) < 2 ^ (1024 : ℤ)
  · exact ⟨_, by unfold roundDouble; rw [if_pos hlt]⟩
  · exfalso
    apply hlt
    have hpos : (0 : ℚ) < 2 ^ ulpExponent (abs q) := zpow_pos (by norm_num) _
    have hnear := roundHalfEven_near (q / 2 ^ ulpExponent (abs q))
    have h1024 : (2 : ℚ) ^ (1024 : ℤ) = 2 ^ (1023 : ℤ) * 2 := by
      have e1 : (1024 : ℤ) = 1023 + 1 := by norm_num
      rw [e1, zpow_add₀ (by norm_num : (2 : ℚ) ≠ 0)]
      norm_num
    have h970 : (2 : ℚ) ^ (1023 : ℤ) * 2 ^ (-53 : ℤ) = 2 ^ (970 : ℤ) := by
      rw [← zpow_add₀ (by norm_num : (2 : ℚ) ≠ 0)]
      norm_num
    have hlt970 : (2 : ℚ) ^ (970 : ℤ) < 2 ^ (1022 : ℤ) :=
      zpow_lt_zpow_right₀ (by norm_num) (by norm_num)
    have hone : (1 : ℚ) ≤ 2 ^ (1022 : ℤ) := one_le_zpow₀ (by norm_num) (by norm_num)
    have hsmall : (2 : ℚ) ^ (-1075 : ℤ) ≤ 1 := zpow_le_one_of_nonpos₀ (by norm_num) (by norm_num)
    have h1023 : (2 : ℚ) ^ (1023 : ℤ) = 2 ^ (1022 : ℤ) * 2 := by
      have e1 : (1023 : ℤ) = 1022 + 1 := by norm_num
      rw [e1, zpow_add₀ (by norm_num : (2 : ℚ) ≠ 0)]
      norm_num
    by_cases hq : q = 0
    · subst hq
      have hp : (0 : ℚ) < 2 ^ (1024 : ℤ) := zpow_pos (by norm_num) _
      simp [roundHalfEven, hp]
    · have ha : 0 < abs q := abs_pos.mpr hq
      have hhalf := half_ulp_le (abs q) ha
      have hm : abs ((roundHalfEven (q / 2 ^ ulpExponent (abs q)) : ℚ))
          ≤ abs (q / 2 ^ ulpExponent (abs q)) + 1 / 2 := by
        have := abs_sub_abs_le_abs_sub ((roundHalfEven (q / 2 ^ ulpExponent (abs q)) : ℚ))
          (q / 2 ^ ulpExponent (abs q))
        linarith
      rw [abs_mul, abs_of_pos hpos]
      have hq2 : abs (q / 2 ^ ulpExponent (abs q)) * 2 ^ ulpExponent (abs q) = abs q := by
        rw [abs_div, abs_of_pos hpos]
        field_simp
      have hstep : abs ((roundHalfEven (q / 2 ^ ulpExponent (abs q)) : ℚ))
          * 2 ^ ulpExponent (abs q) ≤ abs q + 2 ^ ulpExponent (abs q) / 2 := by
        have := mul_le_mul_of_nonneg_right hm (le_of_lt hpos)
        rw [add_mul, hq2] at this
        linarith
      have hq53 : abs q * 2 ^ (-53 : ℤ) ≤ 2 ^ (970 : ℤ) := by
        rw [← h970]
        exact mul_le_mul_of_nonneg_right h (le_of_lt (zpow_pos (by norm_num) _))
      linarith

theorem ulpExponent_le (a : ℚ) (e : ℤ) (ha : 0 < a) (he : -1074 ≤ e)
    (hhi : a < 2 ^ (e + 53)) : ulpExponent a ≤ e := by
  have h1 : Int.log 2 a < e + 53 := by
    rw [← Int.lt_zpow_iff_log_lt (by norm_num) ha]
    exact_mod_cast hhi
  unfold ulpExponent
  exact max_le (by omega) he

theorem ulpExponent_eq (a : ℚ) (e : ℤ) (he : -1074 ≤ e) (hlo : 2 ^ (e + 52) ≤ a)
    (hhi : a < 2 ^ (e + 53)) : ulpExponent a = e := by
  have ha : 0 < a := lt_of_lt_of_le (zpow_pos (by norm_num) _) hlo
  have h1 : Int.log 2 a < e + 53 := by
    rw [← Int.lt_zpow_iff_log_lt (by norm_num) ha]
    exact_mod_cast hhi
  have h2 : e + 52 ≤ Int.log 2 a := by
    rw [← Int.zpow_le_iff_le_log (by norm_num) ha]
    exact_mod_cast hlo
  unfold ulpExponent
  have h3 : Int.log 2 a - 52 = e := by omega
  rw [h3]
  exact max_eq_left he

theorem roundDouble_eq (q : ℚ) (m e : ℤ) (he : -1074 ≤ e) (hlo : 2 ^ (e + 52) ≤ abs q)
    (hhi : abs q < 2 ^ (e + 53)) (hm : abs (q / 2 ^ e - m) < 1 / 2)
    (hb : abs ((m : ℚ) * 2 ^ e) < 2 ^ (1024 : ℤ)) :
    roundDouble q = some ((m : ℚ) * 2 ^ e) := by
  unfold roundDouble
  rw [ulpExponent_eq (abs q) e he hlo hhi, roundHalfEven_eq _ m hm, if_pos hb]

theorem roundDouble_eval_pos (q : ℚ) (m e : ℤ) (v : ℚ) (he : -1074 ≤ e) (he2 : e ≤ 900)
    (hlo : 2 ^ (e + 52) ≤ q) (hhi : q < 2 ^ (e + 53))
    (hm1 : ((m : ℚ) - 1 / 2) * 2 ^ e < q) (hm2 : q < ((m : ℚ) + 1 / 2) * 2 ^ e)
    (hv : v = (m : ℚ) * 2 ^ e) : roundDouble q = some v := by
  have hpe : (0 : ℚ) < 2 ^ e := zpow_pos (by norm_num) _
  have hq : 0 < q := lt_of_lt_of_le (zpow_pos (by norm_num) _) hlo
  have h52 : (2 : ℚ) ^ (e + 52) = 2 ^ e * 2 ^ (52 : ℤ) := zpow_add₀ (by norm_num) _ _
  have h53 : (2 : ℚ) ^ (e + 53) = 2 ^ e * 2 ^ (53 : ℤ) := zpow_add₀ (by norm_num) _ _
  have c52 : (2 : ℚ) ^ (52 : ℤ) = 4503599627370496 := by norm_num
  have c53 : (2 : ℚ) ^ (53 : ℤ) = 9007199254740992 := by norm_num
  rw [hv]
  apply roundDouble_eq q m e he
  · rw [abs_of_pos hq]; exact hlo
  · rw [abs_of_pos hq]; exact hhi
  · rw [abs_lt]
    constructor
    · have : (m : ℚ) - 1 / 2 < q / 2 ^ e := by rw [lt_div_iff₀ hpe]; exact hm1
      linarith
    · have : q / 2 ^ e < (m : ℚ) + 1 / 2 := by rw [div_lt_iff₀ hpe]; exact hm2
      linarith
  · have hpos : 0 < (m : ℚ) * 2 ^ e := by nlinarith
    rw [abs_of_pos hpos]
    have h1 : (m : ℚ) * 2 ^ e < 2 ^ (e + 54) := by
      have h54 : (2 : ℚ) ^ (e + 54) = 2 ^ e * 2 ^ (54 : ℤ) := zpow_add₀ (by norm_num) _ _
      have c54 : (2 : ℚ) ^ (54 : ℤ) = 18014398509481984 := by norm_num
      rw [h54, c54]
      nlinarith
    exact lt_of_lt_of_le h1 (zpow_le_zpow_right₀ (by norm_num) (by omega))

theorem roundDouble_eval_neg (q : ℚ) (m e : ℤ) (v : ℚ) (he : -1074 ≤ e) (he2 : e ≤ 900)
    (hlo : q ≤ -2 ^ (e + 52)) (hhi : -2 ^ (e + 53) < q)
    (hm1 : ((m : ℚ) - 1 / 2) * 2 ^ e < q) (hm2 : q < ((m : ℚ) + 1 / 2) * 2 ^ e)
    (hv : v = (m : ℚ) * 2 ^ e) : roundDouble q = some v := by
  have hpe : (0 : ℚ) < 2 ^ e := zpow_pos (by norm_num) _
  have hq : q < 0 := lt_of_le_of_lt hlo (neg_neg_of_pos (zpow_pos (by norm_num) _))
  have h52 : (2 : ℚ) ^ (e + 52) = 2 ^ e * 2 ^ (52 : ℤ) := zpow_add₀ (by norm_num) _ _
  have h53 : (2 : ℚ) ^ (e + 53) = 2 ^ e * 2 ^ (53 : ℤ) := zpow_add₀ (by norm_num) _ _
  have c52 : (2 : ℚ) ^ (52 : ℤ) = 4503599627370496 := by norm_num
  have c53 : (2 : ℚ) ^ (53 : ℤ) = 9007199254740992 := by norm_num
  rw [hv]
  apply roundDouble_eq q m e he
  · rw [abs_of_neg hq]; linarith
  · rw [abs_of_neg hq]; linarith
  · rw [abs_lt]
    constructor
    · have : (m : ℚ) - 1 / 2 < q / 2 ^ e := by rw [lt_div_iff₀ hpe]; exact hm1
      linarith
    · have : q / 2 ^ e < (m : ℚ) + 1 / 2 := by rw [div_lt_iff₀ hpe]; exact hm2
      linarith
  · have hneg : (m : ℚ) * 2 ^ e < 0 := by nlinarith
    rw [abs_of_neg hneg]
    have h1 : -((m : ℚ) * 2 ^ e) < 2 ^ (e + 54) := by
      have h54 : (2 : ℚ) ^ (e + 54) = 2 ^ e * 2 ^ (54 : ℤ) := zpow_add₀ (by norm_num) _ _
      have c54 : (2 : ℚ) ^ (54 : ℤ) = 18014398509481984 := by norm_num
      rw [h54, c54]
      nlinarith
    exact lt_of_lt_of_le h1 (zpow_le_zpow_right₀ (by norm_num) (by omega))

/-! ## Calorie goal -/

theorem mathRound_spec (x : ℚ) :
    ((mathRound x : Int) : ℚ) - 1 / 2 ≤ x ∧ x < ((mathRound x : Int) : ℚ) + 1 / 2 := by
  unfold mathRound
  have h1 := Int.floor_le (x + 1 / 2)
  have h2 := Int.lt_floor_add_one (x + 1 / 2)
  constructor <;> linarith

theorem activityMultiplier_of_spec (p : Profile) (f : ℚ)
    (hf : specActivityFactor p.activityLevel = some f) : utils.activityMultiplier p = some f := by
  unfold specActivityFactor at hf
  split at hf <;> first
    | (injection hf with hf; subst hf; rename_i h
       simp [utils.activityMultiplier, h, propertyKey, lookupIn, utils.multipliers, List.lookup]
       try norm_num)
    | (exact absurd hf (by simp))

theorem goalAdjustment_of_spec (p : Profile) (a : ℚ)
    (ha : specGoalAdjustment p.goal = some a) : utils.goalAdjustment p = some a := by
  unfold specGoalAdjustment at ha
  split at ha <;> first
    | (injection ha with ha; subst ha; rename_i h
       simp [utils.goalAdjustment, h, propertyKey, lookupIn, utils.adjustments, List.lookup])
    | (exact absurd ha (by simp))


/-! ## Evaluating double operations -/

theorem roundDouble_eval (q : ℚ) (m e : ℤ) (v : ℚ)
    (h : -1074 ≤ e ∧ e ≤ 900 ∧
      ((2 : ℚ) ^ (e + 52) ≤ q ∧ q < 2 ^ (e + 53) ∨ q ≤ -2 ^ (e + 52) ∧ -2 ^ (e + 53) < q) ∧
      ((m : ℚ) - 1 / 2) * 2 ^ e < q ∧ q < ((m : ℚ) + 1 / 2) * 2 ^ e ∧ v = (m : ℚ) * 2 ^ e) :
    roundDouble q = some v := by
  obtain ⟨he, he2, hq, hm1, hm2, hv⟩ := h
  rcases hq with ⟨hlo, hhi⟩ | ⟨hlo, hhi⟩
  · exact roundDouble_eval_pos q m e v he he2 hlo hhi hm1 hm2 hv
  · exact roundDouble_eval_neg q m e v he he2 hlo hhi hm1 hm2 hv

theorem roundHalfEven_tie (x : ℚ) (m : ℤ) (hm : m % 2 = 0)
    (h : x = (m : ℚ) + 1 / 2 ∨ x = (m : ℚ) - 1 / 2) : roundHalfEven x = m := by
  rcases h with h | h
  · have hf : ⌊x⌋ = m := by
      rw [Int.floor_eq_iff]
      constructor <;> linarith
    unfold roundHalfEven
    rw [hf, h]
    norm_num [hm]
  · have hf : ⌊x⌋ = m - 1 := by
      rw [Int.floor_eq_iff]
      push_cast
      constructor <;> linarith
    have hodd : ¬ (m - 1) % 2 = 0 := by omega
    unfold roundHalfEven
    rw [hf, h]
    push_cast
    norm_num [hodd]

theorem roundDouble_eval_tie (q : ℚ) (m e : ℤ) (v : ℚ)
    (h : -1074 ≤ e ∧ e ≤ 900 ∧
      ((2 : ℚ) ^ (e + 52) ≤ q ∧ q < 2 ^ (e + 53) ∨ q ≤ -2 ^ (e + 52) ∧ -2 ^ (e + 53) < q) ∧
      m % 2 = 0 ∧ (q = ((m : ℚ) + 1 / 2) * 2 ^ e ∨ q = ((m : ℚ) - 1 / 2) * 2 ^ e) ∧
      v = (m : ℚ) * 2 ^ e) :
    roundDouble q = some v := by
  obtain ⟨he, he2, hq, hm, htie, hv⟩ := h
  have hpe : (0 : ℚ) < 2 ^ e := zpow_pos (by norm_num) _
  have h52 : (2 : ℚ) ^ (e + 52) = 2 ^ e * 2 ^ (52 : ℤ) := zpow_add₀ (by norm_num) _ _
  have h53 : (2 : ℚ) ^ (e + 53) = 2 ^ e * 2 ^ (53 : ℤ) := zpow_add₀ (by norm_num) _ _
  have h54 : (2 : ℚ) ^ (e + 54) = 2 ^ e * 2 ^ (54 : ℤ) := zpow_add₀ (by norm_num) _ _
  have c52 : (2 : ℚ) ^ (52 : ℤ) = 4503599627370496 := by norm_num
  have c53 : (2 : ℚ) ^ (53 : ℤ) = 9007199254740992 := by norm_num
  have c54 : (2 : ℚ) ^ (54 : ℤ) = 18014398509481984 := by norm_num
  have hlo : (2 : ℚ) ^ (e + 52) ≤ abs q := by
    rcases hq with ⟨a, _⟩ | ⟨a, _⟩
    · exact le_trans a (le_abs_self q)
    · exact le_trans (by linarith) (neg_le_abs q)
  have hhi : abs q < (2 : ℚ) ^ (e + 53) := by
    have p52 : (0 : ℚ) < 2 ^ (e + 52) := zpow_pos (by norm_num) _
    have p53 : (0 : ℚ) < 2 ^ (e + 53) := zpow_pos (by norm_num) _
    rw [abs_lt]
    rcases hq with ⟨a, b⟩ | ⟨a, b⟩
    · exact ⟨by linarith, b⟩
    · exact ⟨b, by linarith⟩
  have hx : q / 2 ^ e = (m : ℚ) + 1 / 2 ∨ q / 2 ^ e = (m : ℚ) - 1 / 2 := by
    rcases htie with h | h
    · left; rw [h]; field_simp; ring
    · right; rw [h]; field_simp; ring
  have hb : abs ((m : ℚ) * 2 ^ e) < 2 ^ (1024 : ℤ) := by
    have h1 : abs ((m : ℚ) * 2 ^ e) < 2 ^ (e + 54) := by
      rw [abs_lt] at hhi ⊢
      rw [h53] at hhi
      rw [h54, c54]
      rw [c53] at hhi
      rcases htie with h | h <;> constructor <;> nlinarith
    exact lt_of_lt_of_le h1 (zpow_le_zpow_right₀ (by norm_num) (by omega))
  rw [hv]
  unfold roundDouble
  rw [ulpExponent_eq (abs q) e he hlo hhi, roundHalfEven_tie _ m hm hx, if_pos hb]


theorem roundDouble_close (q : ℚ) (h1 : -67108864 ≤ q) (h2 : q ≤ 67108864) :
    ∃ v, roundDouble q = some v ∧ v - q ≤ 1 / 67108864 ∧ q - v ≤ 1 / 67108864 := by
  have c26 : (2 : ℚ) ^ (26 : ℤ) = 67108864 := by norm_num
  have habs : abs q ≤ 2 ^ (26 : ℤ) := by rw [c26]; exact abs_le.mpr ⟨h1, h2⟩
  obtain ⟨v, hv⟩ := roundDouble_isSome q
    (le_trans habs (zpow_le_zpow_right₀ (by norm_num) (by norm_num)))
  have herr := roundDouble_error q v hv
  have e1 : abs q * 2 ^ (-53 : ℤ) ≤ 2 ^ (-27 : ℤ) := by
    have : (2 : ℚ) ^ (-27 : ℤ) = 2 ^ (26 : ℤ) * 2 ^ (-53 : ℤ) := by
      rw [← zpow_add₀ (by norm_num : (2 : ℚ) ≠ 0)]; norm_num
    rw [this]
    exact mul_le_mul_of_nonneg_right habs (le_of_lt (zpow_pos (by norm_num) _))
  have e2 : (2 : ℚ) ^ (-1075 : ℤ) ≤ 2 ^ (-27 : ℤ) :=
    zpow_le_zpow_right₀ (by norm_num) (by norm_num)
  have c27 : (2 : ℚ) ^ (-27 : ℤ) = 1 / 134217728 := by norm_num
  rw [c27] at e1 e2
  have h3 := abs_le.mp (le_trans herr (add_le_add e1 e2))
  refine ⟨v, hv, ?_, ?_⟩ <;> linarith [h3.1, h3.2]

theorem roundDouble_five : roundDouble 5 = some 5 :=
  roundDouble_eval 5 5629499534213120 (-50) 5 (by norm_num)

theorem roundDouble_ten : roundDouble 10 = some 10 :=
  roundDouble_eval 10 5629499534213120 (-49) 10 (by norm_num)

theorem roundDouble_161 : roundDouble 161 = some 161 :=
  roundDouble_eval 161 5664683906301952 (-45) 161 (by norm_num)

theorem roundDouble_six_and_quarter : roundDouble 6.25 = some 6.25 :=
  roundDouble_eval 6.25 7036874417766400 (-50) 6.25 (by norm_num)

theorem bmr_of_steps_male (p : Profile) (w h a x1 x2 x3 x4 x5 x6 : ℚ) (hs : p.sex = "male")
    (hw : roundDouble p.weightKg = some w) (hh : roundDouble p.heightCm = some h)
    (ha : roundDouble p.age = some a) (h1 : roundDouble (10 * w) = some x1)
    (h2 : roundDouble (6.25 * h) = some x2) (h3 : roundDouble (x1 + x2) = some x3)
    (h4 : roundDouble (5 * a) = some x4) (h5 : roundDouble (x3 - x4) = some x5)
    (h6 : roundDouble (x5 + 5) = some x6) : utils.bmr p = some x6 := by
  simp only [utils.bmr, hs, if_true, roundDouble_ten, roundDouble_six_and_quarter,
    roundDouble_five, hw, hh, ha, mulDouble, addDouble, subDouble, h1, h2, h3, h4, h5, h6]

theorem bmr_of_steps_other (p : Profile) (w h a x1 x2 x3 x4 x5 x6 : ℚ) (hs : p.sex ≠ "male")
    (hw : roundDouble p.weightKg = some w) (hh : roundDouble p.heightCm = some h)
    (ha : roundDouble p.age = some a) (h1 : roundDouble (10 * w) = some x1)
    (h2 : roundDouble (6.25 * h) = some x2) (h3 : roundDouble (x1 + x2) = some x3)
    (h4 : roundDouble (5 * a) = some x4) (h5 : roundDouble (x3 - x4) = some x5)
    (h6 : roundDouble (x5 - 161) = some x6) : utils.bmr p = some x6 := by
  simp only [utils.bmr, hs, if_false, roundDouble_ten, roundDouble_six_and_quarter,
    roundDouble_five, roundDouble_161, hw, hh, ha, mulDouble, addDouble, subDouble, h1, h2, h3,
    h4, h5, h6]

theorem computeGoal_of_steps (p : Profile) (m adjustment b md x7 ad : ℚ)
    (hm : utils.activityMultiplier p = some m) (hadj : utils.goalAdjustment p = some adjustment)
    (hb : utils.bmr p = some b) (hmd : roundDouble m = some md)
    (h7 : roundDouble (b * md) = some x7) (had : roundDouble adjustment = some ad) :
    utils.computeGoal p = (roundDouble (x7 + ad)).map mathRound := by
  simp only [utils.computeGoal, hm, hadj, hb, hmd, mulDouble, addDouble, h7, had]


/-! ## Evaluations at sample profiles -/

theorem computeGoal_exampleProfile :
    utils.computeGoal exampleProfile = some 2056 := by
  have hw : roundDouble (70) = some 70 :=
    roundDouble_eval (70) 4925812092436480 (-46) 70 (by norm_num)
  have hh : roundDouble (175) = some 175 :=
    roundDouble_eval (175) 6157265115545600 (-45) 175 (by norm_num)
  have ha : roundDouble (30) = some 30 :=
    roundDouble_eval (30) 8444249301319680 (-48) 30 (by norm_num)
  have h1 : roundDouble (10 * 70) = some 700 :=
    roundDouble_eval (10 * 70) 6157265115545600 (-43) 700 (by norm_num)
  have h2 : roundDouble (6.25 * 175) = some (4375 / 4) :=
    roundDouble_eval (6.25 * 175) 4810363371520000 (-42) (4375 / 4) (by norm_num)
  have h3 : roundDouble (700 + (4375 / 4)) = some (7175 / 4) :=
    roundDouble_eval (700 + (4375 / 4)) 7888995929292800 (-42) (7175 / 4) (by norm_num)
  have h4 : roundDouble (5 * 30) = some 150 :=
    roundDouble_eval (5 * 30) 5277655813324800 (-45) 150 (by norm_num)
  have h5 : roundDouble ((7175 / 4) - 150) = some (6575 / 4) :=
    roundDouble_eval ((7175 / 4) - 150) 7229288952627200 (-42) (6575 / 4) (by norm_num)
  have h6 : roundDouble ((6575 / 4) + 5) = some (6595 / 4) :=
    roundDouble_eval ((6575 / 4) + 5) 7251279185182720 (-42) (6595 / 4) (by norm_num)
  have hmd : roundDouble (1.55) = some (6980579422424269 / 4503599627370496) :=
    roundDouble_eval (1.55) 6980579422424269 (-52) (6980579422424269 / 4503599627370496)
      (by norm_num)
  have h7 : roundDouble ((6595 / 4) * (6980579422424269 / 4503599627370496)) = some (40889 / 16) :=
    roundDouble_eval ((6595 / 4) * (6980579422424269 / 4503599627370496)) 5619741368516608 (-41)
      (40889 / 16) (by norm_num)
  have had : roundDouble ((-500)) = some (-500) :=
    roundDouble_eval ((-500)) (-8796093022208000) (-44) (-500) (by norm_num)
  have h8 : roundDouble ((40889 / 16) + (-500)) = some (32889 / 16) :=
    roundDouble_eval ((40889 / 16) + (-500)) 4520229740740608 (-41) (32889 / 16) (by norm_num)
  have hb : utils.bmr exampleProfile = some (6595 / 4) :=
    bmr_of_steps_male exampleProfile 70 175 30 700 (4375 / 4) (7175 / 4) 150
      (6575 / 4) (6595 / 4) rfl hw hh ha h1 h2 h3 h4 h5 h6
  rw [computeGoal_of_steps exampleProfile 1.55 (-500) (6595 / 4)
    (6980579422424269 / 4503599627370496) (40889 / 16) (-500)
    (activityMultiplier_of_spec _ _ rfl) (goalAdjustment_of_spec _ _ rfl) hb hmd h7 had, h8]
  simp only [Option.map_some', mathRound]
  norm_num

theorem computeGoal_exampleProfile_sedentary :
    utils.computeGoal { exampleProfile with activityLevel := some "sedentary" } = some 1479 := by
  have hw : roundDouble (70) = some 70 :=
    roundDouble_eval (70) 4925812092436480 (-46) 70 (by norm_num)
  have hh : roundDouble (175) = some 175 :=
    roundDouble_eval (175) 6157265115545600 (-45) 175 (by norm_num)
  have ha : roundDouble (30) = some 30 :=
    roundDouble_eval (30) 8444249301319680 (-48) 30 (by norm_num)
  have h1 : roundDouble (10 * 70) = some 700 :=
    roundDouble_eval (10 * 70) 6157265115545600 (-43) 700 (by norm_num)
  have h2 : roundDouble (6.25 * 175) = some (4375 / 4) :=
    roundDouble_eval (6.25 * 175) 4810363371520000 (-42) (4375 / 4) (by norm_num)
  have h3 : roundDouble (700 + (4375 / 4)) = some (7175 / 4) :=
    roundDouble_eval (700 + (4375 / 4)) 7888995929292800 (-42) (7175 / 4) (by norm_num)
  have h4 : roundDouble (5 * 30) = some 150 :=
    roundDouble_eval (5 * 30) 5277655813324800 (-45) 150 (by norm_num)
  have h5 : roundDouble ((7175 / 4) - 150) = some (6575 / 4) :=
    roundDouble_eval ((7175 / 4) - 150) 7229288952627200 (-42) (6575 / 4) (by norm_num)
  have h6 : roundDouble ((6575 / 4) + 5) = some (6595 / 4) :=
    roundDouble_eval ((6575 / 4) + 5) 7251279185182720 (-42) (6595 / 4) (by norm_num)
  have hmd : roundDouble (1.2) = some (5404319552844595 / 4503599627370496) :=
    roundDouble_eval (1.2) 5404319552844595 (-52) (5404319552844595 / 4503599627370496)
      (by norm_num)
  have h7 : roundDouble ((6595 / 4) * (5404319552844595 / 4503599627370496)) = some (3957 / 2) :=
    roundDouble_eval ((6595 / 4) * (5404319552844595 / 4503599627370496)) 8701535022219264 (-42)
      (3957 / 2) (by norm_num)
  have had : roundDouble ((-500)) = some (-500) :=
    roundDouble_eval ((-500)) (-8796093022208000) (-44) (-500) (by norm_num)
  have h8 : roundDouble ((3957 / 2) + (-500)) = some (2957 / 2) :=
    roundDouble_eval ((3957 / 2) + (-500)) 6502511766667264 (-42) (2957 / 2) (by norm_num)
  have hb : utils.bmr { exampleProfile with activityLevel := some "sedentary" } = some (6595 / 4) :=
    bmr_of_steps_male { exampleProfile with activityLevel := some "sedentary" } 70 175 30 700
      (4375 / 4) (7175 / 4) 150
      (6575 / 4) (6595 / 4) rfl hw hh ha h1 h2 h3 h4 h5 h6
  rw [computeGoal_of_steps { exampleProfile with activityLevel := some "sedentary" } 1.2 (-500)
    (6595 / 4) (5404319552844595 / 4503599627370496) (3957 / 2) (-500)
    (activityMultiplier_of_spec _ _ rfl) (goalAdjustment_of_spec _ _ rfl) hb hmd h7 had, h8]
  simp only [Option.map_some', mathRound]
  norm_num

theorem computeGoal_frailProfile :
    utils.computeGoal frailProfile = some (-3) := by
  have hw : roundDouble (30) = some 30 :=
    roundDouble_eval (30) 8444249301319680 (-48) 30 (by norm_num)
  have hh : roundDouble (120) = some 120 :=
    roundDouble_eval (120) 8444249301319680 (-46) 120 (by norm_num)
  have ha : roundDouble (95) = some 95 :=
    roundDouble_eval (95) 6685030696878080 (-46) 95 (by norm_num)
  have h1 : roundDouble (10 * 30) = some 300 :=
    roundDouble_eval (10 * 30) 5277655813324800 (-44) 300 (by norm_num)
  have h2 : roundDouble (6.25 * 120) = some 750 :=
    roundDouble_eval (6.25 * 120) 6597069766656000 (-43) 750 (by norm_num)
  have h3 : roundDouble (300 + 750) = some 1050 :=
    roundDouble_eval (300 + 750) 4617948836659200 (-42) 1050 (by norm_num)
  have h4 : roundDouble (5 * 95) = some 475 :=
    roundDouble_eval (5 * 95) 8356288371097600 (-44) 475 (by norm_num)
  have h5 : roundDouble (1050 - 475) = some 575 :=
    roundDouble_eval (1050 - 475) 5057753487769600 (-43) 575 (by norm_num)
  have h6 : roundDouble (575 - 161) = some 414 :=
    roundDouble_eval (575 - 161) 7283165022388224 (-44) 414 (by norm_num)
  have hmd : roundDouble (1.2) = some (5404319552844595 / 4503599627370496) :=
    roundDouble_eval (1.2) 5404319552844595 (-52) (5404319552844595 / 4503599627370496)
      (by norm_num)
  have h7 : roundDouble (414 * (5404319552844595 / 4503599627370496)) = some
    (2184949506716467 / 4398046511104) :=
    roundDouble_eval (414 * (5404319552844595 / 4503599627370496)) 8739798026865868 (-44)
      (2184949506716467 / 4398046511104) (by norm_num)
  have had : roundDouble ((-500)) = some (-500) :=
    roundDouble_eval ((-500)) (-8796093022208000) (-44) (-500) (by norm_num)
  have h8 : roundDouble ((2184949506716467 / 4398046511104) + (-500)) = some
    (-14073748835533 / 4398046511104) :=
    roundDouble_eval ((2184949506716467 / 4398046511104) + (-500)) (-7205759403792896) (-51)
      (-14073748835533 / 4398046511104) (by norm_num)
  have hb : utils.bmr frailProfile = some 414 :=
    bmr_of_steps_other frailProfile 30 120 95 300 750 1050 475
      575 414 (by decide) hw hh ha h1 h2 h3 h4 h5 h6
  rw [computeGoal_of_steps frailProfile 1.2 (-500) 414 (5404319552844595 / 4503599627370496)
    (2184949506716467 / 4398046511104) (-500)
    (activityMultiplier_of_spec _ _ rfl) (goalAdjustment_of_spec _ _ rfl) hb hmd h7 had, h8]
  simp only [Option.map_some', mathRound]
  norm_num

theorem computeGoal_lightProfile_maintain :
    utils.computeGoal { lightProfile with goal := some "maintain" } = some 919 := by
  have hw : roundDouble (20.1) = some (2828823515942093 / 140737488355328) :=
    roundDouble_eval (20.1) 5657647031884186 (-48) (2828823515942093 / 140737488355328)
      (by norm_num)
  have hh : roundDouble (128.2) = some (2255318250894131 / 17592186044416) :=
    roundDouble_eval (128.2) 4510636501788262 (-45) (2255318250894131 / 17592186044416)
      (by norm_num)
  have ha : roundDouble (15) = some 15 :=
    roundDouble_eval (15) 8444249301319680 (-49) 15 (by norm_num)
  have h1 : roundDouble (10 * (2828823515942093 / 140737488355328)) = some 201 :=
    roundDouble_eval_tie (10 * (2828823515942093 / 140737488355328)) 7072058789855232 (-45) 201
      (by norm_num)
  have h2 : roundDouble (6.25 * (2255318250894131 / 17592186044416)) = some
    (7047869534044159 / 8796093022208) :=
    roundDouble_eval (6.25 * (2255318250894131 / 17592186044416)) 7047869534044159 (-43)
      (7047869534044159 / 8796093022208) (by norm_num)
  have h3 : roundDouble (201 + (7047869534044159 / 8796093022208)) = some
    (8815884231507967 / 8796093022208) :=
    roundDouble_eval (201 + (7047869534044159 / 8796093022208)) 8815884231507967 (-43)
      (8815884231507967 / 8796093022208) (by norm_num)
  have h4 : roundDouble (5 * 15) = some 75 :=
    roundDouble_eval (5 * 15) 5277655813324800 (-46) 75 (by norm_num)
  have h5 : roundDouble ((8815884231507967 / 8796093022208) - 75) = some
    (8156177254842367 / 8796093022208) :=
    roundDouble_eval ((8815884231507967 / 8796093022208) - 75) 8156177254842367 (-43)
      (8156177254842367 / 8796093022208) (by norm_num)
  have h6 : roundDouble ((8156177254842367 / 8796093022208) - 161) = some
    (6740006278266879 / 8796093022208) :=
    roundDouble_eval ((8156177254842367 / 8796093022208) - 161) 6740006278266879 (-43)
      (6740006278266879 / 8796093022208) (by norm_num)
  have hmd : roundDouble (1.2) = some (5404319552844595 / 4503599627370496) :=
    roundDouble_eval (1.2) 5404319552844595 (-52) (5404319552844595 / 4503599627370496)
      (by norm_num)
  have h7 : roundDouble ((6740006278266879 / 8796093022208) * (5404319552844595 / 4503599627370496))
    = some (8088007533920255 / 8796093022208) :=
    roundDouble_eval ((6740006278266879 / 8796093022208) * (5404319552844595 / 4503599627370496))
      8088007533920255 (-43) (8088007533920255 / 8796093022208) (by norm_num)
  have had : roundDouble (0) = some 0 := roundDouble_zero
  have h8 : roundDouble ((8088007533920255 / 8796093022208) + 0) = some
    (8088007533920255 / 8796093022208) :=
    roundDouble_eval ((8088007533920255 / 8796093022208) + 0) 8088007533920255 (-43)
      (8088007533920255 / 8796093022208) (by norm_num)
  have hb : utils.bmr { lightProfile with goal := some "maintain" } = some
    (6740006278266879 / 8796093022208) :=
    bmr_of_steps_other { lightProfile with goal := some "maintain" }
      (2828823515942093 / 140737488355328) (2255318250894131 / 17592186044416) 15 201
      (7047869534044159 / 8796093022208) (8815884231507967 / 8796093022208) 75
      (8156177254842367 / 8796093022208) (6740006278266879 / 8796093022208) (by decide) hw hh ha h1
        h2 h3 h4 h5 h6
  rw [computeGoal_of_steps { lightProfile with goal := some "maintain" } 1.2 0
    (6740006278266879 / 8796093022208) (5404319552844595 / 4503599627370496)
    (8088007533920255 / 8796093022208) 0
    (activityMultiplier_of_spec _ _ rfl) (goalAdjustment_of_spec _ _ rfl) hb hmd h7 had, h8]
  simp only [Option.map_some', mathRound]
  norm_num

theorem computeGoal_lightProfile_lose_weight :
    utils.computeGoal { lightProfile with goal := some "lose_weight" } = some 419 := by
  have hw : roundDouble (20.1) = some (2828823515942093 / 140737488355328) :=
    roundDouble_eval (20.1) 5657647031884186 (-48) (2828823515942093 / 140737488355328)
      (by norm_num)
  have hh : roundDouble (128.2) = some (2255318250894131 / 17592186044416) :=
    roundDouble_eval (128.2) 4510636501788262 (-45) (2255318250894131 / 17592186044416)
      (by norm_num)
  have ha : roundDouble (15) = some 15 :=
    roundDouble_eval (15) 8444249301319680 (-49) 15 (by norm_num)
  have h1 : roundDouble (10 * (2828823515942093 / 140737488355328)) = some 201 :=
    roundDouble_eval_tie (10 * (2828823515942093 / 140737488355328)) 7072058789855232 (-45) 201
      (by norm_num)
  have h2 : roundDouble (6.25 * (2255318250894131 / 17592186044416)) = some
    (7047869534044159 / 8796093022208) :=
    roundDouble_eval (6.25 * (2255318250894131 / 17592186044416)) 7047869534044159 (-43)
      (7047869534044159 / 8796093022208) (by norm_num)
  have h3 : roundDouble (201 + (7047869534044159 / 8796093022208)) = some
    (8815884231507967 / 8796093022208) :=
    roundDouble_eval (201 + (7047869534044159 / 8796093022208)) 8815884231507967 (-43)
      (8815884231507967 / 8796093022208) (by norm_num)
  have h4 : roundDouble (5 * 15) = some 75 :=
    roundDouble_eval (5 * 15) 5277655813324800 (-46) 75 (by norm_num)
  have h5 : roundDouble ((8815884231507967 / 8796093022208) - 75) = some
    (8156177254842367 / 8796093022208) :=
    roundDouble_eval ((8815884231507967 / 8796093022208) - 75) 8156177254842367 (-43)
      (8156177254842367 / 8796093022208) (by norm_num)
  have h6 : roundDouble ((8156177254842367 / 8796093022208) - 161) = some
    (6740006278266879 / 8796093022208) :=
    roundDouble_eval ((8156177254842367 / 8796093022208) - 161) 6740006278266879 (-43)
      (6740006278266879 / 8796093022208) (by norm_num)
  have hmd : roundDouble (1.2) = some (5404319552844595 / 4503599627370496) :=
    roundDouble_eval (1.2) 5404319552844595 (-52) (5404319552844595 / 4503599627370496)
      (by norm_num)
  have h7 : roundDouble ((6740006278266879 / 8796093022208) * (5404319552844595 / 4503599627370496))
    = some (8088007533920255 / 8796093022208) :=
    roundDouble_eval ((6740006278266879 / 8796093022208) * (5404319552844595 / 4503599627370496))
      8088007533920255 (-43) (8088007533920255 / 8796093022208) (by norm_num)
  have had : roundDouble ((-500)) = some (-500) :=
    roundDouble_eval ((-500)) (-8796093022208000) (-44) (-500) (by norm_num)
  have h8 : roundDouble ((8088007533920255 / 8796093022208) + (-500)) = some
    (3689961022816255 / 8796093022208) :=
    roundDouble_eval ((8088007533920255 / 8796093022208) + (-500)) 7379922045632510 (-44)
      (3689961022816255 / 8796093022208) (by norm_num)
  have hb : utils.bmr { lightProfile with goal := some "lose_weight" } = some
    (6740006278266879 / 8796093022208) :=
    bmr_of_steps_other { lightProfile with goal := some "lose_weight" }
      (2828823515942093 / 140737488355328) (2255318250894131 / 17592186044416) 15 201
      (7047869534044159 / 8796093022208) (8815884231507967 / 8796093022208) 75
      (8156177254842367 / 8796093022208) (6740006278266879 / 8796093022208) (by decide) hw hh ha h1
        h2 h3 h4 h5 h6
  rw [computeGoal_of_steps { lightProfile with goal := some "lose_weight" } 1.2 (-500)
    (6740006278266879 / 8796093022208) (5404319552844595 / 4503599627370496)
    (8088007533920255 / 8796093022208) (-500)
    (activityMultiplier_of_spec _ _ rfl) (goalAdjustment_of_spec _ _ rfl) hb hmd h7 had, h8]
  simp only [Option.map_some', mathRound]
  norm_num

theorem computeGoal_lightProfile_gain_muscle :
    utils.computeGoal { lightProfile with goal := some "gain_muscle" } = some 1220 := by
  have hw : roundDouble (20.1) = some (2828823515942093 / 140737488355328) :=
    roundDouble_eval (20.1) 5657647031884186 (-48) (2828823515942093 / 140737488355328)
      (by norm_num)
  have hh : roundDouble (128.2) = some (2255318250894131 / 17592186044416) :=
    roundDouble_eval (128.2) 4510636501788262 (-45) (2255318250894131 / 17592186044416)
      (by norm_num)
  have ha : roundDouble (15) = some 15 :=
    roundDouble_eval (15) 8444249301319680 (-49) 15 (by norm_num)
  have h1 : roundDouble (10 * (2828823515942093 / 140737488355328)) = some 201 :=
    roundDouble_eval_tie (10 * (2828823515942093 / 140737488355328)) 7072058789855232 (-45) 201
      (by norm_num)
  have h2 : roundDouble (6.25 * (2255318250894131 / 17592186044416)) = some
    (7047869534044159 / 8796093022208) :=
    roundDouble_eval (6.25 * (2255318250894131 / 17592186044416)) 7047869534044159 (-43)
      (7047869534044159 / 8796093022208) (by norm_num)
  have h3 : roundDouble (201 + (7047869534044159 / 8796093022208)) = some
    (8815884231507967 / 8796093022208) :=
    roundDouble_eval (201 + (7047869534044159 / 8796093022208)) 8815884231507967 (-43)
      (8815884231507967 / 8796093022208) (by norm_num)
  have h4 : roundDouble (5 * 15) = some 75 :=
    roundDouble_eval (5 * 15) 5277655813324800 (-46) 75 (by norm_num)
  have h5 : roundDouble ((8815884231507967 / 8796093022208) - 75) = some
    (8156177254842367 / 8796093022208) :=
    roundDouble_eval ((8815884231507967 / 8796093022208) - 75) 8156177254842367 (-43)
      (8156177254842367 / 8796093022208) (by norm_num)
  have h6 : roundDouble ((8156177254842367 / 8796093022208) - 161) = some
    (6740006278266879 / 8796093022208) :=
    roundDouble_eval ((8156177254842367 / 8796093022208) - 161) 6740006278266879 (-43)
      (6740006278266879 / 8796093022208) (by norm_num)
  have hmd : roundDouble (1.2) = some (5404319552844595 / 4503599627370496) :=
    roundDouble_eval (1.2) 5404319552844595 (-52) (5404319552844595 / 4503599627370496)
      (by norm_num)
  have h7 : roundDouble ((6740006278266879 / 8796093022208) * (5404319552844595 / 4503599627370496))
    = some (8088007533920255 / 8796093022208) :=
    roundDouble_eval ((6740006278266879 / 8796093022208) * (5404319552844595 / 4503599627370496))
      8088007533920255 (-43) (8088007533920255 / 8796093022208) (by norm_num)
  have had : roundDouble (300) = some 300 :=
    roundDouble_eval (300) 5277655813324800 (-44) 300 (by norm_num)
  have h8 : roundDouble ((8088007533920255 / 8796093022208) + 300) = some (2439 / 2) :=
    roundDouble_eval_tie ((8088007533920255 / 8796093022208) + 300) 5363417720291328 (-42)
      (2439 / 2) (by norm_num)
  have hb : utils.bmr { lightProfile with goal := some "gain_muscle" } = some
    (6740006278266879 / 8796093022208) :=
    bmr_of_steps_other { lightProfile with goal := some "gain_muscle" }
      (2828823515942093 / 140737488355328) (2255318250894131 / 17592186044416) 15 201
      (7047869534044159 / 8796093022208) (8815884231507967 / 8796093022208) 75
      (8156177254842367 / 8796093022208) (6740006278266879 / 8796093022208) (by decide) hw hh ha h1
        h2 h3 h4 h5 h6
  rw [computeGoal_of_steps { lightProfile with goal := some "gain_muscle" } 1.2 300
    (6740006278266879 / 8796093022208) (5404319552844595 / 4503599627370496)
    (8088007533920255 / 8796093022208) 300
    (activityMultiplier_of_spec _ _ rfl) (goalAdjustment_of_spec _ _ rfl) hb hmd h7 had, h8]
  simp only [Option.map_some', mathRound]
  norm_num

theorem computeGoal_lightDoubleProfile :
    utils.computeGoal lightDoubleProfile = some 1220 := by
  have hw : roundDouble ((2828823515942093 / 140737488355328)) = some
    (2828823515942093 / 140737488355328) :=
    roundDouble_eval ((2828823515942093 / 140737488355328)) 5657647031884186 (-48)
      (2828823515942093 / 140737488355328) (by norm_num)
  have hh : roundDouble ((2255318250894131 / 17592186044416)) = some
    (2255318250894131 / 17592186044416) :=
    roundDouble_eval ((2255318250894131 / 17592186044416)) 4510636501788262 (-45)
      (2255318250894131 / 17592186044416) (by norm_num)
  have ha : roundDouble (15) = some 15 :=
    roundDouble_eval (15) 8444249301319680 (-49) 15 (by norm_num)
  have h1 : roundDouble (10 * (2828823515942093 / 140737488355328)) = some 201 :=
    roundDouble_eval_tie (10 * (2828823515942093 / 140737488355328)) 7072058789855232 (-45) 201
      (by norm_num)
  have h2 : roundDouble (6.25 * (2255318250894131 / 17592186044416)) = some
    (7047869534044159 / 8796093022208) :=
    roundDouble_eval (6.25 * (2255318250894131 / 17592186044416)) 7047869534044159 (-43)
      (7047869534044159 / 8796093022208) (by norm_num)
  have h3 : roundDouble (201 + (7047869534044159 / 8796093022208)) = some
    (8815884231507967 / 8796093022208) :=
    roundDouble_eval (201 + (7047869534044159 / 8796093022208)) 8815884231507967 (-43)
      (8815884231507967 / 8796093022208) (by norm_num)
  have h4 : roundDouble (5 * 15) = some 75 :=
    roundDouble_eval (5 * 15) 5277655813324800 (-46) 75 (by norm_num)
  have h5 : roundDouble ((8815884231507967 / 8796093022208) - 75) = some
    (8156177254842367 / 8796093022208) :=
    roundDouble_eval ((8815884231507967 / 8796093022208) - 75) 8156177254842367 (-43)
      (8156177254842367 / 8796093022208) (by norm_num)
  have h6 : roundDouble ((8156177254842367 / 8796093022208) - 161) = some
    (6740006278266879 / 8796093022208) :=
    roundDouble_eval ((8156177254842367 / 8796093022208) - 161) 6740006278266879 (-43)
      (6740006278266879 / 8796093022208) (by norm_num)
  have hmd : roundDouble (1.2) = some (5404319552844595 / 4503599627370496) :=
    roundDouble_eval (1.2) 5404319552844595 (-52) (5404319552844595 / 4503599627370496)
      (by norm_num)
  have h7 : roundDouble ((6740006278266879 / 8796093022208) * (5404319552844595 / 4503599627370496))
    = some (8088007533920255 / 8796093022208) :=
    roundDouble_eval ((6740006278266879 / 8796093022208) * (5404319552844595 / 4503599627370496))
      8088007533920255 (-43) (8088007533920255 / 8796093022208) (by norm_num)
  have had : roundDouble (300) = some 300 :=
    roundDouble_eval (300) 5277655813324800 (-44) 300 (by norm_num)
  have h8 : roundDouble ((8088007533920255 / 8796093022208) + 300) = some (2439 / 2) :=
    roundDouble_eval_tie ((8088007533920255 / 8796093022208) + 300) 5363417720291328 (-42)
      (2439 / 2) (by norm_num)
  have hb : utils.bmr lightDoubleProfile = some (6740006278266879 / 8796093022208) :=
    bmr_of_steps_other lightDoubleProfile (2828823515942093 / 140737488355328)
      (2255318250894131 / 17592186044416) 15 201 (7047869534044159 / 8796093022208)
      (8815884231507967 / 8796093022208) 75
      (8156177254842367 / 8796093022208) (6740006278266879 / 8796093022208) (by decide) hw hh ha h1
        h2 h3 h4 h5 h6
  rw [computeGoal_of_steps lightDoubleProfile 1.2 300 (6740006278266879 / 8796093022208)
    (5404319552844595 / 4503599627370496) (8088007533920255 / 8796093022208) 300
    (activityMultiplier_of_spec _ _ rfl) (goalAdjustment_of_spec _ _ rfl) hb hmd h7 had, h8]
  simp only [Option.map_some', mathRound]
  norm_num

theorem computeGoal_athleteProfile :
    utils.computeGoal athleteProfile = some 2610 := by
  have hw : roundDouble (60) = some 60 :=
    roundDouble_eval (60) 8444249301319680 (-47) 60 (by norm_num)
  have hh : roundDouble (196) = some 196 :=
    roundDouble_eval (196) 6896136929411072 (-45) 196 (by norm_num)
  have ha : roundDouble (30) = some 30 :=
    roundDouble_eval (30) 8444249301319680 (-48) 30 (by norm_num)
  have h1 : roundDouble (10 * 60) = some 600 :=
    roundDouble_eval (10 * 60) 5277655813324800 (-43) 600 (by norm_num)
  have h2 : roundDouble (6.25 * 196) = some 1225 :=
    roundDouble_eval (6.25 * 196) 5387606976102400 (-42) 1225 (by norm_num)
  have h3 : roundDouble (600 + 1225) = some 1825 :=
    roundDouble_eval (600 + 1225) 8026434882764800 (-42) 1825 (by norm_num)
  have h4 : roundDouble (5 * 30) = some 150 :=
    roundDouble_eval (5 * 30) 5277655813324800 (-45) 150 (by norm_num)
  have h5 : roundDouble (1825 - 150) = some 1675 :=
    roundDouble_eval (1825 - 150) 7366727906099200 (-42) 1675 (by norm_num)
  have h6 : roundDouble (1675 + 5) = some 1680 :=
    roundDouble_eval (1675 + 5) 7388718138654720 (-42) 1680 (by norm_num)
  have hmd : roundDouble (1.375) = some (11 / 8) :=
    roundDouble_eval (1.375) 6192449487634432 (-52) (11 / 8) (by norm_num)
  have h7 : roundDouble (1680 * (11 / 8)) = some 2310 :=
    roundDouble_eval (1680 * (11 / 8)) 5079743720325120 (-41) 2310 (by norm_num)
  have had : roundDouble (300) = some 300 :=
    roundDouble_eval (300) 5277655813324800 (-44) 300 (by norm_num)
  have h8 : roundDouble (2310 + 300) = some 2610 :=
    roundDouble_eval (2310 + 300) 5739450696990720 (-41) 2610 (by norm_num)
  have hb : utils.bmr athleteProfile = some 1680 :=
    bmr_of_steps_male athleteProfile 60 196 30 600 1225 1825 150
      1675 1680 rfl hw hh ha h1 h2 h3 h4 h5 h6
  rw [computeGoal_of_steps athleteProfile 1.375 300 1680 (11 / 8) 2310 300
    (activityMultiplier_of_spec _ _ rfl) (goalAdjustment_of_spec _ _ rfl) hb hmd h7 had, h8]
  simp only [Option.map_some', mathRound]
  norm_num

theorem computeGoal_heavyProfile :
    utils.computeGoal heavyProfile = some 30962247438173044 := by
  have hw : roundDouble (2251799813685248) = some 2251799813685248 :=
    roundDouble_eval (2251799813685248) 4503599627370496 (-1) 2251799813685248 (by norm_num)
  have hh : roundDouble (128) = some 128 :=
    roundDouble_eval (128) 4503599627370496 (-45) 128 (by norm_num)
  have ha : roundDouble (32) = some 32 :=
    roundDouble_eval (32) 4503599627370496 (-47) 32 (by norm_num)
  have h1 : roundDouble (10 * 2251799813685248) = some 22517998136852480 :=
    roundDouble_eval (10 * 2251799813685248) 5629499534213120 2 22517998136852480 (by norm_num)
  have h2 : roundDouble (6.25 * 128) = some 800 :=
    roundDouble_eval (6.25 * 128) 7036874417766400 (-43) 800 (by norm_num)
  have h3 : roundDouble (22517998136852480 + 800) = some 22517998136853280 :=
    roundDouble_eval (22517998136852480 + 800) 5629499534213320 2 22517998136853280 (by norm_num)
  have h4 : roundDouble (5 * 32) = some 160 :=
    roundDouble_eval (5 * 32) 5629499534213120 (-45) 160 (by norm_num)
  have h5 : roundDouble (22517998136853280 - 160) = some 22517998136853120 :=
    roundDouble_eval (22517998136853280 - 160) 5629499534213280 2 22517998136853120 (by norm_num)
  have h6 : roundDouble (22517998136853120 + 5) = some 22517998136853124 :=
    roundDouble_eval (22517998136853120 + 5) 5629499534213281 2 22517998136853124 (by norm_num)
  have hmd : roundDouble (1.375) = some (11 / 8) :=
    roundDouble_eval (1.375) 6192449487634432 (-52) (11 / 8) (by norm_num)
  have h7 : roundDouble (22517998136853124 * (11 / 8)) = some 30962247438173044 :=
    roundDouble_eval (22517998136853124 * (11 / 8)) 7740561859543261 2 30962247438173044
      (by norm_num)
  have had : roundDouble (0) = some 0 := roundDouble_zero
  have h8 : roundDouble (30962247438173044 + 0) = some 30962247438173044 :=
    roundDouble_eval (30962247438173044 + 0) 7740561859543261 2 30962247438173044 (by norm_num)
  have hb : utils.bmr heavyProfile = some 22517998136853124 :=
    bmr_of_steps_male heavyProfile 2251799813685248 128 32 22517998136852480 800 22517998136853280
      160
      22517998136853120 22517998136853124 rfl hw hh ha h1 h2 h3 h4 h5 h6
  rw [computeGoal_of_steps heavyProfile 1.375 0 22517998136853124 (11 / 8) 30962247438173044 0
    (activityMultiplier_of_spec _ _ rfl) (goalAdjustment_of_spec _ _ rfl) hb hmd h7 had, h8]
  simp only [Option.map_some', mathRound]
  norm_num

/-! ## Default plan generator -/

theorem dayTemplatesOf_length (pref : String) (h : pref ∉ objectPrototypeKeys) :
    ∃ t, utils.dayTemplatesOf pref = some t ∧ t.length = 7 := by
  unfold utils.dayTemplatesOf lookupIn
  by_cases h1 : pref = "none"
  · subst h1; exact ⟨_, rfl, rfl⟩
  by_cases h2 : pref = "vegetarian"
  · subst h2; exact ⟨_, rfl, rfl⟩
  by_cases h3 : pref = "vegan"
  · subst h3; exact ⟨_, rfl, rfl⟩
  have : List.lookup pref utils.templates = none := by
    have e1 : (pref == "none") = false := by simpa using h1
    have e2 : (pref == "vegetarian") = false := by simpa using h2
    have e3 : (pref == "vegan") = false := by simpa using h3
    simp [utils.templates, List.lookup, e1, e2, e3]
  simp only [this, h, if_false]
  exact ⟨_, rfl, rfl⟩

/-! ## Reading the store -/

/-- C5. For every key, default value and stored string on which `JSON.parse` throws,
`store.get(key, default)` returns the default (the function is total: nothing is raised) and
the key is absent from the storage afterwards. -/
theorem get_corrupted_returns_default (H : Host) (s : LocalStorage) (key raw : String)
    (defaultValue : Json) (hraw : s.getItem key = some raw) (hbad : H.jsonParse raw = none) :
    (store.get H s key defaultValue).1 = defaultValue ∧
      (store.get H s key defaultValue).2.getItem key = none := by
  rw [store.get_corrupted H s key raw defaultValue hraw hbad]
  exact ⟨rfl, LocalStorage.getItem_removeItem_self s key⟩

theorem get_corrupted_returns_default_witness :
    (LocalStorage.mk [("ddt_test_key", "\x7b\"unclosed\":")] 5000000).getItem "ddt_test_key"
        = some "\x7b\"unclosed\":" ∧
    refHost.jsonParse "\x7b\"unclosed\":" = none ∧
    (store.get refHost (LocalStorage.mk [("ddt_test_key", "\x7b\"unclosed\":")] 5000000)
        "ddt_test_key" (Json.str "fallback")).1 = Json.str "fallback" ∧
    (store.get refHost (LocalStorage.mk [("ddt_test_key", "\x7b\"unclosed\":")] 5000000)
        "ddt_test_key" (Json.str "fallback")).2.getItem "ddt_test_key" = none :=
  ⟨rfl, rfl, get_corrupted_returns_default refHost _ "ddt_test_key" "\x7b\"unclosed\":"
    (Json.str "fallback") rfl rfl⟩

/-- C6. For every storage state and default value: for a key absent from the storage,
`store.get(key, default)` returns the default and leaves the storage unchanged; for a key
holding text that `JSON.parse` accepts, it returns the parsed value and leaves the storage
unchanged. -/
theorem get_absent_or_valid (H : Host) (s : LocalStorage) (key : String) (defaultValue : Json) :
    (s.getItem key = none → store.get H s key defaultValue = (defaultValue, s)) ∧
    (∀ (raw : String) (v : Json), s.getItem key = some raw → H.jsonParse raw = some v →
      store.get H s key defaultValue = (v, s)) :=
  ⟨store.get_absent H s key defaultValue,
   fun raw v h hv => store.get_valid H s key raw defaultValue v h hv⟩

theorem get_absent_or_valid_witness :
    (emptyStorage.getItem "ddt_theme" = none ∧
      store.get refHost emptyStorage "ddt_theme" (Json.str "light")
        = (Json.str "light", emptyStorage)) ∧
    ((LocalStorage.mk [("ddt_theme", refHost.stringify (Json.str "dark"))] 5000000).getItem
        "ddt_theme" = some (refHost.stringify (Json.str "dark")) ∧
      refHost.jsonParse (refHost.stringify (Json.str "dark")) = some (Json.str "dark") ∧
      store.get refHost (LocalStorage.mk [("ddt_theme", refHost.stringify (Json.str "dark"))]
          5000000) "ddt_theme" (Json.str "light")
        = (Json.str "dark",
            LocalStorage.mk [("ddt_theme", refHost.stringify (Json.str "dark"))] 5000000)) :=
  ⟨⟨rfl, (get_absent_or_valid refHost emptyStorage "ddt_theme" (Json.str "light")).1 rfl⟩,
   ⟨rfl, refHost_jsonRoundTrip _,
    (get_absent_or_valid refHost _ "ddt_theme" (Json.str "light")).2 _ _ rfl
      (refHost_jsonRoundTrip _)⟩⟩


/-! ## Plan round trip -/

theorem field_assignField_ne (plan : List (String × Json)) (key other : String) (v : Json)
    (hne : other ≠ key) :
    (Json.obj (store.assignField plan key v)).field other = (Json.obj plan).field other :=
  lookup_putKey_ne plan key other v hne

theorem field_assignField_self (plan : List (String × Json)) (key : String) (v : Json) :
    (Json.obj (store.assignField plan key v)).field key = some v :=
  lookup_putKey_self plan key v

theorem getPlan_setPlan (H : Host) (hJ : H.JsonRoundTrip) (s : LocalStorage)
    (plan : List (String × Json)) (now : String)
    (hw : store.writeAccepted H s KEYS.PLAN
      (Json.obj (store.assignField plan "updatedAt" (Json.str now))) = true) :
    (store.getPlan H (store.setPlan H s plan now)).1
      = Json.obj (store.assignField plan "updatedAt" (Json.str now)) := by
  unfold store.getPlan store.setPlan
  rw [store.get_set_self H hJ s KEYS.PLAN _ Json.null hw]

theorem getPlan_setPlan_fullStorage (H : Host) (plan : List (String × Json)) (now : String) :
    (store.getPlan H (store.setPlan H fullStorage plan now)).1 = Json.null := by
  unfold store.getPlan store.setPlan fullStorage
  rw [store.set_of_quota_zero H [] KEYS.PLAN _ (by decide)]
  rfl

theorem writeAccepted_emptyStorage_futurePlan :
    store.writeAccepted refHost emptyStorage KEYS.PLAN
      (Json.obj (store.assignField futurePlan "updatedAt" (Json.str sampleNow))) = true := by
  decide

/-- C7, as amended. For every plan object and every clock reading, when the storage accepts
the write, `setPlan(plan)` followed by `getPlan()` returns an object whose `days` and
`createdAt` are those of `plan`. -/
theorem setPlan_getPlan_days_createdAt (H : Host) (hJ : H.JsonRoundTrip) (s : LocalStorage)
    (plan : List (String × Json)) (now : String)
    (hw : store.writeAccepted H s KEYS.PLAN
      (Json.obj (store.assignField plan "updatedAt" (Json.str now))) = true) :
    (store.getPlan H (store.setPlan H s plan now)).1.field "days" = (Json.obj plan).field "days" ∧
    (store.getPlan H (store.setPlan H s plan now)).1.field "createdAt"
      = (Json.obj plan).field "createdAt" := by
  rw [getPlan_setPlan H hJ s plan now hw]
  exact ⟨field_assignField_ne plan _ _ _ (by decide), field_assignField_ne plan _ _ _ (by decide)⟩

theorem setPlan_getPlan_days_createdAt_witness :
    refHost.JsonRoundTrip ∧
    store.writeAccepted refHost emptyStorage KEYS.PLAN
      (Json.obj (store.assignField futurePlan "updatedAt" (Json.str sampleNow))) = true ∧
    (store.getPlan refHost (store.setPlan refHost emptyStorage futurePlan sampleNow)).1.field
        "days" = (Json.obj futurePlan).field "days" ∧
    (store.getPlan refHost (store.setPlan refHost emptyStorage futurePlan sampleNow)).1.field
        "createdAt" = (Json.obj futurePlan).field "createdAt" :=
  ⟨refHost_jsonRoundTrip, writeAccepted_emptyStorage_futurePlan,
   setPlan_getPlan_days_createdAt refHost refHost_jsonRoundTrip emptyStorage futurePlan
     sampleNow writeAccepted_emptyStorage_futurePlan⟩

/-- C7, counterexample. On a storage that rejects the write, `setPlan(plan)` followed by
`getPlan()` returns `null`, which has no `days`, while the plan has. -/
theorem setPlan_getPlan_days_fullStorage :
    (store.getPlan refHost (store.setPlan refHost fullStorage futurePlan sampleNow)).1.field
        "days" = none ∧
    (Json.obj futurePlan).field "days" = some (Json.arr []) := by
  rw [getPlan_setPlan_fullStorage]
  exact ⟨rfl, rfl⟩

/-- C8, as amended. For every plan object and every clock reading `now`, when the storage
accepts the write, the plan `getPlan()` returns after `setPlan(plan)` has `updatedAt` equal
to `now`, whatever `updatedAt` the input carried: it has the shape of an ISO timestamp as
`now` has, and it is newer than or equal to the input's whenever the input's is not later
than `now`. -/
theorem setPlan_stamps_updatedAt (H : Host) (hJ : H.JsonRoundTrip) (s : LocalStorage)
    (plan : List (String × Json)) (now : String)
    (hw : store.writeAccepted H s KEYS.PLAN
      (Json.obj (store.assignField plan "updatedAt" (Json.str now))) = true) :
    (store.getPlan H (store.setPlan H s plan now)).1.field "updatedAt" = some (Json.str now) ∧
    (isIsoTimestamp now = true →
      ∃ u : String,
        (store.getPlan H (store.setPlan H s plan now)).1.field "updatedAt" = some (Json.str u) ∧
          isIsoTimestamp u = true) ∧
    ∀ t : String, (Json.obj plan).field "updatedAt" = some (Json.str t) → t ≤ now →
      ∃ u : String,
        (store.getPlan H (store.setPlan H s plan now)).1.field "updatedAt" = some (Json.str u) ∧
          t ≤ u := by
  rw [getPlan_setPlan H hJ s plan now hw]
  exact ⟨field_assignField_self plan _ _,
    fun hv => ⟨now, field_assignField_self plan _ _, hv⟩,
    fun t _ ht => ⟨now, field_assignField_self plan _ _, ht⟩⟩

theorem writeAccepted_emptyStorage_pastPlan :
    store.writeAccepted refHost emptyStorage KEYS.PLAN
      (Json.obj (store.assignField pastPlan "updatedAt" (Json.str sampleNow))) = true := by
  decide

theorem pastPlan_not_later : "2024-01-02T08:30:00.000Z" ≤ sampleNow := by
  rw [String.le_iff_toList_le]
  decide

theorem setPlan_stamps_updatedAt_witness :
    refHost.JsonRoundTrip ∧
    store.writeAccepted refHost emptyStorage KEYS.PLAN
      (Json.obj (store.assignField pastPlan "updatedAt" (Json.str sampleNow))) = true ∧
    isIsoTimestamp sampleNow = true ∧
    (Json.obj pastPlan).field "updatedAt" = some (Json.str "2024-01-02T08:30:00.000Z") ∧
    "2024-01-02T08:30:00.000Z" ≤ sampleNow ∧
    (store.getPlan refHost (store.setPlan refHost emptyStorage pastPlan sampleNow)).1.field
        "updatedAt" = some (Json.str sampleNow) ∧
    (∃ u : String,
      (store.getPlan refHost (store.setPlan refHost emptyStorage pastPlan sampleNow)).1.field
          "updatedAt" = some (Json.str u) ∧ isIsoTimestamp u = true) ∧
    ∃ u : String,
      (store.getPlan refHost (store.setPlan refHost emptyStorage pastPlan sampleNow)).1.field
          "updatedAt" = some (Json.str u) ∧ "2024-01-02T08:30:00.000Z" ≤ u :=
  ⟨refHost_jsonRoundTrip, writeAccepted_emptyStorage_pastPlan, by decide, rfl,
   pastPlan_not_later,
   (setPlan_stamps_updatedAt refHost refHost_jsonRoundTrip emptyStorage pastPlan sampleNow
     writeAccepted_emptyStorage_pastPlan).1,
   (setPlan_stamps_updatedAt refHost refHost_jsonRoundTrip emptyStorage pastPlan sampleNow
     writeAccepted_emptyStorage_pastPlan).2.1 (by decide),
   (setPlan_stamps_updatedAt refHost refHost_jsonRoundTrip emptyStorage pastPlan sampleNow
     writeAccepted_emptyStorage_pastPlan).2.2 _ rfl pastPlan_not_later⟩

/-- C8, counterexample. A plan whose `updatedAt` is the valid timestamp
2999-12-31T23:59:59.999Z, written at 2026-11-06T12:00:00.000Z on a storage that accepts the
write, comes back with `updatedAt` equal to the clock reading, which is older than the
input's; and on a storage that rejects the write, what `getPlan()` returns has no
`updatedAt`. -/
theorem setPlan_updatedAt_older_than_input :
    (Json.obj futurePlan).field "updatedAt" = some (Json.str "2999-12-31T23:59:59.999Z") ∧
    isIsoTimestamp "2999-12-31T23:59:59.999Z" = true ∧
    isIsoTimestamp sampleNow = true ∧
    (store.getPlan refHost (store.setPlan refHost emptyStorage futurePlan sampleNow)).1.field
        "updatedAt" = some (Json.str sampleNow) ∧
    ¬ ("2999-12-31T23:59:59.999Z" ≤ sampleNow) ∧
    (store.getPlan refHost (store.setPlan refHost fullStorage futurePlan sampleNow)).1.field
        "updatedAt" = none := by
  refine ⟨rfl, by decide, by decide, ?_, ?_, ?_⟩
  rotate_left
  · rw [String.le_iff_toList_le]
    decide
  · rw [getPlan_setPlan_fullStorage]
    rfl
  rw [getPlan_setPlan refHost refHost_jsonRoundTrip emptyStorage futurePlan sampleNow
    writeAccepted_emptyStorage_futurePlan]
  exact field_assignField_self futurePlan _ _

/-! ## Water log -/

theorem getWater_setWater_other (H : Host) (s : LocalStorage) (dateA dateB : String)
    (count : Int) (hAB : dateA ≠ dateB) :
    (store.setWater H s dateA count).getItem (store.waterKey dateB)
      = s.getItem (store.waterKey dateB) :=
  store.getItem_set_ne H s _ _ _ (fun h => hAB (store.waterKey_injective _ _ h).symm)

/-- C9. For every storage state, two distinct dates A and B and every count,
`getWater(B)` returns after `setWater(A, count)` what it returned before; in particular it
returns 0 for a date B whose key is absent from the storage. -/
theorem setWater_leaves_other_dates (H : Host) (s : LocalStorage) (dateA dateB : String)
    (count : Int) (hAB : dateA ≠ dateB) :
    (store.getWater H (store.setWater H s dateA count) dateB).1 = (store.getWater H s dateB).1 ∧
    (s.getItem (store.waterKey dateB) = none →
      (store.getWater H (store.setWater H s dateA count) dateB).1 = Json.num 0) := by
  have h := store.get_value_congr H s (store.setWater H s dateA count) (store.waterKey dateB)
    (Json.num 0) (getWater_setWater_other H s dateA dateB count hAB)
  refine ⟨h, fun habs => ?_⟩
  unfold store.getWater
  rw [h, store.get_absent H s _ _ habs]

theorem setWater_leaves_other_dates_witness :
    "2024-03-01" ≠ "2024-03-02" ∧
    emptyStorage.getItem (store.waterKey "2024-03-02") = none ∧
    (store.getWater refHost (store.setWater refHost emptyStorage "2024-03-01" 5)
        "2024-03-02").1 = (store.getWater refHost emptyStorage "2024-03-02").1 ∧
    (store.getWater refHost (store.setWater refHost emptyStorage "2024-03-01" 5)
        "2024-03-02").1 = Json.num 0 :=
  ⟨by decide, rfl,
   (setWater_leaves_other_dates refHost emptyStorage "2024-03-01" "2024-03-02" 5 (by decide)).1,
   (setWater_leaves_other_dates refHost emptyStorage "2024-03-01" "2024-03-02" 5 (by decide)).2
     rfl⟩

/-- C10, as amended. For every date and every integer count, when the storage accepts the
write, `setWater(date, count)` followed by `getWater(date)` returns
`max(0, min(8, count))`, which lies in [0, 8]. -/
theorem setWater_getWater_clamped (H : Host) (hJ : H.JsonRoundTrip) (s : LocalStorage)
    (date : String) (count : Int)
    (hw : store.writeAccepted H s (store.waterKey date)
      (Json.num ((max 0 (min 8 count) : Int) : ℚ)) = true) :
    (store.getWater H (store.setWater H s date count) date).1
        = Json.num ((max 0 (min 8 count) : Int) : ℚ) ∧
      0 ≤ max 0 (min 8 count) ∧ max 0 (min 8 count) ≤ 8 := by
  refine ⟨?_, le_max_left _ _, max_le (by norm_num) (min_le_left _ _)⟩
  unfold store.getWater store.setWater
  rw [store.get_set_self H hJ s _ _ _ hw]

theorem writeAccepted_emptyStorage_water :
    store.writeAccepted refHost emptyStorage (store.waterKey "2024-03-01")
      (Json.num ((max 0 (min 8 11) : Int) : ℚ)) = true := by
  decide

theorem setWater_getWater_clamped_witness :
    refHost.JsonRoundTrip ∧
    store.writeAccepted refHost emptyStorage (store.waterKey "2024-03-01")
      (Json.num ((max 0 (min 8 11) : Int) : ℚ)) = true ∧
    (store.getWater refHost (store.setWater refHost emptyStorage "2024-03-01" 11)
        "2024-03-01").1 = Json.num ((max 0 (min 8 11) : Int) : ℚ) ∧
    (0 : Int) ≤ max 0 (min 8 11) ∧ max 0 (min 8 11) ≤ (8 : Int) :=
  ⟨refHost_jsonRoundTrip, writeAccepted_emptyStorage_water,
   setWater_getWater_clamped refHost refHost_jsonRoundTrip emptyStorage "2024-03-01" 11
     writeAccepted_emptyStorage_water⟩

/-- C10, counterexample. On a storage that rejects the write, `setWater(date, 5)` followed by
`getWater(date)` returns 0 and not 5. -/
theorem setWater_getWater_fullStorage :
    (store.getWater refHost (store.setWater refHost fullStorage "2024-03-01" 5)
        "2024-03-01").1 = Json.num 0 ∧
    Json.num 0 ≠ Json.num ((max 0 (min 8 5) : Int) : ℚ) := by
  constructor
  · unfold store.getWater store.setWater fullStorage
    rw [store.set_of_quota_zero refHost [] _ _ (by decide)]
    rfl
  · intro h
    injection h with h
    norm_num at h


/-! ## Weight log -/

theorem ofJson_toJson (e : WeightEntry) : WeightEntry.ofJson e.toJson = some e := by
  simp [WeightEntry.ofJson, WeightEntry.toJson, List.lookup]

theorem decodeEntries_map_toJson (log : List WeightEntry) :
    decodeEntries (log.map WeightEntry.toJson) = some log := by
  induction log with
  | nil => rfl
  | cons e log ih => simp [decodeEntries, ofJson_toJson, ih]

theorem decodeLog_encodeLog (log : List WeightEntry) : decodeLog (encodeLog log) = some log :=
  decodeEntries_map_toJson log

theorem upsert_nil (e : WeightEntry) : upsert [] e = [e] := by
  simp [upsert]

theorem upsert_cons (x : WeightEntry) (xs : List WeightEntry) (e : WeightEntry) :
    upsert (x :: xs) e = if x.date = e.date then e :: xs else x :: upsert xs e := by
  by_cases h : x.date = e.date
  · simp [upsert, List.findIdx_cons, h]
  · have hb : (x.date == e.date) = false := by simpa using h
    rw [if_neg h]
    unfold upsert
    simp only [List.findIdx_cons, hb, cond_false, List.length_cons]
    by_cases hlt : List.findIdx (fun y => y.date == e.date) xs < xs.length
    · rw [if_pos (by omega), if_pos hlt, List.set_cons_succ]
    · rw [if_neg (by omega), if_neg hlt, List.cons_append]

theorem mem_dates_upsert (log : List WeightEntry) (e : WeightEntry) (d : String) :
    d ∈ (upsert log e).map WeightEntry.date ↔ d ∈ log.map WeightEntry.date ∨ d = e.date := by
  induction log with
  | nil => simp [upsert_nil]
  | cons x xs ih =>
    rw [upsert_cons]
    by_cases h : x.date = e.date
    · simp only [h, if_true, List.map_cons, List.mem_cons]
      tauto
    · simp only [h, if_false, List.map_cons, List.mem_cons, ih]
      tauto

theorem nodup_dates_upsert (log : List WeightEntry) (e : WeightEntry)
    (h : (log.map WeightEntry.date).Nodup) : ((upsert log e).map WeightEntry.date).Nodup := by
  induction log with
  | nil => simp [upsert_nil]
  | cons x xs ih =>
    rw [upsert_cons]
    simp only [List.map_cons, List.nodup_cons] at h
    by_cases hx : x.date = e.date
    · simp only [hx, if_true, List.map_cons, List.nodup_cons]
      exact ⟨hx ▸ h.1, h.2⟩
    · simp only [hx, if_false, List.map_cons, List.nodup_cons]
      refine ⟨?_, ih h.2⟩
      rw [mem_dates_upsert]
      rintro (h1 | h1)
      · exact h.1 h1
      · exact hx h1

theorem mem_upsert (log : List WeightEntry) (e x : WeightEntry) (h : x ∈ upsert log e) :
    x ∈ log ∨ x = e := by
  induction log with
  | nil => simp [upsert_nil] at h; exact Or.inr h
  | cons y ys ih =>
    rw [upsert_cons] at h
    by_cases hy : y.date = e.date
    · simp only [hy, if_true, List.mem_cons] at h
      rcases h with h | h
      · exact Or.inr h
      · exact Or.inl (List.mem_cons_of_mem _ h)
    · simp only [hy, if_false, List.mem_cons] at h
      rcases h with h | h
      · exact Or.inl (h ▸ List.mem_cons_self _ _)
      · rcases ih h with h1 | h1
        · exact Or.inl (List.mem_cons_of_mem _ h1)
        · exact Or.inr h1

theorem sortByDate_perm (H : Host) (log : List WeightEntry) : (sortByDate H log).Perm log :=
  List.perm_insertionSort _ log

theorem orderedInsert_congr {α : Type} (r r2 : α → α → Prop) [DecidableRel r] [DecidableRel r2]
    (a : α) (l : List α) (h : ∀ b ∈ l, (r a b ↔ r2 a b)) :
    List.orderedInsert r a l = List.orderedInsert r2 a l := by
  induction l with
  | nil => rfl
  | cons b l ih =>
    have hb := h b (List.mem_cons_self _ _)
    by_cases hr : r a b
    · simp [List.orderedInsert, hr, hb.mp hr]
    · have hr2 : ¬ r2 a b := fun h2 => hr (hb.mpr h2)
      simp [List.orderedInsert, hr, hr2, ih (fun c hc => h c (List.mem_cons_of_mem _ hc))]

theorem insertionSort_congr {α : Type} (r r2 : α → α → Prop) [DecidableRel r] [DecidableRel r2]
    (l : List α) (h : ∀ a ∈ l, ∀ b ∈ l, (r a b ↔ r2 a b)) :
    List.insertionSort r l = List.insertionSort r2 l := by
  induction l with
  | nil => rfl
  | cons a l ih =>
    have ih2 := ih (fun x hx y hy => h x (List.mem_cons_of_mem _ hx) y (List.mem_cons_of_mem _ hy))
    simp only [List.insertionSort]
    rw [ih2]
    apply orderedInsert_congr
    intro b hb
    have hb2 : b ∈ l := (List.perm_insertionSort r2 l).subset hb
    exact h a (List.mem_cons_self _ _) b (List.mem_cons_of_mem _ hb2)

theorem sortByDate_dates_sorted (H : Host) (hC : H.ComparesDateKeys) (log : List WeightEntry)
    (hk : ∀ e ∈ log, isDateKey e.date = true) :
    ((sortByDate H log).map WeightEntry.date).Pairwise (· ≤ ·) := by
  have e : sortByDate H log = List.insertionSort dateLE log := by
    unfold sortByDate
    apply insertionSort_congr
    intro a ha b hb
    exact hC a.date b.date (hk a ha) (hk b hb)
  rw [e, List.pairwise_map]
  exact List.sorted_insertionSort dateLE log

theorem sortByDate_dates_strict (H : Host) (hC : H.ComparesDateKeys) (log : List WeightEntry)
    (hk : ∀ e ∈ log, isDateKey e.date = true) (hn : (log.map WeightEntry.date).Nodup) :
    ((sortByDate H log).map WeightEntry.date).Pairwise (· < ·) := by
  have hs := sortByDate_dates_sorted H hC log hk
  have hn2 : ((sortByDate H log).map WeightEntry.date).Nodup :=
    ((sortByDate_perm H log).map WeightEntry.date).nodup_iff.mpr hn
  exact (List.Sorted.lt_of_le hs hn2)

theorem find?_unique (l : List WeightEntry) (x : WeightEntry) (d : String)
    (hn : (l.map WeightEntry.date).Nodup) (hx : x ∈ l) (hd : x.date = d) :
    l.find? (fun y => y.date == d) = some x := by
  induction l with
  | nil => simp at hx
  | cons y ys ih =>
    simp only [List.map_cons, List.nodup_cons] at hn
    rcases List.mem_cons.mp hx with h | h
    · subst h; simp [hd]
    · have hy : ¬ y.date = d := by
        intro hy
        apply hn.1
        rw [hy, ← hd]
        exact List.mem_map_of_mem _ h
      simp [List.find?_cons, hy, ih hn.2 h]

theorem find?_perm (l l2 : List WeightEntry) (d : String) (hp : l.Perm l2)
    (hn : (l.map WeightEntry.date).Nodup) :
    l2.find? (fun y => y.date == d) = l.find? (fun y => y.date == d) := by
  have hn2 : (l2.map WeightEntry.date).Nodup := (hp.map WeightEntry.date).nodup_iff.mp hn
  cases h : l.find? (fun y => y.date == d) with
  | none =>
    rw [List.find?_eq_none] at h ⊢
    exact fun x hx => h x (hp.symm.subset hx)
  | some x =>
    have hx := List.mem_of_find?_eq_some h
    have hd : x.date = d := by simpa using List.find?_some h
    exact find?_unique l2 x d hn2 (hp.subset hx) hd

theorem find?_upsert (log : List WeightEntry) (e : WeightEntry) (d : String)
    (hn : (log.map WeightEntry.date).Nodup) :
    (upsert log e).find? (fun y => y.date == d)
      = if e.date = d then some e else log.find? (fun y => y.date == d) := by
  by_cases hd : e.date = d
  · rw [if_pos hd]
    apply find?_unique _ _ _ (nodup_dates_upsert log e hn) _ hd
    clear hn
    induction log with
    | nil => simp [upsert_nil]
    | cons x xs ih =>
      rw [upsert_cons]
      split
      · exact List.mem_cons_self _ _
      · exact List.mem_cons_of_mem _ ih
  · rw [if_neg hd]
    clear hn
    induction log with
    | nil => simp [upsert_nil, hd]
    | cons x xs ih =>
      rw [upsert_cons]
      by_cases hx : x.date = e.date
      · have hxd : ¬ x.date = d := fun h => hd (hx ▸ h)
        rw [if_pos hx]
        simp [List.find?_cons, hd, hxd]
      · rw [if_neg hx]
        by_cases hxd : x.date = d
        · simp [List.find?_cons, hxd]
        · simp [List.find?_cons, hxd, ih]

theorem find?_step (H : Host) (log : List WeightEntry) (e : WeightEntry) (d : String)
    (hn : (log.map WeightEntry.date).Nodup) :
    (sortByDate H (upsert log e)).find? (fun y => y.date == d)
      = if e.date = d then some e else log.find? (fun y => y.date == d) := by
  rw [find?_perm (upsert log e) _ d (sortByDate_perm H _).symm (nodup_dates_upsert log e hn)]
  exact find?_upsert log e d hn

theorem nodup_dates_step (H : Host) (log : List WeightEntry) (e : WeightEntry)
    (hn : (log.map WeightEntry.date).Nodup) :
    ((sortByDate H (upsert log e)).map WeightEntry.date).Nodup :=
  ((sortByDate_perm H _).map WeightEntry.date).nodup_iff.mpr (nodup_dates_upsert log e hn)

/-- The log after appending the entries one by one, every write accepted. -/
theorem find?_foldl (H : Host) (entries log0 : List WeightEntry) (d : String)
    (hn : (log0.map WeightEntry.date).Nodup) :
    (entries.foldl (fun log e => sortByDate H (upsert log e)) log0).find?
        (fun y => y.date == d)
      = (entries.reverse.find? (fun y => y.date == d)).or (log0.find? (fun y => y.date == d)) := by
  induction entries generalizing log0 with
  | nil => simp
  | cons e es ih =>
    simp only [List.foldl_cons, List.reverse_cons, List.find?_append]
    rw [ih _ (nodup_dates_step H log0 e hn), find?_step H log0 e d hn]
    by_cases hd : e.date = d
    · rw [if_pos hd]
      cases (List.find? (fun y => y.date == d) es.reverse) <;> simp [hd]
    · rw [if_neg hd]
      cases (List.find? (fun y => y.date == d) es.reverse) <;> simp [hd]

namespace store

theorem appendWeightValue_of_log (H : Host) (s : LocalStorage) (log : List WeightEntry)
    (e : WeightEntry) (h : (getWeightLog H s).1 = encodeLog log) :
    appendWeightValue H s e = some (encodeLog (sortByDate H (upsert log e))) := by
  simp [appendWeightValue, h, decodeLog_encodeLog]

theorem getWeightLog_after_read (H : Host) (s : LocalStorage) :
    (getWeightLog H (getWeightLog H s).2).1 = (getWeightLog H s).1 := by
  unfold getWeightLog
  rw [get_get]

theorem appendWeight_accepted (H : Host) (hJ : H.JsonRoundTrip) (s : LocalStorage)
    (log : List WeightEntry) (e : WeightEntry) (h : (getWeightLog H s).1 = encodeLog log)
    (hw : writeAccepted H (getWeightLog H s).2 KEYS.WEIGHT_LOG
      (encodeLog (sortByDate H (upsert log e))) = true) :
    appendWeight H s e
        = some (set H (getWeightLog H s).2 KEYS.WEIGHT_LOG
            (encodeLog (sortByDate H (upsert log e)))) ∧
      (getWeightLog H (set H (getWeightLog H s).2 KEYS.WEIGHT_LOG
            (encodeLog (sortByDate H (upsert log e))))).1
        = encodeLog (sortByDate H (upsert log e)) := by
  constructor
  · simp [appendWeight, appendWeightValue_of_log H s log e h]
  · unfold getWeightLog at hw ⊢
    rw [get_set_self H hJ _ _ _ _ hw]

theorem appendWeight_rejected (H : Host) (s : LocalStorage)
    (log : List WeightEntry) (e : WeightEntry) (h : (getWeightLog H s).1 = encodeLog log)
    (hw : writeAccepted H (getWeightLog H s).2 KEYS.WEIGHT_LOG
      (encodeLog (sortByDate H (upsert log e))) = false) :
    appendWeight H s e = some (getWeightLog H s).2 ∧
      (getWeightLog H (getWeightLog H s).2).1 = encodeLog log := by
  constructor
  · have hs : (getWeightLog H s).2.setItem KEYS.WEIGHT_LOG
        (H.stringify (encodeLog (sortByDate H (upsert log e)))) = none := by
      unfold writeAccepted at hw
      cases hx : (getWeightLog H s).2.setItem KEYS.WEIGHT_LOG
        (H.stringify (encodeLog (sortByDate H (upsert log e)))) with
      | none => rfl
      | some s1 => rw [hx] at hw; simp at hw
    simp [appendWeight, appendWeightValue_of_log H s log e h, set_of_rejected H _ _ _ hs]
  · rw [getWeightLog_after_read, h]

theorem appendWeights_invariant (H : Host) (hJ : H.JsonRoundTrip) (hC : H.ComparesDateKeys)
    (entries : List WeightEntry) :
    ∀ (s : LocalStorage) (log : List WeightEntry), (getWeightLog H s).1 = encodeLog log →
      (log.map WeightEntry.date).Pairwise (· < ·) → (∀ e ∈ log, isDateKey e.date = true) →
      (∀ e ∈ entries, isDateKey e.date = true) →
      ∃ s1 log1, appendWeights H s entries = some s1 ∧
        (getWeightLog H s1).1 = encodeLog log1 ∧
        (log1.map WeightEntry.date).Pairwise (· < ·) := by
  induction entries with
  | nil => exact fun s log h hp _ _ => ⟨s, log, rfl, h, hp⟩
  | cons e es ih =>
    intro s log h hp hk hd
    have hes : ∀ x ∈ es, isDateKey x.date = true := fun x hx => hd x (List.mem_cons_of_mem _ hx)
    cases hw : writeAccepted H (getWeightLog H s).2 KEYS.WEIGHT_LOG
        (encodeLog (sortByDate H (upsert log e))) with
    | true =>
      obtain ⟨h1, h2⟩ := appendWeight_accepted H hJ s log e h hw
      have hk2 : ∀ x ∈ upsert log e, isDateKey x.date = true := by
        intro x hx
        rcases mem_upsert log e x hx with h3 | h3
        · exact hk x h3
        · exact h3 ▸ hd e (List.mem_cons_self _ _)
      have hn : (log.map WeightEntry.date).Nodup := hp.imp (fun h => ne_of_lt h)
      have hp2 := sortByDate_dates_strict H hC (upsert log e) hk2 (nodup_dates_upsert log e hn)
      have hk3 : ∀ x ∈ sortByDate H (upsert log e), isDateKey x.date = true :=
        fun x hx => hk2 x ((sortByDate_perm H _).subset hx)
      obtain ⟨s1, log1, h4, h5⟩ := ih _ _ h2 hp2 hk3 hes
      exact ⟨s1, log1, by simp only [appendWeights, h1, h4], h5⟩
    | false =>
      obtain ⟨h1, h2⟩ := appendWeight_rejected H s log e h hw
      obtain ⟨s1, log1, h4, h5⟩ := ih _ _ h2 hp hk hes
      exact ⟨s1, log1, by simp only [appendWeights, h1, h4], h5⟩

theorem appendWeights_accepted (H : Host) (hJ : H.JsonRoundTrip) (entries : List WeightEntry) :
    ∀ (s : LocalStorage) (log : List WeightEntry), (getWeightLog H s).1 = encodeLog log →
      appendsAccepted H s entries = true →
      ∃ s1, appendWeights H s entries = some s1 ∧
        (getWeightLog H s1).1
          = encodeLog (entries.foldl (fun l e => sortByDate H (upsert l e)) log) := by
  induction entries with
  | nil => exact fun s log h _ => ⟨s, rfl, h⟩
  | cons e es ih =>
    intro s log h hacc
    simp only [appendsAccepted, appendWeightValue_of_log H s log e h, Bool.and_eq_true] at hacc
    obtain ⟨h1, h2⟩ := appendWeight_accepted H hJ s log e h hacc.1
    obtain ⟨s1, h4, h5⟩ := ih _ _ h2 hacc.2
    exact ⟨s1, by simp only [appendWeights, h1, h4], by simpa using h5⟩

end store

/-- C3. For every sequence of entries with 'YYYY-MM-DD' dates appended one by one with
`appendWeight` to an initially empty weight log, every call returns and the resulting
`getWeightLog()` is a log whose dates are strictly increasing: sorted ascending by date, at
most one entry per date. -/
theorem appendWeights_sorted_unique (H : Host) (hJ : H.JsonRoundTrip) (hC : H.ComparesDateKeys)
    (s : LocalStorage) (entries : List WeightEntry)
    (h0 : (store.getWeightLog H s).1 = Json.arr [])
    (hd : ∀ e ∈ entries, isDateKey e.date = true) :
    ∃ s1 log, store.appendWeights H s entries = some s1 ∧
      (store.getWeightLog H s1).1 = encodeLog log ∧
      (log.map WeightEntry.date).Pairwise (· < ·) :=
  store.appendWeights_invariant H hJ hC entries s [] h0 List.Pairwise.nil
    (fun _ h => absurd h (List.not_mem_nil _)) hd

theorem sampleEntries_dateKeys : ∀ e ∈ sampleEntries, isDateKey e.date = true := by
  decide

theorem appendWeights_sorted_unique_witness :
    refHost.JsonRoundTrip ∧ refHost.ComparesDateKeys ∧
    (store.getWeightLog refHost emptyStorage).1 = Json.arr [] ∧
    (∀ e ∈ sampleEntries, isDateKey e.date = true) ∧
    ∃ s1 log, store.appendWeights refHost emptyStorage sampleEntries = some s1 ∧
      (store.getWeightLog refHost s1).1 = encodeLog log ∧
      (log.map WeightEntry.date).Pairwise (· < ·) :=
  ⟨refHost_jsonRoundTrip, refHost_comparesDateKeys, rfl, sampleEntries_dateKeys,
   appendWeights_sorted_unique refHost refHost_jsonRoundTrip refHost_comparesDateKeys
     emptyStorage sampleEntries rfl sampleEntries_dateKeys⟩

/-- C4, as amended. For every sequence of entries appended one by one with `appendWeight`
to an initially empty weight log, when the storage accepts every write, every date of the
input appears in the resulting log, and for every date the log's entry of that date is the
last input entry of that date. -/
theorem appendWeights_last_write_wins (H : Host) (hJ : H.JsonRoundTrip) (s : LocalStorage)
    (entries : List WeightEntry) (h0 : (store.getWeightLog H s).1 = Json.arr [])
    (hacc : store.appendsAccepted H s entries = true) :
    ∃ s1 log, store.appendWeights H s entries = some s1 ∧
      (store.getWeightLog H s1).1 = encodeLog log ∧
      (∀ e ∈ entries, e.date ∈ log.map WeightEntry.date) ∧
      ∀ d : String, log.find? (fun x => x.date == d)
        = entries.reverse.find? (fun x => x.date == d) := by
  obtain ⟨s1, h1, h2⟩ := store.appendWeights_accepted H hJ entries s [] h0 hacc
  have hf : ∀ d : String,
      (entries.foldl (fun l e => sortByDate H (upsert l e)) []).find? (fun x => x.date == d)
        = entries.reverse.find? (fun x => x.date == d) := by
    intro d
    rw [find?_foldl H entries [] d (by simp)]
    simp
  refine ⟨s1, _, h1, h2, ?_, hf⟩
  intro e he
  cases hx : entries.reverse.find? (fun x => x.date == e.date) with
  | none =>
    rw [List.find?_eq_none] at hx
    exact absurd (by simp) (hx e (List.mem_reverse.mpr he))
  | some x =>
    have h3 := hf e.date
    rw [hx] at h3
    have hxd : x.date = e.date := by simpa using List.find?_some h3
    rw [← hxd]
    exact List.mem_map_of_mem _ (List.mem_of_find?_eq_some h3)

theorem sampleEntries_accepted :
    store.appendsAccepted refHost emptyStorage sampleEntries = true := by
  decide

theorem appendWeights_last_write_wins_witness :
    refHost.JsonRoundTrip ∧
    (store.getWeightLog refHost emptyStorage).1 = Json.arr [] ∧
    store.appendsAccepted refHost emptyStorage sampleEntries = true ∧
    ∃ s1 log, store.appendWeights refHost emptyStorage sampleEntries = some s1 ∧
      (store.getWeightLog refHost s1).1 = encodeLog log ∧
      (∀ e ∈ sampleEntries, e.date ∈ log.map WeightEntry.date) ∧
      ∀ d : String, log.find? (fun x => x.date == d)
        = sampleEntries.reverse.find? (fun x => x.date == d) :=
  ⟨refHost_jsonRoundTrip, rfl, sampleEntries_accepted,
   appendWeights_last_write_wins refHost refHost_jsonRoundTrip emptyStorage sampleEntries rfl
     sampleEntries_accepted⟩

/-- C4, counterexample. On a storage that rejects the write, appending one entry leaves the
log empty: the date of the input is missing from it. -/
theorem appendWeights_fullStorage_loses_entry :
    store.appendWeights refHost fullStorage [{ date := "2024-03-01", weight := 70 }]
        = some fullStorage ∧
    (store.getWeightLog refHost fullStorage).1 = encodeLog [] ∧
    "2024-03-01" ∉ ([] : List WeightEntry).map WeightEntry.date := by
  refine ⟨?_, rfl, by simp⟩
  have h : (store.getWeightLog refHost fullStorage).1 = encodeLog [] := rfl
  have hv := store.appendWeightValue_of_log refHost fullStorage []
    { date := "2024-03-01", weight := 70 } h
  have hs : (store.getWeightLog refHost fullStorage).2 = fullStorage := rfl
  simp only [store.appendWeights, store.appendWeight, hv, hs, Option.map_some']
  unfold fullStorage
  rw [store.set_of_quota_zero refHost [] KEYS.WEIGHT_LOG _ (by decide)]


/-! ## Progress ratio -/

/-- C13. For all numbers `consumed` and `goal`, `progressRatio` returns `consumed / goal` when
`goal > 0` and 0 when `goal ≤ 0` (also for a `NaN` goal); the result is not clamped: it exceeds
1 exactly when `consumed > goal > 0`. -/
theorem progressRatio_spec (consumed goal : ℚ) :
    (0 < goal → utils.progressRatio (some consumed) (some goal) = some (consumed / goal)) ∧
    (goal ≤ 0 → utils.progressRatio (some consumed) (some goal) = some 0) ∧
    utils.progressRatio (some consumed) none = some 0 ∧
    (∀ r : ℚ, utils.progressRatio (some consumed) (some goal) = some r →
      (1 < r ↔ goal < consumed ∧ 0 < goal)) := by
  have hpos : 0 < goal →
      utils.progressRatio (some consumed) (some goal) = some (consumed / goal) := by
    intro h
    have h1 : ¬ (goal = 0 ∨ goal ≤ 0) := by
      rintro (h0 | h0)
      · exact absurd h0 (ne_of_gt h)
      · exact absurd h (not_lt.mpr h0)
    simp [utils.progressRatio, h1]
  have hneg : goal ≤ 0 → utils.progressRatio (some consumed) (some goal) = some 0 := by
    intro h
    simp [utils.progressRatio, h]
  refine ⟨hpos, hneg, rfl, ?_⟩
  intro r hr
  rcases lt_or_le 0 goal with h | h
  · rw [hpos h] at hr
    injection hr with hr
    subst hr
    rw [one_lt_div h]
    exact ⟨fun h1 => ⟨h1, h⟩, fun h1 => h1.1⟩
  · rw [hneg h] at hr
    injection hr with hr
    subst hr
    constructor
    · intro h1; exact absurd h1 (by norm_num)
    · intro h1; exact absurd h1.2 (not_lt.mpr h)

theorem progressRatio_spec_witness :
    (0 : ℚ) < 2000 ∧ utils.progressRatio (some 2500) (some 2000) = some (2500 / 2000) ∧
    ((-5 : ℚ) ≤ 0 ∧ utils.progressRatio (some 2500) (some (-5)) = some 0) ∧
    ((1 : ℚ) < 2500 / 2000 ↔ (2000 : ℚ) < 2500 ∧ (0 : ℚ) < 2000) :=
  ⟨by norm_num, (progressRatio_spec 2500 2000).1 (by norm_num),
   ⟨by norm_num, (progressRatio_spec 2500 (-5)).2.1 (by norm_num)⟩,
   (progressRatio_spec 2500 2000).2.2.2 (2500 / 2000)
     ((progressRatio_spec 2500 2000).1 (by norm_num))⟩

/-! ## Rejected writes -/

/-- C15. For every key and value, when the underlying `setItem` throws, `store.set(key,
value)` returns (it is a total function: nothing is propagated) and the storage is the same
as before the call. -/
theorem set_swallows_rejected_write (H : Host) (s : LocalStorage) (key : String) (value : Json)
    (h : s.setItem key (H.stringify value) = none) : store.set H s key value = s :=
  store.set_of_rejected H s key value h

theorem set_swallows_rejected_write_witness :
    fullStorage.setItem "ddt_theme" (refHost.stringify (Json.str "dark")) = none ∧
    store.set refHost fullStorage "ddt_theme" (Json.str "dark") = fullStorage :=
  ⟨LocalStorage.setItem_none_of_quota_zero [] "ddt_theme" _ (by decide),
   set_swallows_rejected_write refHost fullStorage "ddt_theme" (Json.str "dark")
     (LocalStorage.setItem_none_of_quota_zero [] "ddt_theme" _ (by decide))⟩

/-! ## Fallbacks for values off the tables -/

theorem lookup_multipliers_of_unknown (a : Option String) (h : specActivityFactor a = none) :
    List.lookup (propertyKey a) utils.multipliers = none := by
  cases a with
  | none => rfl
  | some s =>
    by_cases h1 : s = "sedentary"
    · subst h1; simp [specActivityFactor] at h
    by_cases h2 : s = "lightly_active"
    · subst h2; simp [specActivityFactor] at h
    by_cases h3 : s = "moderately_active"
    · subst h3; simp [specActivityFactor] at h
    by_cases h4 : s = "very_active"
    · subst h4; simp [specActivityFactor] at h
    have e1 : (s == "sedentary") = false := by simpa using h1
    have e2 : (s == "lightly_active") = false := by simpa using h2
    have e3 : (s == "moderately_active") = false := by simpa using h3
    have e4 : (s == "very_active") = false := by simpa using h4
    simp [propertyKey, utils.multipliers, List.lookup, e1, e2, e3, e4]

theorem lookup_adjustments_of_unknown (a : Option String) (h : specGoalAdjustment a = none) :
    List.lookup (propertyKey a) utils.adjustments = none := by
  cases a with
  | none => rfl
  | some s =>
    by_cases h1 : s = "lose_weight"
    · subst h1; simp [specGoalAdjustment] at h
    by_cases h2 : s = "maintain"
    · subst h2; simp [specGoalAdjustment] at h
    by_cases h3 : s = "gain_muscle"
    · subst h3; simp [specGoalAdjustment] at h
    have e1 : (s == "lose_weight") = false := by simpa using h1
    have e2 : (s == "maintain") = false := by simpa using h2
    have e3 : (s == "gain_muscle") = false := by simpa using h3
    simp [propertyKey, utils.adjustments, List.lookup, e1, e2, e3]

theorem activityMultiplier_of_unknown (p : Profile) (h : specActivityFactor p.activityLevel = none)
    (hp : propertyKey p.activityLevel ∉ objectPrototypeKeys) :
    utils.activityMultiplier p = some 1.2 := by
  simp only [utils.activityMultiplier, lookupIn, lookup_multipliers_of_unknown _ h, hp, if_false]

theorem goalAdjustment_of_unknown (p : Profile) (h : specGoalAdjustment p.goal = none)
    (hp : propertyKey p.goal ∉ objectPrototypeKeys) :
    utils.goalAdjustment p = some 0 := by
  simp only [utils.goalAdjustment, lookupIn, lookup_adjustments_of_unknown _ h, hp, if_false]

theorem activityMultiplier_sedentary (p : Profile) :
    utils.activityMultiplier { p with activityLevel := some "sedentary" } = some 1.2 := by
  simp [utils.activityMultiplier, lookupIn, propertyKey, utils.multipliers, List.lookup]

theorem goalAdjustment_maintain (p : Profile) :
    utils.goalAdjustment { p with goal := some "maintain" } = some 0 := by
  simp [utils.goalAdjustment, lookupIn, propertyKey, utils.adjustments, List.lookup]

/-- C16. `computeGoal` returns `NaN` (the model's `none`) for the example profile with
activity level "constructor", and for the one with goal "toString", while with 'sedentary'
it returns 1479; for every profile whose activity level is missing or off the table and does
not name a member of `Object.prototype` it returns what it returns for 'sedentary', and for
every profile whose goal is missing or off the table and does not name such a member it
returns what it returns for 'maintain'. -/
theorem computeGoal_fallbacks_or_nan :
    utils.computeGoal protoActivityProfile = none ∧
    utils.computeGoal protoGoalProfile = none ∧
    utils.computeGoal { exampleProfile with activityLevel := some "sedentary" } = some 1479 ∧
    (∀ p : Profile, specActivityFactor p.activityLevel = none →
      propertyKey p.activityLevel ∉ objectPrototypeKeys →
      utils.computeGoal p = utils.computeGoal { p with activityLevel := some "sedentary" }) ∧
    (∀ p : Profile, specGoalAdjustment p.goal = none →
      propertyKey p.goal ∉ objectPrototypeKeys →
      utils.computeGoal p = utils.computeGoal { p with goal := some "maintain" }) := by
  refine ⟨by decide, ?_, ?_, ?_, ?_⟩
  · have h : utils.goalAdjustment protoGoalProfile = none := by decide
    cases h2 : utils.activityMultiplier protoGoalProfile <;> simp [utils.computeGoal, h, h2]
  · exact computeGoal_exampleProfile_sedentary
  · intro p h hp
    have e1 := activityMultiplier_of_unknown p h hp
    have e2 := activityMultiplier_sedentary p
    have e3 : utils.goalAdjustment { p with activityLevel := some "sedentary" }
        = utils.goalAdjustment p := rfl
    have e4 : utils.bmr { p with activityLevel := some "sedentary" } = utils.bmr p := rfl
    simp only [utils.computeGoal, e1, e2, e3, e4]
  · intro p h hp
    have e1 := goalAdjustment_of_unknown p h hp
    have e2 := goalAdjustment_maintain p
    have e3 : utils.activityMultiplier { p with goal := some "maintain" }
        = utils.activityMultiplier p := rfl
    have e4 : utils.bmr { p with goal := some "maintain" } = utils.bmr p := rfl
    simp only [utils.computeGoal, e1, e2, e3, e4]

theorem computeGoal_fallbacks_or_nan_witness :
    specActivityFactor unknownKeysProfile.activityLevel = none ∧
    propertyKey unknownKeysProfile.activityLevel ∉ objectPrototypeKeys ∧
    utils.computeGoal unknownKeysProfile
      = utils.computeGoal { unknownKeysProfile with activityLevel := some "sedentary" } ∧
    specGoalAdjustment unknownKeysProfile.goal = none ∧
    propertyKey unknownKeysProfile.goal ∉ objectPrototypeKeys ∧
    utils.computeGoal unknownKeysProfile
      = utils.computeGoal { unknownKeysProfile with goal := some "maintain" } :=
  ⟨rfl, by decide, computeGoal_fallbacks_or_nan.2.2.2.1 unknownKeysProfile rfl (by decide),
   rfl, by decide, computeGoal_fallbacks_or_nan.2.2.2.2 unknownKeysProfile rfl (by decide)⟩

theorem dayTemplatesOf_of_unknown (pref : String) (h : pref ∉ objectPrototypeKeys)
    (h1 : pref ≠ "none") (h2 : pref ≠ "vegetarian") (h3 : pref ≠ "vegan") :
    utils.dayTemplatesOf pref = utils.dayTemplatesOf "none" := by
  have e1 : (pref == "none") = false := by simpa using h1
  have e2 : (pref == "vegetarian") = false := by simpa using h2
  have e3 : (pref == "vegan") = false := by simpa using h3
  have hl : List.lookup pref utils.templates = none := by
    simp [utils.templates, List.lookup, e1, e2, e3]
  simp only [utils.dayTemplatesOf, lookupIn, hl, h, if_false]
  rfl

/-- C17. `defaultMeals` throws (the model's `none`) for the example profile with dietary
preference "constructor" although it returns a plan for the same profile with preference
'none'; for every profile whose preference is missing, or is not one of none / vegetarian /
vegan and does not name a member of `Object.prototype`, it returns what it returns for the
same profile with preference 'none'. -/
theorem defaultMeals_unknown_preference :
    utils.defaultMeals tamperedProfile = none ∧
    (utils.defaultMeals { tamperedProfile with dietaryPreference := some "none" }).isSome
      = true ∧
    (∀ p : Profile, p.dietaryPreference = none →
      utils.defaultMeals p = utils.defaultMeals { p with dietaryPreference := some "none" }) ∧
    (∀ (p : Profile) (pref : String), p.dietaryPreference = some pref →
      pref ≠ "none" → pref ≠ "vegetarian" → pref ≠ "vegan" → pref ∉ objectPrototypeKeys →
      utils.defaultMeals p = utils.defaultMeals { p with dietaryPreference := some "none" }) := by
  refine ⟨by decide, by decide, ?_, ?_⟩
  · intro p h
    have e1 : utils.prefOf p = "none" := by simp [utils.prefOf, h]
    have e2 : utils.prefOf { p with dietaryPreference := some "none" } = "none" := by
      simp [utils.prefOf]
    have e3 : utils.computeGoal { p with dietaryPreference := some "none" }
        = utils.computeGoal p := rfl
    simp only [utils.defaultMeals, e1, e2, e3]
  · intro p pref h h1 h2 h3 hp
    have e2 : utils.prefOf { p with dietaryPreference := some "none" } = "none" := by
      simp [utils.prefOf]
    have e3 : utils.computeGoal { p with dietaryPreference := some "none" }
        = utils.computeGoal p := rfl
    by_cases he : pref = ""
    · have e1 : utils.prefOf p = "none" := by simp [utils.prefOf, h, he]
      simp only [utils.defaultMeals, e1, e2, e3]
    · have e1 : utils.prefOf p = pref := by simp [utils.prefOf, h, he]
      simp only [utils.defaultMeals, e1, e2, e3, dayTemplatesOf_of_unknown pref hp h1 h2 h3]

theorem defaultMeals_unknown_preference_witness :
    noPreferenceProfile.dietaryPreference = none ∧
    utils.defaultMeals noPreferenceProfile
      = utils.defaultMeals { noPreferenceProfile with dietaryPreference := some "none" } ∧
    utils.defaultMeals { exampleProfile with dietaryPreference := some "keto" }
      = utils.defaultMeals { exampleProfile with dietaryPreference := some "none" } :=
  ⟨rfl, defaultMeals_unknown_preference.2.2.1 noPreferenceProfile rfl,
   defaultMeals_unknown_preference.2.2.2 { exampleProfile with dietaryPreference := some "keto" }
     "keto" rfl (by decide) (by decide) (by decide) (by decide)⟩


/-! ## Ids of the default meals -/

theorem defaultIds_eq :
    defaultIds =
      [["default-0-breakfast", "default-0-lunch", "default-0-snack", "default-0-dinner"],
       ["default-1-breakfast", "default-1-lunch", "default-1-snack", "default-1-dinner"],
       ["default-2-breakfast", "default-2-lunch", "default-2-snack", "default-2-dinner"],
       ["default-3-breakfast", "default-3-lunch", "default-3-snack", "default-3-dinner"],
       ["default-4-breakfast", "default-4-lunch", "default-4-snack", "default-4-dinner"],
       ["default-5-breakfast", "default-5-lunch", "default-5-snack", "default-5-dinner"],
       ["default-6-breakfast", "default-6-lunch", "default-6-snack", "default-6-dinner"]] := by
  simp only [defaultIds, utils.types, String.toLower, String.map_eq]
  decide

theorem isDigit_digitChar (k : Nat) (h : k < 10) : (Nat.digitChar k).isDigit = true := by
  interval_cases k <;> rfl

theorem isDigit_of_mem_toDigitsCore (fuel n : Nat) (ds : List Char)
    (hds : ∀ c ∈ ds, c.isDigit = true) :
    ∀ c ∈ Nat.toDigitsCore 10 fuel n ds, c.isDigit = true := by
  induction fuel generalizing n ds with
  | zero => simpa [Nat.toDigitsCore] using hds
  | succ fuel ih =>
    have hd : ∀ c ∈ Nat.digitChar (n % 10) :: ds, c.isDigit = true := by
      intro c hc
      rcases List.mem_cons.mp hc with h | h
      · rw [h]; exact isDigit_digitChar _ (Nat.mod_lt _ (by norm_num))
      · exact hds c h
    by_cases h0 : n / 10 = 0
    · simpa [Nat.toDigitsCore, h0] using hd
    · simpa [Nat.toDigitsCore, h0] using ih _ _ hd

theorem isDigit_of_mem_repr (n : Nat) : ∀ c ∈ (Nat.repr n).data, c.isDigit = true := by
  have h := isDigit_of_mem_toDigitsCore (n + 1) n [] (fun c hc => absurd hc (List.not_mem_nil c))
  simpa [Nat.repr, Nat.toDigits, List.asString] using h

theorem dateNowString_chars (t : Int) :
    ∀ c ∈ (dateNowString t).data, c.isDigit = true ∨ c = '-' := by
  intro c hc
  cases t with
  | ofNat m => exact Or.inl (isDigit_of_mem_repr m c hc)
  | negSucc m =>
    simp only [dateNowString, String.data_append, List.mem_append] at hc
    rcases hc with h | h
    · right; simpa using h
    · exact Or.inl (isDigit_of_mem_repr _ c h)

theorem dayTemplatesOf_length_of_some (pref : String) (t : List (List (String × String)))
    (h : utils.dayTemplatesOf pref = some t) : t.length = 7 := by
  by_cases hp : pref ∈ objectPrototypeKeys
  · have hn : utils.dayTemplatesOf pref = none := by
      simp only [objectPrototypeKeys, List.mem_cons, List.mem_singleton, List.not_mem_nil,
        or_false] at hp
      rcases hp with h | h | h | h | h | h | h | h | h | h | h | h <;> (subst h; rfl)
    rw [hn] at h
    exact absurd h (by simp)
  · obtain ⟨t2, h2, hlen⟩ := dayTemplatesOf_length pref hp
    rw [h2] at h
    injection h with h
    exact h ▸ hlen

theorem defaultMeals_ids (p : Profile) (days : List (List Meal))
    (h : utils.defaultMeals p = some days) : days.map (fun day => day.map Meal.id) = defaultIds := by
  unfold utils.defaultMeals at h
  cases ht : utils.dayTemplatesOf (utils.prefOf p) with
  | none => rw [ht] at h; simp at h
  | some t =>
    have hlen := dayTemplatesOf_length_of_some _ t ht
    rw [ht] at h
    simp only [Option.map_some', Option.some.injEq] at h
    subst h
    simp only [List.map_map, hlen]
    have e : (List.zip t (List.range 7)).map Prod.snd = List.range 7 :=
      List.map_snd_zip _ _ (by simp [hlen])
    have e2 : defaultIds = ((List.zip t (List.range 7)).map Prod.snd).map (fun i =>
        utils.types.map fun ty => "default-" ++ Nat.repr i ++ "-" ++ ty.toLower) := by
      rw [e]; rfl
    rw [e2, List.map_map]
    apply List.map_congr_left
    intro dm _
    simp [utils.defaultMeal, Function.comp]

theorem defaultMeals_isSome (p : Profile) (h : utils.prefOf p ∉ objectPrototypeKeys) :
    (utils.defaultMeals p).isSome = true := by
  obtain ⟨t, ht, _⟩ := dayTemplatesOf_length (utils.prefOf p) h
  simp [utils.defaultMeals, ht]

/-- C18. For every profile, the default meals `defaultMeals` returns (it returns them
whenever the dietary preference does not name a member of `Object.prototype`) have, at day
index `i` and slot `t`, the id `default-<i>-<t lower-cased>`: the same 28 ids for every
profile and every regeneration, pairwise distinct, and none of them is the decimal numeral
`Date.now().toString()` of a clock reading, which is the id of a user-added meal. -/
theorem defaultMeals_ids_distinct (p : Profile) :
    (utils.prefOf p ∉ objectPrototypeKeys → (utils.defaultMeals p).isSome = true) ∧
    (∀ days : List (List Meal), utils.defaultMeals p = some days →
      days.map (fun day => day.map Meal.id) = defaultIds) ∧
    defaultIds.flatten.length = 28 ∧
    defaultIds.flatten.Nodup ∧
    ∀ t : Int, dateNowString t ∉ defaultIds.flatten := by
  refine ⟨defaultMeals_isSome p, defaultMeals_ids p, ?_, ?_, ?_⟩
  · rw [defaultIds_eq]; rfl
  · rw [defaultIds_eq]; decide
  · intro t ht
    have hd : ∀ x ∈ defaultIds.flatten, 'd' ∈ x.data := by
      rw [defaultIds_eq]; decide
    rcases dateNowString_chars t 'd' (hd _ ht) with h1 | h1
    · exact absurd h1 (by decide)
    · exact absurd h1 (by decide)

theorem defaultMeals_ids_distinct_witness :
    utils.prefOf exampleProfile ∉ objectPrototypeKeys ∧
    (utils.defaultMeals exampleProfile).isSome = true ∧
    (∀ days : List (List Meal), utils.defaultMeals exampleProfile = some days →
      days.map (fun day => day.map Meal.id) = defaultIds) ∧
    defaultIds.flatten.Nodup ∧ dateNowString 1730851200000 ∉ defaultIds.flatten :=
  ⟨by decide, (defaultMeals_ids_distinct exampleProfile).1 (by decide),
   (defaultMeals_ids_distinct exampleProfile).2.1,
   (defaultMeals_ids_distinct exampleProfile).2.2.2.1,
   (defaultMeals_ids_distinct exampleProfile).2.2.2.2 _⟩


/-! ## Distance between the double evaluation of the goal and the exact formula -/

theorem roundDouble_sedentary : roundDouble 1.2 = some (5404319552844595 / 4503599627370496) :=
  roundDouble_eval (1.2) 5404319552844595 (-52) (5404319552844595 / 4503599627370496) (by norm_num)

theorem roundDouble_lightly_active : roundDouble 1.375 = some (11 / 8) :=
  roundDouble_eval (1.375) 6192449487634432 (-52) (11 / 8) (by norm_num)

theorem roundDouble_moderately_active : roundDouble 1.55 = some
  (6980579422424269 / 4503599627370496) :=
  roundDouble_eval (1.55) 6980579422424269 (-52) (6980579422424269 / 4503599627370496) (by norm_num)

theorem roundDouble_very_active : roundDouble 1.725 = some (3884354678607053 / 2251799813685248) :=
  roundDouble_eval (1.725) 7768709357214106 (-52) (3884354678607053 / 2251799813685248)
    (by norm_num)

theorem roundDouble_lose_weight : roundDouble (-500) = some (-500) :=
  roundDouble_eval ((-500)) (-8796093022208000) (-44) (-500) (by norm_num)

theorem roundDouble_gain_muscle : roundDouble 300 = some 300 :=
  roundDouble_eval (300) 5277655813324800 (-44) 300 (by norm_num)

theorem specActivityFactor_values (a : Option String) (f : ℚ)
    (h : specActivityFactor a = some f) : f = 1.2 ∨ f = 1.375 ∨ f = 1.55 ∨ f = 1.725 := by
  unfold specActivityFactor at h
  split at h
  · exact Or.inl (Option.some.inj h).symm
  · exact Or.inr (Or.inl (Option.some.inj h).symm)
  · exact Or.inr (Or.inr (Or.inl (Option.some.inj h).symm))
  · exact Or.inr (Or.inr (Or.inr (Option.some.inj h).symm))
  · exact absurd h (by simp)

theorem specGoalAdjustment_values (a : Option String) (x : ℚ)
    (h : specGoalAdjustment a = some x) : x = -500 ∨ x = 0 ∨ x = 300 := by
  unfold specGoalAdjustment at h
  split at h
  · exact Or.inl (Option.some.inj h).symm
  · exact Or.inr (Or.inl (Option.some.inj h).symm)
  · exact Or.inr (Or.inr (Option.some.inj h).symm)
  · exact absurd h (by simp)

theorem activityMultiplier_values (p : Profile) (m : ℚ)
    (h : utils.activityMultiplier p = some m) :
    m = 1.2 ∨ m = 1.375 ∨ m = 1.55 ∨ m = 1.725 := by
  cases hs : specActivityFactor p.activityLevel with
  | some f =>
    rw [activityMultiplier_of_spec p f hs] at h
    injection h with h
    subst h
    exact specActivityFactor_values _ _ hs
  | none =>
    have hl := lookup_multipliers_of_unknown _ hs
    simp only [utils.activityMultiplier, lookupIn, hl] at h
    split at h
    · rename_i hk
      split at hk <;> simp at hk
    · exact absurd h (by simp)
    · exact Or.inl (Option.some.inj h).symm

theorem goalAdjustment_values (p : Profile) (x : ℚ) (h : utils.goalAdjustment p = some x) :
    x = -500 ∨ x = 0 ∨ x = 300 := by
  cases hs : specGoalAdjustment p.goal with
  | some f =>
    rw [goalAdjustment_of_spec p f hs] at h
    injection h with h
    subst h
    exact specGoalAdjustment_values _ _ hs
  | none =>
    have hl := lookup_adjustments_of_unknown _ hs
    simp only [utils.goalAdjustment, lookupIn, hl] at h
    split at h
    · rename_i hk
      split at hk <;> simp at hk
    · exact absurd h (by simp)
    · exact Or.inr (Or.inl (Option.some.inj h).symm)

theorem roundDouble_adjustment (x : ℚ) (h : x = -500 ∨ x = 0 ∨ x = 300) :
    roundDouble x = some x := by
  rcases h with rfl | rfl | rfl
  · exact roundDouble_lose_weight
  · exact roundDouble_zero
  · exact roundDouble_gain_muscle

theorem bmr_close (p : Profile) (hw : |p.weightKg| ≤ 1000000) (hh : |p.heightCm| ≤ 1000000)
    (ha : |p.age| ≤ 1000000) :
    ∃ b, utils.bmr p = some b ∧ b - specBmr p ≤ 28 / 67108864 ∧
      specBmr p - b ≤ 28 / 67108864 ∧ -21250200 ≤ b ∧ b ≤ 21250200 := by
  obtain ⟨hw1, hw2⟩ := abs_le.mp hw
  obtain ⟨hh1, hh2⟩ := abs_le.mp hh
  obtain ⟨ha1, ha2⟩ := abs_le.mp ha
  obtain ⟨w, ew, w1, w2⟩ := roundDouble_close p.weightKg (by linarith) (by linarith)
  obtain ⟨h, eh, g1, g2⟩ := roundDouble_close p.heightCm (by linarith) (by linarith)
  obtain ⟨a, ea, a1, a2⟩ := roundDouble_close p.age (by linarith) (by linarith)
  obtain ⟨x1, e1, b1, b2⟩ := roundDouble_close (10 * w) (by linarith) (by linarith)
  obtain ⟨x2, e2, c1, c2⟩ := roundDouble_close (6.25 * h) (by norm_num; linarith)
    (by norm_num; linarith)
  obtain ⟨x3, e3, d1, d2⟩ := roundDouble_close (x1 + x2) (by norm_num at c1 c2; linarith)
    (by norm_num at c1 c2; linarith)
  obtain ⟨x4, e4, f1, f2⟩ := roundDouble_close (5 * a) (by linarith) (by linarith)
  norm_num at c1 c2
  obtain ⟨x5, e5, k1, k2⟩ := roundDouble_close (x3 - x4) (by linarith) (by linarith)
  by_cases hs : p.sex = "male"
  · obtain ⟨x6, e6, l1, l2⟩ := roundDouble_close (x5 + 5) (by linarith) (by linarith)
    refine ⟨x6, bmr_of_steps_male p w h a x1 x2 x3 x4 x5 x6 hs ew eh ea e1 e2 e3 e4 e5 e6,
      ?_, ?_, by linarith, by linarith⟩
    · simp only [specBmr, hs, if_true]
      norm_num
      linarith
    · simp only [specBmr, hs, if_true]
      norm_num
      linarith
  · obtain ⟨x6, e6, l1, l2⟩ := roundDouble_close (x5 - 161) (by linarith) (by linarith)
    refine ⟨x6, bmr_of_steps_other p w h a x1 x2 x3 x4 x5 x6 hs ew eh ea e1 e2 e3 e4 e5 e6,
      ?_, ?_, by linarith, by linarith⟩
    · simp only [specBmr, hs, if_false]
      norm_num
      linarith
    · simp only [specBmr, hs, if_false]
      norm_num
      linarith

theorem maintenance_close (p : Profile) (m : ℚ) (hw : |p.weightKg| ≤ 1000000)
    (hh : |p.heightCm| ≤ 1000000) (ha : |p.age| ≤ 1000000)
    (hm : m = 1.2 ∨ m = 1.375 ∨ m = 1.55 ∨ m = 1.725) :
    ∃ x, mulDouble (utils.bmr p) (roundDouble m) = some x ∧
      x - specBmr p * m ≤ 50 / 67108864 ∧ specBmr p * m - x ≤ 50 / 67108864 ∧
      -40000000 ≤ x ∧ x ≤ 40000000 := by
  obtain ⟨b, hb, e1, e2, b1, b2⟩ := bmr_close p hw hh ha
  rcases hm with rfl | rfl | rfl | rfl
  · obtain ⟨x, hx, x1, x2⟩ := roundDouble_close (b * (5404319552844595 / 4503599627370496))
      (by linarith) (by linarith)
    refine ⟨x, by simp only [hb, roundDouble_sedentary, mulDouble, hx], ?_, ?_, by linarith,
      by linarith⟩
    · norm_num
      linarith
    · norm_num
      linarith
  · obtain ⟨x, hx, x1, x2⟩ := roundDouble_close (b * (11 / 8))
      (by linarith) (by linarith)
    refine ⟨x, by simp only [hb, roundDouble_lightly_active, mulDouble, hx], ?_, ?_, by linarith,
      by linarith⟩
    · norm_num
      linarith
    · norm_num
      linarith
  · obtain ⟨x, hx, x1, x2⟩ := roundDouble_close (b * (6980579422424269 / 4503599627370496))
      (by linarith) (by linarith)
    refine ⟨x, by simp only [hb, roundDouble_moderately_active, mulDouble, hx], ?_, ?_, by linarith,
      by linarith⟩
    · norm_num
      linarith
    · norm_num
      linarith
  · obtain ⟨x, hx, x1, x2⟩ := roundDouble_close (b * (3884354678607053 / 2251799813685248))
      (by linarith) (by linarith)
    refine ⟨x, by simp only [hb, roundDouble_very_active, mulDouble, hx], ?_, ?_, by linarith,
      by linarith⟩
    · norm_num
      linarith
    · norm_num
      linarith

theorem computeGoal_of_maintenance (p : Profile) (m adjustment x : ℚ)
    (hm : utils.activityMultiplier p = some m) (hadj : utils.goalAdjustment p = some adjustment)
    (hx : mulDouble (utils.bmr p) (roundDouble m) = some x)
    (had : roundDouble adjustment = some adjustment) :
    utils.computeGoal p = (roundDouble (x + adjustment)).map mathRound := by
  simp only [utils.computeGoal, hm, hadj, hx, had, addDouble]

theorem computeGoal_close (p : Profile) (m adjustment : ℚ) (hw : |p.weightKg| ≤ 1000000)
    (hh : |p.heightCm| ≤ 1000000) (ha : |p.age| ≤ 1000000)
    (hm : utils.activityMultiplier p = some m)
    (hadj : utils.goalAdjustment p = some adjustment) :
    ∃ g : Int, utils.computeGoal p = some g ∧
      (g : ℚ) - 1 / 2 - 1 / 1000000 ≤ specBmr p * m + adjustment ∧
      specBmr p * m + adjustment ≤ (g : ℚ) + 1 / 2 + 1 / 1000000 := by
  obtain ⟨x, hx, x1, x2, x3, x4⟩ :=
    maintenance_close p m hw hh ha (activityMultiplier_values p m hm)
  have hav := goalAdjustment_values p adjustment hadj
  have had := roundDouble_adjustment adjustment hav
  have hb : -500 ≤ adjustment ∧ adjustment ≤ 300 := by
    rcases hav with rfl | rfl | rfl <;> norm_num
  obtain ⟨y, hy, y1, y2⟩ := roundDouble_close (x + adjustment) (by linarith [hb.1])
    (by linarith [hb.2])
  obtain ⟨r1, r2⟩ := mathRound_spec y
  refine ⟨mathRound y, ?_, ?_, ?_⟩
  · rw [computeGoal_of_maintenance p m adjustment x hm hadj hx had, hy]
    rfl
  · linarith
  · linarith


/-! ## The shares of the goal in doubles -/

theorem roundDouble_breakfast : roundDouble 0.25 = some (1 / 4) :=
  roundDouble_eval (0.25) 4503599627370496 (-54) (1 / 4) (by norm_num)

theorem roundDouble_lunch : roundDouble 0.35 = some (3152519739159347 / 9007199254740992) :=
  roundDouble_eval (0.35) 6305039478318694 (-54) (3152519739159347 / 9007199254740992) (by norm_num)

theorem roundDouble_snack : roundDouble 0.10 = some (3602879701896397 / 36028797018963968) :=
  roundDouble_eval (0.10) 7205759403792794 (-56) (3602879701896397 / 36028797018963968)
    (by norm_num)

theorem roundDouble_dinner : roundDouble 0.30 = some (5404319552844595 / 18014398509481984) :=
  roundDouble_eval (0.30) 5404319552844595 (-54) (5404319552844595 / 18014398509481984)
    (by norm_num)

theorem mathRound_abs_le (x : ℚ) (h : abs x < 2 ^ (1024 : ℤ)) :
    abs ((mathRound x : Int) : ℚ) ≤ 2 ^ (1024 : ℤ) := by
  have hN : (((2 : Int) ^ 1024 : Int) : ℚ) = (2 : ℚ) ^ (1024 : ℤ) := by
    rw [Int.cast_pow]
    exact (zpow_ofNat (2 : ℚ) 1024).symm
  obtain ⟨h1, h2⟩ := abs_lt.mp h
  rw [← hN] at h1 h2 ⊢
  obtain ⟨r1, r2⟩ := mathRound_spec x
  have u1 : ((mathRound x : Int) : ℚ) < (((2 : Int) ^ 1024 + 1 : Int) : ℚ) := by
    push_cast
    push_cast at h2
    linarith
  have u2 : ((-(2 : Int) ^ 1024 - 1 : Int) : ℚ) < ((mathRound x : Int) : ℚ) := by
    push_cast
    push_cast at h1
    linarith
  have v1 : mathRound x < (2 : Int) ^ 1024 + 1 := by exact_mod_cast u1
  have v2 : -(2 : Int) ^ 1024 - 1 < mathRound x := by exact_mod_cast u2
  rw [abs_le]
  constructor
  · have : -((2 : Int) ^ 1024) ≤ mathRound x := by omega
    exact_mod_cast this
  · have : mathRound x ≤ (2 : Int) ^ 1024 := by omega
    exact_mod_cast this

theorem addDouble_abs_lt (a b : Option ℚ) (v : ℚ) (h : addDouble a b = some v) :
    abs v < 2 ^ (1024 : ℤ) := by
  cases a with
  | none => simp [addDouble] at h
  | some x =>
    cases b with
    | none => simp [addDouble] at h
    | some y => exact (roundDouble_value _ v h).2

theorem computeGoal_abs_le (p : Profile) (g : Int) (h : utils.computeGoal p = some g) :
    abs (g : ℚ) ≤ 2 ^ (1024 : ℤ) := by
  unfold utils.computeGoal at h
  split at h
  · rename_i m adjustment hm hadj
    cases hv : addDouble (mulDouble (utils.bmr p) (roundDouble m)) (roundDouble adjustment) with
    | none => rw [hv] at h; simp at h
    | some v =>
      rw [hv] at h
      simp only [Option.map_some', Option.some.injEq] at h
      rw [← h]
      exact mathRound_abs_le v (addDouble_abs_lt _ _ v hv)
  · exact absurd h (by simp)

theorem slot_close (g : Int) (f d : ℚ) (hd0 : 0 ≤ d) (hd1 : d ≤ 2 / 5)
    (hdf : abs (d - f) ≤ 2 ^ (-55 : ℤ)) (hg : abs (g : ℚ) ≤ 2 ^ (1024 : ℤ)) :
    ∃ v, roundDouble ((g : ℚ) * d) = some v ∧
      abs (v - (g : ℚ) * f) ≤ abs (g : ℚ) / 9007199254740992 := by
  by_cases h0 : g = 0
  · subst h0
    refine ⟨0, ?_, ?_⟩
    · simp only [Int.cast_zero, zero_mul]
      exact roundDouble_zero
    · simp
  · have hA : (1 : ℚ) ≤ abs (g : ℚ) := by
      have h1 : (1 : Int) ≤ abs g := Int.one_le_abs h0
      have h2 : ((1 : Int) : ℚ) ≤ ((abs g : Int) : ℚ) := by exact_mod_cast h1
      rw [Int.cast_abs] at h2
      simpa using h2
    have hU : (0 : ℚ) < 2 ^ (-53 : ℤ) := zpow_pos (by norm_num) _
    have h55 : (2 : ℚ) ^ (-55 : ℤ) = 2 ^ (-53 : ℤ) / 4 := by
      have : (2 : ℚ) ^ (-55 : ℤ) = 2 ^ (-53 : ℤ) * 2 ^ (-2 : ℤ) := by
        rw [← zpow_add₀ (by norm_num : (2 : ℚ) ≠ 0)]; norm_num
      rw [this]
      norm_num
    have hT : (2 : ℚ) ^ (-1075 : ℤ) ≤ 2 ^ (-53 : ℤ) / 4 := by
      rw [← h55]
      exact zpow_le_zpow_right₀ (by norm_num) (by norm_num)
    have h1024 : (2 : ℚ) ^ (1024 : ℤ) = 2 ^ (1023 : ℤ) * 2 := by
      have : (2 : ℚ) ^ (1024 : ℤ) = 2 ^ (1023 : ℤ) * 2 ^ (1 : ℤ) := by
        rw [← zpow_add₀ (by norm_num : (2 : ℚ) ≠ 0)]; norm_num
      rw [this]
      norm_num
    have hP : (0 : ℚ) < 2 ^ (1023 : ℤ) := zpow_pos (by norm_num) _
    have hq : abs ((g : ℚ) * d) = abs (g : ℚ) * d := by rw [abs_mul, abs_of_nonneg hd0]
    have hAd : abs (g : ℚ) * d ≤ abs (g : ℚ) * (2 / 5) :=
      mul_le_mul_of_nonneg_left hd1 (abs_nonneg _)
    have hsome : abs ((g : ℚ) * d) ≤ 2 ^ (1023 : ℤ) := by
      rw [hq]
      rw [h1024] at hg
      linarith
    obtain ⟨v, hv⟩ := roundDouble_isSome _ hsome
    have herr := roundDouble_error _ v hv
    rw [hq] at herr
    have hX : abs (g : ℚ) * d * 2 ^ (-53 : ℤ) ≤ abs (g : ℚ) * (2 / 5) * 2 ^ (-53 : ℤ) :=
      mul_le_mul_of_nonneg_right hAd (le_of_lt hU)
    have hY : abs ((g : ℚ) * d - (g : ℚ) * f) ≤ abs (g : ℚ) * (2 ^ (-53 : ℤ) / 4) := by
      rw [← mul_sub, abs_mul, ← h55]
      exact mul_le_mul_of_nonneg_left hdf (abs_nonneg _)
    have hZ : (2 : ℚ) ^ (-53 : ℤ) ≤ abs (g : ℚ) * 2 ^ (-53 : ℤ) :=
      le_mul_of_one_le_left (le_of_lt hU) hA
    have htri := abs_sub_le v ((g : ℚ) * d) ((g : ℚ) * f)
    have c53 : (2 : ℚ) ^ (-53 : ℤ) = 1 / 9007199254740992 := by norm_num
    refine ⟨v, hv, ?_⟩
    clear hg hsome h1024 hP h55 hdf hq hv
    generalize (2 : ℚ) ^ (-1075 : ℤ) = T at *
    generalize (2 : ℚ) ^ (-53 : ℤ) = U at *
    generalize abs (g : ℚ) = A at *
    generalize abs (v - (g : ℚ) * f) = e at *
    generalize abs (v - (g : ℚ) * d) = e1 at *
    generalize abs ((g : ℚ) * d - (g : ℚ) * f) = e2 at *
    subst c53
    have hAdU : A * d * (1 / 9007199254740992) = (A * d) / 9007199254740992 := by ring
    nlinarith


/-! ## The calories of the default meals -/

theorem defaultMeal_rows (goal : Option Int) (dm : List (String × String)) (i : Nat) :
    (utils.types.map fun type => utils.defaultMeal goal dm i type).map mealRow
      = specDayRows goal := by
  simp [utils.types, utils.defaultMeal, mealRow, specDayRows, utils.splits, List.lookup]

theorem defaultMeals_rows (p : Profile) (days : List (List Meal))
    (h : utils.defaultMeals p = some days) :
    days.length = 7 ∧ ∀ day ∈ days, day.map mealRow = specDayRows (utils.computeGoal p) := by
  unfold utils.defaultMeals at h
  cases ht : utils.dayTemplatesOf (utils.prefOf p) with
  | none => rw [ht] at h; simp at h
  | some t =>
    have hlen := dayTemplatesOf_length_of_some _ t ht
    rw [ht] at h
    simp only [Option.map_some', Option.some.injEq] at h
    subst h
    refine ⟨by simp [hlen], ?_⟩
    intro day hday
    simp only [List.mem_map] at hday
    obtain ⟨dm, _, rfl⟩ := hday
    exact defaultMeal_rows _ _ _

theorem defaultMeals_day_of_shares (p : Profile) (g : Int) (days : List (List Meal))
    (v1 v2 v3 v4 : ℚ) (hg : utils.computeGoal p = some g)
    (h : utils.defaultMeals p = some days)
    (e1 : roundDouble ((g : ℚ) * (1 / 4)) = some v1)
    (e2 : roundDouble ((g : ℚ) * (3152519739159347 / 9007199254740992)) = some v2)
    (e3 : roundDouble ((g : ℚ) * (3602879701896397 / 36028797018963968)) = some v3)
    (e4 : roundDouble ((g : ℚ) * (5404319552844595 / 18014398509481984)) = some v4) :
    ∀ day ∈ days, day.map Meal.calories
      = [some (mathRound v1), some (mathRound v2), some (mathRound v3), some (mathRound v4)] := by
  obtain ⟨_, hrows⟩ := defaultMeals_rows p days h
  intro day hday
  have h1 := congrArg (List.map (fun r : String × Option Int × Bool × String => r.2.1))
    (hrows day hday)
  have e : List.map ((fun r : String × Option Int × Bool × String => r.2.1) ∘ mealRow) day
      = day.map Meal.calories := rfl
  simp only [List.map_map, specDayRows, List.map_cons, List.map_nil, hg, Option.map_some',
    roundDouble_breakfast, roundDouble_lunch, roundDouble_snack, roundDouble_dinner, mulDouble,
    e1, e2, e3, e4] at h1
  rw [e] at h1
  exact h1

theorem defaultMeals_day_shares (p : Profile) (g : Int) (days : List (List Meal))
    (hg : utils.computeGoal p = some g) (h : utils.defaultMeals p = some days) :
    ∃ v1 v2 v3 v4 : ℚ,
      roundDouble ((g : ℚ) * (1 / 4)) = some v1 ∧
      roundDouble ((g : ℚ) * (3152519739159347 / 9007199254740992)) = some v2 ∧
      roundDouble ((g : ℚ) * (3602879701896397 / 36028797018963968)) = some v3 ∧
      roundDouble ((g : ℚ) * (5404319552844595 / 18014398509481984)) = some v4 ∧
      (∀ day ∈ days, day.map Meal.calories
        = [some (mathRound v1), some (mathRound v2), some (mathRound v3),
           some (mathRound v4)]) ∧
      abs (v1 - (g : ℚ) * (1 / 4)) ≤ abs (g : ℚ) / 9007199254740992 ∧
      abs (v2 - (g : ℚ) * (7 / 20)) ≤ abs (g : ℚ) / 9007199254740992 ∧
      abs (v3 - (g : ℚ) * (1 / 10)) ≤ abs (g : ℚ) / 9007199254740992 ∧
      abs (v4 - (g : ℚ) * (3 / 10)) ≤ abs (g : ℚ) / 9007199254740992 := by
  have hb := computeGoal_abs_le p g hg
  obtain ⟨v1, e1, b1⟩ := slot_close g (1 / 4) (1 / 4) (by norm_num) (by norm_num)
    (by rw [abs_le]; constructor <;> norm_num) hb
  obtain ⟨v2, e2, b2⟩ := slot_close g (7 / 20) (3152519739159347 / 9007199254740992) (by norm_num)
    (by norm_num) (by rw [abs_le]; constructor <;> norm_num) hb
  obtain ⟨v3, e3, b3⟩ := slot_close g (1 / 10) (3602879701896397 / 36028797018963968) (by norm_num)
    (by norm_num) (by rw [abs_le]; constructor <;> norm_num) hb
  obtain ⟨v4, e4, b4⟩ := slot_close g (3 / 10) (5404319552844595 / 18014398509481984) (by norm_num)
    (by norm_num) (by rw [abs_le]; constructor <;> norm_num) hb
  exact ⟨v1, v2, v3, v4, e1, e2, e3, e4,
    defaultMeals_day_of_shares p g days v1 v2 v3 v4 hg h e1 e2 e3 e4, b1, b2, b3, b4⟩

theorem mathRound_ge_one_iff (x : ℚ) : 1 ≤ mathRound x ↔ 1 / 2 ≤ x := by
  unfold mathRound
  rw [Int.le_floor]
  constructor <;> intro h <;> push_cast at * <;> linarith

theorem mathRound_le_iff (x : ℚ) : mathRound x ≤ 9999 ↔ x < 19999 / 2 := by
  unfold mathRound
  rw [← Int.lt_add_one_iff, Int.floor_lt]
  constructor <;> intro h <;> push_cast at * <;> linarith

theorem forall_calories_iff (days : List (List Meal)) (c1 c2 c3 c4 : Int) (P : Int → Prop)
    (hne : days ≠ [])
    (hcal : ∀ day ∈ days, day.map Meal.calories = [some c1, some c2, some c3, some c4]) :
    (∀ day ∈ days, ∀ m ∈ day, ∃ c : Int, m.calories = some c ∧ P c)
      ↔ P c1 ∧ P c2 ∧ P c3 ∧ P c4 := by
  constructor
  · intro hall
    cases days with
    | nil => exact absurd rfl hne
    | cons day rest =>
      have hd := hcal day (List.mem_cons_self _ _)
      have key : ∀ c : Int, some c ∈ [some c1, some c2, some c3, some c4] → P c := by
        intro c hc
        rw [← hd] at hc
        obtain ⟨m, hm, hmc⟩ := List.mem_map.mp hc
        obtain ⟨c2, hc2, hb⟩ := hall day (List.mem_cons_self _ _) m hm
        rw [hmc] at hc2
        injection hc2 with hc2
        exact hc2 ▸ hb
      exact ⟨key c1 (by simp), key c2 (by simp), key c3 (by simp), key c4 (by simp)⟩
  · rintro ⟨p1, p2, p3, p4⟩ day hday m hm
    have hmem : m.calories ∈ day.map Meal.calories := List.mem_map_of_mem _ hm
    rw [hcal day hday] at hmem
    simp only [List.mem_cons, List.mem_singleton, List.not_mem_nil, or_false] at hmem
    rcases hmem with h1 | h1 | h1 | h1
    · exact ⟨_, h1, p1⟩
    · exact ⟨_, h1, p2⟩
    · exact ⟨_, h1, p3⟩
    · exact ⟨_, h1, p4⟩

theorem roundDouble_snack_of_five :
    roundDouble (((5 : ℤ) : ℚ) * (3602879701896397 / 36028797018963968)) = some (1 / 2) :=
  roundDouble_eval (((5 : ℤ) : ℚ) * (3602879701896397 / 36028797018963968)) 4503599627370496 (-53)
    (1 / 2) (by norm_num)

theorem roundDouble_lunch_of_28570 :
    roundDouble (((28570 : ℤ) : ℚ) * (3152519739159347 / 9007199254740992)) = some (19999 / 2) :=
  roundDouble_eval (((28570 : ℤ) : ℚ) * (3152519739159347 / 9007199254740992)) 5497283260973056
    (-39) (19999 / 2) (by norm_num)

theorem shares_in_range_iff (g : Int) (v1 v2 v3 v4 : ℚ)
    (e2 : roundDouble ((g : ℚ) * (3152519739159347 / 9007199254740992)) = some v2)
    (e3 : roundDouble ((g : ℚ) * (3602879701896397 / 36028797018963968)) = some v3)
    (b1 : abs (v1 - (g : ℚ) * (1 / 4)) ≤ abs (g : ℚ) / 9007199254740992)
    (b2 : abs (v2 - (g : ℚ) * (7 / 20)) ≤ abs (g : ℚ) / 9007199254740992)
    (b3 : abs (v3 - (g : ℚ) * (1 / 10)) ≤ abs (g : ℚ) / 9007199254740992)
    (b4 : abs (v4 - (g : ℚ) * (3 / 10)) ≤ abs (g : ℚ) / 9007199254740992) :
    ((1 ≤ mathRound v1 ∧ mathRound v1 ≤ 9999) ∧ (1 ≤ mathRound v2 ∧ mathRound v2 ≤ 9999) ∧
      (1 ≤ mathRound v3 ∧ mathRound v3 ≤ 9999) ∧ (1 ≤ mathRound v4 ∧ mathRound v4 ≤ 9999))
      ↔ 5 ≤ g ∧ g ≤ 28569 := by
  simp only [mathRound_ge_one_iff, mathRound_le_iff]
  obtain ⟨l1, u1⟩ := abs_le.mp b1
  obtain ⟨l2, u2⟩ := abs_le.mp b2
  obtain ⟨l3, u3⟩ := abs_le.mp b3
  obtain ⟨l4, u4⟩ := abs_le.mp b4
  constructor
  · rintro ⟨_, ⟨_, h2⟩, ⟨h3, _⟩, _⟩
    constructor
    · by_contra hc
      have hg4 : g ≤ 4 := by omega
      have hq : (g : ℚ) ≤ 4 := by exact_mod_cast hg4
      rcases le_or_lt 0 (g : ℚ) with h0 | h0
      · rw [abs_of_nonneg h0] at u3
        linarith
      · rw [abs_of_neg h0] at u3
        linarith
    · by_contra hc
      have hg5 : 28570 ≤ g := by omega
      rcases eq_or_lt_of_le hg5 with h6 | h6
      · subst h6
        rw [roundDouble_lunch_of_28570] at e2
        injection e2 with e2
        rw [← e2] at h2
        norm_num at h2
      · have hg7 : 28571 ≤ g := by omega
        have hq : (28571 : ℚ) ≤ (g : ℚ) := by exact_mod_cast hg7
        rw [abs_of_nonneg (by linarith)] at l2
        linarith
  · rintro ⟨h5, h6⟩
    have q5 : (5 : ℚ) ≤ (g : ℚ) := by exact_mod_cast h5
    have q6 : (g : ℚ) ≤ 28569 := by exact_mod_cast h6
    have hpos : (0 : ℚ) ≤ (g : ℚ) := by linarith
    rw [abs_of_nonneg hpos] at l1 u1 l2 u2 l3 u3 l4 u4
    have h3 : 1 / 2 ≤ v3 := by
      rcases eq_or_lt_of_le h5 with h7 | h7
      · subst h7
        rw [roundDouble_snack_of_five] at e3
        injection e3 with e3
        rw [← e3]
      · have hg6 : 6 ≤ g := by omega
        have hq : (6 : ℚ) ≤ (g : ℚ) := by exact_mod_cast hg6
        linarith
    refine ⟨⟨?_, ?_⟩, ⟨?_, ?_⟩, ⟨h3, ?_⟩, ?_, ?_⟩ <;> linarith

theorem shares_sum_near (g : Int) (v1 v2 v3 v4 : ℚ) (hb : abs (g : ℚ) ≤ 1000000000000)
    (b1 : abs (v1 - (g : ℚ) * (1 / 4)) ≤ abs (g : ℚ) / 9007199254740992)
    (b2 : abs (v2 - (g : ℚ) * (7 / 20)) ≤ abs (g : ℚ) / 9007199254740992)
    (b3 : abs (v3 - (g : ℚ) * (1 / 10)) ≤ abs (g : ℚ) / 9007199254740992)
    (b4 : abs (v4 - (g : ℚ) * (3 / 10)) ≤ abs (g : ℚ) / 9007199254740992) :
    g - 1 ≤ mathRound v1 + mathRound v2 + mathRound v3 + mathRound v4 ∧
      mathRound v1 + mathRound v2 + mathRound v3 + mathRound v4 ≤ g + 1 := by
  have hB : abs (g : ℚ) / 9007199254740992 ≤ 1 / 9007 := by
    rw [div_le_iff₀ (by norm_num)]
    linarith
  obtain ⟨l1, u1⟩ := abs_le.mp (le_trans b1 hB)
  obtain ⟨l2, u2⟩ := abs_le.mp (le_trans b2 hB)
  obtain ⟨l3, u3⟩ := abs_le.mp (le_trans b3 hB)
  obtain ⟨l4, u4⟩ := abs_le.mp (le_trans b4 hB)
  obtain ⟨r1, s1⟩ := mathRound_spec v1
  obtain ⟨r2, s2⟩ := mathRound_spec v2
  obtain ⟨r3, s3⟩ := mathRound_spec v3
  obtain ⟨r4, s4⟩ := mathRound_spec v4
  generalize mathRound v1 = c1 at *
  generalize mathRound v2 = c2 at *
  generalize mathRound v3 = c3 at *
  generalize mathRound v4 = c4 at *
  have a1 : ((4 * c1 - g : Int) : ℚ) < ((3 : Int) : ℚ) := by push_cast; linarith
  have a2 : ((-3 : Int) : ℚ) < ((4 * c1 - g : Int) : ℚ) := by push_cast; linarith
  have a3 : ((20 * c2 - 7 * g : Int) : ℚ) < ((11 : Int) : ℚ) := by push_cast; linarith
  have a4 : ((-11 : Int) : ℚ) < ((20 * c2 - 7 * g : Int) : ℚ) := by push_cast; linarith
  have a5 : ((10 * c3 - g : Int) : ℚ) < ((6 : Int) : ℚ) := by push_cast; linarith
  have a6 : ((-6 : Int) : ℚ) < ((10 * c3 - g : Int) : ℚ) := by push_cast; linarith
  have a7 : ((10 * c4 - 3 * g : Int) : ℚ) < ((6 : Int) : ℚ) := by push_cast; linarith
  have a8 : ((-6 : Int) : ℚ) < ((10 * c4 - 3 * g : Int) : ℚ) := by push_cast; linarith
  have i1 : 4 * c1 - g < 3 := by exact_mod_cast a1
  have i2 : -3 < 4 * c1 - g := by exact_mod_cast a2
  have i3 : 20 * c2 - 7 * g < 11 := by exact_mod_cast a3
  have i4 : -11 < 20 * c2 - 7 * g := by exact_mod_cast a4
  have i5 : 10 * c3 - g < 6 := by exact_mod_cast a5
  have i6 : -6 < 10 * c3 - g := by exact_mod_cast a6
  have i7 : 10 * c4 - 3 * g < 6 := by exact_mod_cast a7
  have i8 : -6 < 10 * c4 - 3 * g := by exact_mod_cast a8
  constructor
  · by_contra hc
    have hS : c1 + c2 + c3 + c4 ≤ g - 2 := by omega
    have e1 : 4 * c1 - g = -2 := by omega
    have e3 : 10 * c3 - g = -5 := by omega
    omega
  · by_contra hc
    have hS : g + 2 ≤ c1 + c2 + c3 + c4 := by omega
    have e1 : 4 * c1 - g = 2 := by omega
    have e3 : 10 * c3 - g = 5 := by omega
    omega


/-! ## The default days of sample profiles -/

theorem defaultMeals_calories_exampleProfile (days : List (List Meal))
    (h : utils.defaultMeals exampleProfile = some days) :
    ∀ day ∈ days, day.map Meal.calories = [some 514, some 720, some 206, some 617] := by
  have e1 : roundDouble (((2056 : ℤ) : ℚ) * (1 / 4)) = some 514 :=
    roundDouble_eval (((2056 : ℤ) : ℚ) * (1 / 4)) 4521191813414912 (-43) 514 (by norm_num)
  have e2 : roundDouble (((2056 : ℤ) : ℚ) * (3152519739159347 / 9007199254740992)) = some
    (1582417134695219 / 2199023255552) :=
    roundDouble_eval (((2056 : ℤ) : ℚ) * (3152519739159347 / 9007199254740992)) 6329668538780876
      (-43) (1582417134695219 / 2199023255552) (by norm_num)
  have e3 : roundDouble (((2056 : ℤ) : ℚ) * (3602879701896397 / 36028797018963968)) = some
    (1808476725365965 / 8796093022208) :=
    roundDouble_eval (((2056 : ℤ) : ℚ) * (3602879701896397 / 36028797018963968)) 7233906901463860
      (-45) (1808476725365965 / 8796093022208) (by norm_num)
  have e4 : roundDouble (((2056 : ℤ) : ℚ) * (5404319552844595 / 18014398509481984)) = some
    (2712715088048947 / 4398046511104) :=
    roundDouble_eval (((2056 : ℤ) : ℚ) * (5404319552844595 / 18014398509481984)) 5425430176097894
      (-43) (2712715088048947 / 4398046511104) (by norm_num)
  intro day hday
  rw [defaultMeals_day_of_shares exampleProfile 2056 days 514 (1582417134695219 / 2199023255552)
    (1808476725365965 / 8796093022208) (2712715088048947 / 4398046511104) computeGoal_exampleProfile
      h e1 e2 e3 e4 day hday]
  simp only [mathRound]
  norm_num

theorem defaultMeals_calories_of_frailProfile (days : List (List Meal))
    (h : utils.defaultMeals frailProfile = some days) :
    ∀ day ∈ days, day.map Meal.calories = [some (-1), some (-1), some 0, some (-1)] := by
  have e1 : roundDouble (((-3 : ℤ) : ℚ) * (1 / 4)) = some (-3 / 4) :=
    roundDouble_eval (((-3 : ℤ) : ℚ) * (1 / 4)) (-6755399441055744) (-53) (-3 / 4) (by norm_num)
  have e2 : roundDouble (((-3 : ℤ) : ℚ) * (3152519739159347 / 9007199254740992)) = some
    (-1182194902184755 / 1125899906842624) :=
    roundDouble_eval_tie (((-3 : ℤ) : ℚ) * (3152519739159347 / 9007199254740992))
      (-4728779608739020) (-52) (-1182194902184755 / 1125899906842624) (by norm_num)
  have e3 : roundDouble (((-3 : ℤ) : ℚ) * (3602879701896397 / 36028797018963968)) = some
    (-1351079888211149 / 4503599627370496) :=
    roundDouble_eval_tie (((-3 : ℤ) : ℚ) * (3602879701896397 / 36028797018963968))
      (-5404319552844596) (-54) (-1351079888211149 / 4503599627370496) (by norm_num)
  have e4 : roundDouble (((-3 : ℤ) : ℚ) * (5404319552844595 / 18014398509481984)) = some
    (-2026619832316723 / 2251799813685248) :=
    roundDouble_eval_tie (((-3 : ℤ) : ℚ) * (5404319552844595 / 18014398509481984))
      (-8106479329266892) (-53) (-2026619832316723 / 2251799813685248) (by norm_num)
  intro day hday
  rw [defaultMeals_day_of_shares frailProfile (-3) days (-3 / 4)
    (-1182194902184755 / 1125899906842624)
    (-1351079888211149 / 4503599627370496) (-2026619832316723 / 2251799813685248)
      computeGoal_frailProfile h e1 e2 e3 e4 day hday]
  simp only [mathRound]
  norm_num

theorem defaultMeals_calories_athleteProfile (days : List (List Meal))
    (h : utils.defaultMeals athleteProfile = some days) :
    ∀ day ∈ days, day.map Meal.calories = [some 653, some 913, some 261, some 783] := by
  have e1 : roundDouble (((2610 : ℤ) : ℚ) * (1 / 4)) = some (1305 / 2) :=
    roundDouble_eval (((2610 : ℤ) : ℚ) * (1 / 4)) 5739450696990720 (-43) (1305 / 2) (by norm_num)
  have e2 : roundDouble (((2610 : ℤ) : ℚ) * (3152519739159347 / 9007199254740992)) = some
    (8035230975787007 / 8796093022208) :=
    roundDouble_eval (((2610 : ℤ) : ℚ) * (3152519739159347 / 9007199254740992)) 8035230975787007
      (-43) (8035230975787007 / 8796093022208) (by norm_num)
  have e3 : roundDouble (((2610 : ℤ) : ℚ) * (3602879701896397 / 36028797018963968)) = some 261 :=
    roundDouble_eval (((2610 : ℤ) : ℚ) * (3602879701896397 / 36028797018963968)) 4591560557592576
      (-44) 261 (by norm_num)
  have e4 : roundDouble (((2610 : ℤ) : ℚ) * (5404319552844595 / 18014398509481984)) = some 783 :=
    roundDouble_eval (((2610 : ℤ) : ℚ) * (5404319552844595 / 18014398509481984)) 6887340836388864
      (-43) 783 (by norm_num)
  intro day hday
  rw [defaultMeals_day_of_shares athleteProfile 2610 days (1305 / 2)
    (8035230975787007 / 8796093022208)
    261 783 computeGoal_athleteProfile h e1 e2 e3 e4 day hday]
  simp only [mathRound]
  norm_num

theorem defaultMeals_calories_heavyProfile (days : List (List Meal))
    (h : utils.defaultMeals heavyProfile = some days) :
    ∀ day ∈ days, day.map Meal.calories = [some 7740561859543261, some 10836786603360564, some
      3096224743817305, some 9288674231451912] := by
  have e1 : roundDouble (((30962247438173044 : ℤ) : ℚ) * (1 / 4)) = some 7740561859543261 :=
    roundDouble_eval (((30962247438173044 : ℤ) : ℚ) * (1 / 4)) 7740561859543261 0 7740561859543261
      (by norm_num)
  have e2 : roundDouble (((30962247438173044 : ℤ) : ℚ) * (3152519739159347 / 9007199254740992)) =
    some 10836786603360564 :=
    roundDouble_eval (((30962247438173044 : ℤ) : ℚ) * (3152519739159347 / 9007199254740992))
      5418393301680282 1 10836786603360564 (by norm_num)
  have e3 : roundDouble (((30962247438173044 : ℤ) : ℚ) * (3602879701896397 / 36028797018963968)) =
    some (6192449487634609 / 2) :=
    roundDouble_eval (((30962247438173044 : ℤ) : ℚ) * (3602879701896397 / 36028797018963968))
      6192449487634609 (-1) (6192449487634609 / 2) (by norm_num)
  have e4 : roundDouble (((30962247438173044 : ℤ) : ℚ) * (5404319552844595 / 18014398509481984)) =
    some 9288674231451912 :=
    roundDouble_eval (((30962247438173044 : ℤ) : ℚ) * (5404319552844595 / 18014398509481984))
      4644337115725956 1 9288674231451912 (by norm_num)
  intro day hday
  rw [defaultMeals_day_of_shares heavyProfile 30962247438173044 days 7740561859543261
    10836786603360564
    (6192449487634609 / 2) 9288674231451912 computeGoal_heavyProfile h e1 e2 e3 e4 day hday]
  simp only [mathRound]
  norm_num

/-! ## Adjustments of the goal -/

theorem goalAdjustment_lose_weight (p : Profile) :
    utils.goalAdjustment { p with goal := some "lose_weight" } = some (-500) := by
  simp [utils.goalAdjustment, lookupIn, propertyKey, utils.adjustments, List.lookup]

theorem goalAdjustment_gain_muscle (p : Profile) :
    utils.goalAdjustment { p with goal := some "gain_muscle" } = some 300 := by
  simp [utils.goalAdjustment, lookupIn, propertyKey, utils.adjustments, List.lookup]


/-! ## The calorie goal and the exact formula -/

/-- C1, as amended. For every profile whose activity level and goal are table keys and whose
weight, height and age are at most 1 000 000 in absolute value, `computeGoal` returns an
integer `g`: the round-half-up of the double that JavaScript's arithmetic gives the formula
`BMR × activityFactor + goalAdjustment`. It lies within `1/2 + 1/1000000` of the exact value
of the formula. The profile of the worked example gives 2056. -/
theorem computeGoal_mifflin_st_jeor :
    (∀ (p : Profile) (f a : ℚ), specActivityFactor p.activityLevel = some f →
      specGoalAdjustment p.goal = some a →
      |p.weightKg| ≤ 1000000 → |p.heightCm| ≤ 1000000 → |p.age| ≤ 1000000 →
      ∃ g : Int, utils.computeGoal p = some g ∧
        (g : ℚ) - 1 / 2 - 1 / 1000000 ≤ specBmr p * f + a ∧
        specBmr p * f + a ≤ (g : ℚ) + 1 / 2 + 1 / 1000000) ∧
    utils.computeGoal exampleProfile = some 2056 :=
  ⟨fun p f a hf ha hw hh hage =>
    computeGoal_close p f a hw hh hage (activityMultiplier_of_spec p f hf)
      (goalAdjustment_of_spec p a ha),
   computeGoal_exampleProfile⟩

theorem computeGoal_mifflin_st_jeor_witness :
    specActivityFactor exampleProfile.activityLevel = some 1.55 ∧
    specGoalAdjustment exampleProfile.goal = some (-500) ∧
    |exampleProfile.weightKg| ≤ 1000000 ∧ |exampleProfile.heightCm| ≤ 1000000 ∧
    |exampleProfile.age| ≤ 1000000 ∧
    ∃ g : Int, utils.computeGoal exampleProfile = some g ∧
      (g : ℚ) - 1 / 2 - 1 / 1000000 ≤ specBmr exampleProfile * 1.55 + (-500) ∧
      specBmr exampleProfile * 1.55 + (-500) ≤ (g : ℚ) + 1 / 2 + 1 / 1000000 :=
  ⟨rfl, rfl, by norm_num [exampleProfile], by norm_num [exampleProfile],
    by norm_num [exampleProfile],
    computeGoal_mifflin_st_jeor.1 exampleProfile 1.55 (-500) rfl rfl
      (by norm_num [exampleProfile]) (by norm_num [exampleProfile])
      (by norm_num [exampleProfile])⟩

/-- C1, counterexample. For the profile female, 15 years, 20.1 kg, 128.2 cm, sedentary,
maintain, which onboarding accepts, the exact value of the formula is 919.5, whose
round-half-up is 920, and `computeGoal` returns 919. When the weight and the height are
taken to be the doubles that the numerals 20.1 and 128.2 denote and the goal is gain_muscle,
the round-half-up of the exact value of the formula is 1219 and `computeGoal` returns
1220. -/
theorem computeGoal_mifflin_st_jeor_lightProfile :
    specActivityFactor lightProfile.activityLevel = some 1.2 ∧
    specGoalAdjustment lightProfile.goal = some 0 ∧
    specBmr lightProfile * 1.2 + 0 = 919.5 ∧
    mathRound (specBmr lightProfile * 1.2 + 0) = 920 ∧
    utils.computeGoal lightProfile = some 919 ∧
    specActivityFactor lightDoubleProfile.activityLevel = some 1.2 ∧
    specGoalAdjustment lightDoubleProfile.goal = some 300 ∧
    mathRound (specBmr lightDoubleProfile * 1.2 + 300) = 1219 ∧
    utils.computeGoal lightDoubleProfile = some 1220 := by
  have hb : specBmr lightProfile = 766.25 := by
    simp only [specBmr, lightProfile]
    rw [if_neg (by decide)]
    norm_num
  have hb2 : specBmr lightDoubleProfile
      = 10 * (2828823515942093 / 140737488355328)
        + 6.25 * (2255318250894131 / 17592186044416) - 5 * 15 - 161 := by
    simp only [specBmr, lightDoubleProfile]
    rw [if_neg (by decide)]
  refine ⟨rfl, rfl, ?_, ?_, computeGoal_lightProfile_maintain, rfl, rfl, ?_,
    computeGoal_lightDoubleProfile⟩
  · rw [hb]; norm_num
  · rw [hb]; simp only [mathRound]; norm_num
  · rw [hb2]; simp only [mathRound]; norm_num

/-- C29, as amended. For every profile `p` whose weight, height and age are at most
1 000 000 in absolute value: when `computeGoal` of `p` with goal maintain is a number `g`,
`computeGoal` of `p` with goal lose_weight is a number between `g - 501` and `g - 499` and
with goal gain_muscle a number between `g + 299` and `g + 301`; when it is `NaN`, the other
two are `NaN` as well. -/
theorem computeGoal_adjustment_commutes (p : Profile) (hw : |p.weightKg| ≤ 1000000)
    (hh : |p.heightCm| ≤ 1000000) (ha : |p.age| ≤ 1000000) :
    (∀ g : Int, utils.computeGoal { p with goal := some "maintain" } = some g →
      ∃ gl gg : Int, utils.computeGoal { p with goal := some "lose_weight" } = some gl ∧
        utils.computeGoal { p with goal := some "gain_muscle" } = some gg ∧
        g - 501 ≤ gl ∧ gl ≤ g - 499 ∧ g + 299 ≤ gg ∧ gg ≤ g + 301) ∧
    (utils.computeGoal { p with goal := some "maintain" } = none →
      utils.computeGoal { p with goal := some "lose_weight" } = none ∧
      utils.computeGoal { p with goal := some "gain_muscle" } = none) := by
  have a1 : utils.activityMultiplier { p with goal := some "lose_weight" }
      = utils.activityMultiplier p := rfl
  have a2 : utils.activityMultiplier { p with goal := some "maintain" }
      = utils.activityMultiplier p := rfl
  have a3 : utils.activityMultiplier { p with goal := some "gain_muscle" }
      = utils.activityMultiplier p := rfl
  have b1 : utils.bmr { p with goal := some "lose_weight" } = utils.bmr p := rfl
  have b2 : utils.bmr { p with goal := some "maintain" } = utils.bmr p := rfl
  have b3 : utils.bmr { p with goal := some "gain_muscle" } = utils.bmr p := rfl
  cases hm : utils.activityMultiplier p with
  | none =>
    have n1 : utils.computeGoal { p with goal := some "lose_weight" } = none := by
      simp only [utils.computeGoal, a1, hm]
    have n2 : utils.computeGoal { p with goal := some "maintain" } = none := by
      simp only [utils.computeGoal, a2, hm]
    have n3 : utils.computeGoal { p with goal := some "gain_muscle" } = none := by
      simp only [utils.computeGoal, a3, hm]
    refine ⟨fun g hg => ?_, fun _ => ⟨n1, n3⟩⟩
    rw [n2] at hg
    exact absurd hg (by simp)
  | some m =>
    obtain ⟨x, hx, _, _, x3, x4⟩ :=
      maintenance_close p m hw hh ha (activityMultiplier_values p m hm)
    obtain ⟨yl, hyl, l1, l2⟩ := roundDouble_close (x + -500) (by linarith) (by linarith)
    obtain ⟨ym, hym, m1, m2⟩ := roundDouble_close (x + 0) (by linarith) (by linarith)
    obtain ⟨yg, hyg, g1, g2⟩ := roundDouble_close (x + 300) (by linarith) (by linarith)
    have c1 : utils.computeGoal { p with goal := some "lose_weight" }
        = some (mathRound yl) := by
      rw [computeGoal_of_maintenance _ m (-500) x (a1.trans hm) (goalAdjustment_lose_weight p)
        (b1 ▸ hx) roundDouble_lose_weight, hyl]
      rfl
    have c2 : utils.computeGoal { p with goal := some "maintain" }
        = some (mathRound ym) := by
      rw [computeGoal_of_maintenance _ m 0 x (a2.trans hm) (goalAdjustment_maintain p)
        (b2 ▸ hx) roundDouble_zero, hym]
      rfl
    have c3 : utils.computeGoal { p with goal := some "gain_muscle" }
        = some (mathRound yg) := by
      rw [computeGoal_of_maintenance _ m 300 x (a3.trans hm) (goalAdjustment_gain_muscle p)
        (b3 ▸ hx) roundDouble_gain_muscle, hyg]
      rfl
    refine ⟨fun g hg => ?_, fun hn => ?_⟩
    · rw [c2] at hg
      injection hg with hg
      subst hg
      obtain ⟨rl1, rl2⟩ := mathRound_spec yl
      obtain ⟨rm1, rm2⟩ := mathRound_spec ym
      obtain ⟨rg1, rg2⟩ := mathRound_spec yg
      refine ⟨mathRound yl, mathRound yg, c1, c3, ?_, ?_, ?_, ?_⟩
      · have q : ((mathRound ym - 502 : Int) : ℚ) < ((mathRound yl : Int) : ℚ) := by
          push_cast; linarith
        have q2 : mathRound ym - 502 < mathRound yl := by exact_mod_cast q
        omega
      · have q : ((mathRound yl : Int) : ℚ) < ((mathRound ym - 498 : Int) : ℚ) := by
          push_cast; linarith
        have q2 : mathRound yl < mathRound ym - 498 := by exact_mod_cast q
        omega
      · have q : ((mathRound ym + 298 : Int) : ℚ) < ((mathRound yg : Int) : ℚ) := by
          push_cast; linarith
        have q2 : mathRound ym + 298 < mathRound yg := by exact_mod_cast q
        omega
      · have q : ((mathRound yg : Int) : ℚ) < ((mathRound ym + 302 : Int) : ℚ) := by
          push_cast; linarith
        have q2 : mathRound yg < mathRound ym + 302 := by exact_mod_cast q
        omega
    · rw [c2] at hn
      exact absurd hn (by simp)

theorem computeGoal_adjustment_commutes_witness :
    |lightProfile.weightKg| ≤ 1000000 ∧ |lightProfile.heightCm| ≤ 1000000 ∧
    |lightProfile.age| ≤ 1000000 ∧
    utils.computeGoal { lightProfile with goal := some "maintain" } = some 919 ∧
    ∃ gl gg : Int, utils.computeGoal { lightProfile with goal := some "lose_weight" } = some gl ∧
      utils.computeGoal { lightProfile with goal := some "gain_muscle" } = some gg ∧
      (919 : Int) - 501 ≤ gl ∧ gl ≤ 919 - 499 ∧ (919 : Int) + 299 ≤ gg ∧ gg ≤ 919 + 301 :=
  ⟨abs_le.mpr ⟨by norm_num [lightProfile], by norm_num [lightProfile]⟩,
    abs_le.mpr ⟨by norm_num [lightProfile], by norm_num [lightProfile]⟩,
    by norm_num [lightProfile], computeGoal_lightProfile_maintain,
    (computeGoal_adjustment_commutes lightProfile
      (abs_le.mpr ⟨by norm_num [lightProfile], by norm_num [lightProfile]⟩)
      (abs_le.mpr ⟨by norm_num [lightProfile], by norm_num [lightProfile]⟩)
      (by norm_num [lightProfile])).1 919 computeGoal_lightProfile_maintain⟩

/-- C29, counterexample. For the profile female, 15 years, 20.1 kg, 128.2 cm, sedentary,
`computeGoal` returns 919 with goal maintain and 1220 with goal gain_muscle, which is not
919 + 300 (and 419 with goal lose_weight). -/
theorem computeGoal_adjustment_lightProfile :
    utils.computeGoal { lightProfile with goal := some "maintain" } = some 919 ∧
    utils.computeGoal { lightProfile with goal := some "lose_weight" } = some 419 ∧
    utils.computeGoal { lightProfile with goal := some "gain_muscle" } = some 1220 ∧
    utils.computeGoal { lightProfile with goal := some "gain_muscle" }
      ≠ (utils.computeGoal { lightProfile with goal := some "maintain" }).map
          (fun g : Int => g + 300) := by
  refine ⟨computeGoal_lightProfile_maintain, computeGoal_lightProfile_lose_weight,
    computeGoal_lightProfile_gain_muscle, ?_⟩
  rw [computeGoal_lightProfile_gain_muscle, computeGoal_lightProfile_maintain]
  decide

/-! ## Default plan generator -/

/-- C2, as amended. For every profile whose dietary preference does not name a member of
`Object.prototype`, `defaultMeals` returns exactly 7 days, each with the 4 meals Breakfast,
Lunch, Snack, Dinner in this order, with `completed = false`, an empty note and calories
`Math.round(goal * fraction)` for the fractions 0.25, 0.35, 0.10, 0.30, the product being
the double product. When the goal is a number `g`, the calories of a slot are an integer
within `1/2 + |g| / 2^53` of `g × fraction`. -/
theorem defaultMeals_shape (p : Profile) (h : utils.prefOf p ∉ objectPrototypeKeys) :
    ∃ days, utils.defaultMeals p = some days ∧ days.length = 7 ∧
      (∀ day ∈ days, day.map mealRow = specDayRows (utils.computeGoal p)) ∧
      ∀ g : Int, utils.computeGoal p = some g →
        ∃ c1 c2 c3 c4 : Int,
          (∀ day ∈ days, day.map Meal.calories = [some c1, some c2, some c3, some c4]) ∧
          |(c1 : ℚ) - g * 0.25| ≤ 1 / 2 + |(g : ℚ)| / 9007199254740992 ∧
          |(c2 : ℚ) - g * 0.35| ≤ 1 / 2 + |(g : ℚ)| / 9007199254740992 ∧
          |(c3 : ℚ) - g * 0.10| ≤ 1 / 2 + |(g : ℚ)| / 9007199254740992 ∧
          |(c4 : ℚ) - g * 0.30| ≤ 1 / 2 + |(g : ℚ)| / 9007199254740992 := by
  obtain ⟨days, hd⟩ := Option.isSome_iff_exists.mp (defaultMeals_isSome p h)
  obtain ⟨hlen, hrows⟩ := defaultMeals_rows p days hd
  refine ⟨days, hd, hlen, hrows, ?_⟩
  intro g hg
  obtain ⟨v1, v2, v3, v4, _, _, _, _, hcal, b1, b2, b3, b4⟩ :=
    defaultMeals_day_shares p g days hg hd
  obtain ⟨r1, s1⟩ := mathRound_spec v1
  obtain ⟨r2, s2⟩ := mathRound_spec v2
  obtain ⟨r3, s3⟩ := mathRound_spec v3
  obtain ⟨r4, s4⟩ := mathRound_spec v4
  obtain ⟨l1, u1⟩ := abs_le.mp b1
  obtain ⟨l2, u2⟩ := abs_le.mp b2
  obtain ⟨l3, u3⟩ := abs_le.mp b3
  obtain ⟨l4, u4⟩ := abs_le.mp b4
  refine ⟨mathRound v1, mathRound v2, mathRound v3, mathRound v4, hcal, ?_, ?_, ?_, ?_⟩ <;>
    (rw [abs_le]; constructor <;> norm_num <;> linarith)

theorem defaultMeals_shape_witness :
    utils.prefOf exampleProfile ∉ objectPrototypeKeys ∧
    ∃ days, utils.defaultMeals exampleProfile = some days ∧ days.length = 7 ∧
      (∀ day ∈ days, day.map mealRow = specDayRows (utils.computeGoal exampleProfile)) ∧
      ∀ g : Int, utils.computeGoal exampleProfile = some g →
        ∃ c1 c2 c3 c4 : Int,
          (∀ day ∈ days, day.map Meal.calories = [some c1, some c2, some c3, some c4]) ∧
          |(c1 : ℚ) - g * 0.25| ≤ 1 / 2 + |(g : ℚ)| / 9007199254740992 ∧
          |(c2 : ℚ) - g * 0.35| ≤ 1 / 2 + |(g : ℚ)| / 9007199254740992 ∧
          |(c3 : ℚ) - g * 0.10| ≤ 1 / 2 + |(g : ℚ)| / 9007199254740992 ∧
          |(c4 : ℚ) - g * 0.30| ≤ 1 / 2 + |(g : ℚ)| / 9007199254740992 :=
  ⟨by decide, defaultMeals_shape exampleProfile (by decide)⟩

/-- C2, counterexample. For the profile male, 30 years, 60 kg, 196 cm, lightly_active,
gain_muscle the calorie goal is 2610 and `defaultMeals` returns a plan whose every day holds
the calories 653, 913, 261, 783: the Lunch of each day has 913 calories, whereas the
round-half-up of `2610 × 0.35 = 913.5` is 914. -/
theorem defaultMeals_shape_athleteProfile :
    utils.prefOf athleteProfile ∉ objectPrototypeKeys ∧
    utils.computeGoal athleteProfile = some 2610 ∧
    mathRound ((2610 : ℚ) * 0.35) = 914 ∧
    (utils.defaultMeals athleteProfile).isSome = true ∧
    ∀ days : List (List Meal), utils.defaultMeals athleteProfile = some days →
      ∀ day ∈ days, day.map Meal.calories = [some 653, some 913, some 261, some 783] := by
  refine ⟨by decide, computeGoal_athleteProfile, ?_,
    defaultMeals_isSome athleteProfile (by decide), defaultMeals_calories_athleteProfile⟩
  simp only [mathRound]
  norm_num

/-! ## Range of the calories of the default meals -/

/-- C19, as amended. For every profile whose calorie goal is a number `g` and for which
`defaultMeals` returns a plan, every meal emitted has integer calories (the round of the
double product of `g` and the fraction of its slot); they all lie between 1 and 9999 exactly
when `5 ≤ g ≤ 28569`. -/
theorem defaultMeals_calories_range (p : Profile) (g : Int) (days : List (List Meal))
    (hg : utils.computeGoal p = some g) (h : utils.defaultMeals p = some days) :
    (∀ day ∈ days, ∀ m ∈ day, ∃ c : Int, m.calories = some c) ∧
    ((∀ day ∈ days, ∀ m ∈ day, ∃ c : Int, m.calories = some c ∧ 1 ≤ c ∧ c ≤ 9999)
      ↔ 5 ≤ g ∧ g ≤ 28569) := by
  obtain ⟨v1, v2, v3, v4, _, e2, e3, _, hcal, b1, b2, b3, b4⟩ :=
    defaultMeals_day_shares p g days hg h
  have hne : days ≠ [] := by
    intro he
    have hlen := (defaultMeals_rows p days h).1
    rw [he] at hlen
    simp at hlen
  constructor
  · intro day hday m hm
    have hmem : m.calories ∈ day.map Meal.calories := List.mem_map_of_mem _ hm
    rw [hcal day hday] at hmem
    simp only [List.mem_cons, List.mem_singleton, List.not_mem_nil, or_false] at hmem
    rcases hmem with h1 | h1 | h1 | h1 <;> exact ⟨_, h1⟩
  · rw [forall_calories_iff days _ _ _ _ (fun c => 1 ≤ c ∧ c ≤ 9999) hne hcal]
    exact shares_in_range_iff g v1 v2 v3 v4 e2 e3 b1 b2 b3 b4

theorem defaultMeals_calories_range_witness :
    utils.computeGoal exampleProfile = some 2056 ∧
    (∀ days : List (List Meal), utils.defaultMeals exampleProfile = some days →
      ((∀ day ∈ days, ∀ m ∈ day, ∃ c : Int, m.calories = some c ∧ 1 ≤ c ∧ c ≤ 9999)
        ↔ (5 : Int) ≤ 2056 ∧ (2056 : Int) ≤ 28569)) :=
  ⟨computeGoal_exampleProfile, fun days h =>
    (defaultMeals_calories_range exampleProfile 2056 days computeGoal_exampleProfile h).2⟩

/-- C19, counterexample. The profile female, 95 years, 30 kg, 120 cm, sedentary, lose_weight
lies within the ranges of the data model; its calorie goal is -3 and `defaultMeals` returns
a plan whose days hold the calories -1, -1, 0, -1. -/
theorem defaultMeals_calories_frailProfile :
    frailProfile.sex = "female" ∧ frailProfile.age = 95 ∧ 0 < frailProfile.weightKg ∧
    100 ≤ frailProfile.heightCm ∧ frailProfile.heightCm ≤ 250 ∧
    (specActivityFactor frailProfile.activityLevel).isSome = true ∧
    (specGoalAdjustment frailProfile.goal).isSome = true ∧
    utils.computeGoal frailProfile = some (-3) ∧
    (utils.defaultMeals frailProfile).isSome = true ∧
    ∀ days : List (List Meal), utils.defaultMeals frailProfile = some days →
      ∀ day ∈ days, day.map Meal.calories = [some (-1), some (-1), some 0, some (-1)] :=
  ⟨rfl, rfl, by norm_num [frailProfile], by norm_num [frailProfile],
    by norm_num [frailProfile], rfl, rfl, computeGoal_frailProfile,
    defaultMeals_isSome frailProfile (by decide), defaultMeals_calories_of_frailProfile⟩

/-! ## The calories of a default day add up to the goal, within 1 -/

theorem sumCalories_of_calories (day : List Meal) (w x y z : Option Int)
    (h : day.map Meal.calories = [w, x, y, z]) :
    sumCalories day
      = addCalories (addCalories (addCalories (addCalories (some 0) w) x) y) z := by
  rcases day with _ | ⟨a, _ | ⟨b, _ | ⟨c, _ | ⟨d, _ | ⟨e, t⟩⟩⟩⟩⟩
  · simp at h
  · simp at h
  · simp at h
  · simp at h
  · simp only [List.map_cons, List.map_nil, List.cons.injEq, and_true] at h
    obtain ⟨ha, hb, hc, hd⟩ := h
    rw [← ha, ← hb, ← hc, ← hd]
    rfl
  · simp at h

theorem defaultMeals_day_calories_nan (p : Profile) (days : List (List Meal))
    (hg : utils.computeGoal p = none) (h : utils.defaultMeals p = some days) :
    ∀ day ∈ days, day.map Meal.calories = [none, none, none, none] := by
  obtain ⟨_, hrows⟩ := defaultMeals_rows p days h
  intro day hday
  have h1 := congrArg (List.map (fun r : String × Option Int × Bool × String => r.2.1))
    (hrows day hday)
  have e : List.map ((fun r : String × Option Int × Bool × String => r.2.1) ∘ mealRow) day
      = day.map Meal.calories := rfl
  simp only [List.map_map, specDayRows, List.map_cons, List.map_nil, hg, Option.map_none',
    mulDouble] at h1
  rw [e] at h1
  exact h1

/-- C28, as amended. For every profile whose calorie goal is a number `g` of absolute value
at most `10^12` and for which `defaultMeals` returns, the calories of the four default meals
of every day add up to `g - 1`, to `g` or to `g + 1`; when the goal is `NaN` the sum is
`NaN`. The sum is not always the goal: for the example profile the goal is 2056 and every day
adds up to 2057. -/
theorem defaultMeals_day_sum (p : Profile) :
    (∀ g : Int, utils.computeGoal p = some g → |g| ≤ 1000000000000 →
      ∀ days : List (List Meal), utils.defaultMeals p = some days → ∀ day ∈ days,
        sumCalories day = some (g - 1) ∨ sumCalories day = some g ∨
          sumCalories day = some (g + 1)) ∧
    (utils.computeGoal p = none →
      ∀ days : List (List Meal), utils.defaultMeals p = some days → ∀ day ∈ days,
        sumCalories day = none) ∧
    utils.computeGoal exampleProfile = some 2056 ∧
    (utils.defaultMeals exampleProfile).isSome = true ∧
    ∀ days : List (List Meal), utils.defaultMeals exampleProfile = some days → ∀ day ∈ days,
      sumCalories day = some 2057 := by
  refine ⟨?_, ?_, computeGoal_exampleProfile, defaultMeals_isSome exampleProfile (by decide),
    ?_⟩
  · intro g hg hb days h day hday
    obtain ⟨v1, v2, v3, v4, _, _, _, _, hcal, b1, b2, b3, b4⟩ :=
      defaultMeals_day_shares p g days hg h
    have hbq : abs (g : ℚ) ≤ 1000000000000 := by
      have h1 : ((|g| : Int) : ℚ) ≤ ((1000000000000 : Int) : ℚ) := by exact_mod_cast hb
      rw [Int.cast_abs] at h1
      simpa using h1
    obtain ⟨lo, hi⟩ := shares_sum_near g v1 v2 v3 v4 hbq b1 b2 b3 b4
    rw [sumCalories_of_calories day _ _ _ _ (hcal day hday)]
    simp only [addCalories, Option.some.injEq]
    omega
  · intro hg days h day hday
    rw [sumCalories_of_calories day _ _ _ _ (defaultMeals_day_calories_nan p days hg h day hday)]
    rfl
  · intro days h day hday
    rw [sumCalories_of_calories day _ _ _ _
      (defaultMeals_calories_exampleProfile days h day hday)]
    rfl

theorem defaultMeals_day_sum_witness :
    utils.computeGoal frailProfile = some (-3) ∧ |(-3 : Int)| ≤ 1000000000000 ∧
    (utils.defaultMeals frailProfile).isSome = true ∧
    ∀ days : List (List Meal), utils.defaultMeals frailProfile = some days → ∀ day ∈ days,
      sumCalories day = some (-3 - 1) ∨ sumCalories day = some (-3) ∨
        sumCalories day = some (-3 + 1) :=
  ⟨computeGoal_frailProfile, by decide, defaultMeals_isSome frailProfile (by decide),
    (defaultMeals_day_sum frailProfile).1 (-3) computeGoal_frailProfile (by decide)⟩

/-- C28, counterexample. For the profile male, 32 years, `2^51` kg, 128 cm, lightly_active,
maintain, whose weight passes the onboarding check `weight > 0`, the calorie goal is
30962247438173044 and the calories of every default day add up to 30962247438173042, which
is the goal minus 2. -/
theorem defaultMeals_day_sum_heavyProfile :
    0 < heavyProfile.weightKg ∧
    utils.computeGoal heavyProfile = some 30962247438173044 ∧
    (utils.defaultMeals heavyProfile).isSome = true ∧
    ∀ days : List (List Meal), utils.defaultMeals heavyProfile = some days → ∀ day ∈ days,
      sumCalories day = some (30962247438173044 - 2) := by
  refine ⟨by norm_num [heavyProfile], computeGoal_heavyProfile,
    defaultMeals_isSome heavyProfile (by decide), ?_⟩
  intro days h day hday
  rw [sumCalories_of_calories day _ _ _ _ (defaultMeals_calories_heavyProfile days h day hday)]
  rfl


/-! ## Full reset -/

theorem lookup_eraseKey_none (items : List (String × String)) (key other : String)
    (h : items.lookup other = none) : (eraseKey items key).lookup other = none := by
  by_cases hk : other = key
  · rw [hk]; exact lookup_eraseKey_self items key
  · rw [lookup_eraseKey_ne items key other hk]; exact h

theorem lookup_none_or_mem_keys (items : List (String × String)) (key : String) :
    items.lookup key = none ∨ key ∈ items.map Prod.fst := by
  induction items with
  | nil => exact Or.inl rfl
  | cons kv items ih =>
    obtain ⟨k, v⟩ := kv
    by_cases h : k = key
    · exact Or.inr (by simp [h])
    · rcases ih with h1 | h1
      · exact Or.inl (by simp [lookup_cons_ite, h, h1])
      · exact Or.inr (List.mem_cons_of_mem _ h1)

namespace LocalStorage

theorem getItem_removeItem_none (s : LocalStorage) (key other : String)
    (h : s.getItem other = none) : (s.removeItem key).getItem other = none :=
  lookup_eraseKey_none s.items key other h

theorem getItem_foldl_removeItem (keys : List String) (s : LocalStorage) (key : String)
    (h : key ∈ keys ∨ s.getItem key = none) :
    (keys.foldl LocalStorage.removeItem s).getItem key = none := by
  induction keys generalizing s with
  | nil =>
    rcases h with h | h
    · exact absurd h (List.not_mem_nil _)
    · exact h
  | cons k keys ih =>
    simp only [List.foldl_cons]
    apply ih
    rcases h with h | h
    · rcases List.mem_cons.mp h with h1 | h1
      · exact Or.inr (h1 ▸ getItem_removeItem_self s k)
      · exact Or.inl h1
    · exact Or.inr (getItem_removeItem_none s k key h)

end LocalStorage

namespace store

theorem isWaterKey_waterKey (date : String) : isWaterKey (waterKey date) = true := by
  simp [isWaterKey, waterKey, String.data_append]

theorem getItem_clearAll_fixed (s : LocalStorage) (key : String) (h : key ∈ fixedKeys) :
    (clearAll s).getItem key = none := by
  unfold clearAll
  exact LocalStorage.getItem_foldl_removeItem _ _ key
    (Or.inr (LocalStorage.getItem_foldl_removeItem fixedKeys s key (Or.inl h)))

theorem getItem_clearAll_water (s : LocalStorage) (key : String) (h : isWaterKey key = true) :
    (clearAll s).getItem key = none := by
  unfold clearAll
  apply LocalStorage.getItem_foldl_removeItem
  rcases lookup_none_or_mem_keys (fixedKeys.foldl LocalStorage.removeItem s).items key with h1 | h1
  · exact Or.inr h1
  · exact Or.inl (List.mem_filter.mpr ⟨h1, h⟩)

end store

/-- C14. For every storage state, after `clearAll()` every fixed-key record and every
water-log entry is gone: `getProfile()`, `getPlan()` and `getGoalOverride()` return `null`,
`getTheme()` returns 'light', `getStreak()` returns `{ count: 0, lastCompletedDate: null }`,
`getWeightLog()` returns the empty list and `getWater(date)` returns 0 for every date; these
reads leave the storage as `clearAll()` left it. -/
theorem clearAll_resets_records (H : Host) (s : LocalStorage) :
    store.getProfile H (store.clearAll s) = (Json.null, store.clearAll s) ∧
    store.getPlan H (store.clearAll s) = (Json.null, store.clearAll s) ∧
    store.getGoalOverride H (store.clearAll s) = (Json.null, store.clearAll s) ∧
    store.getTheme H (store.clearAll s) = (Json.str "light", store.clearAll s) ∧
    store.getStreak H (store.clearAll s) = (defaultStreak.toJson, store.clearAll s) ∧
    defaultStreak.toJson
      = Json.obj [("count", Json.num 0), ("lastCompletedDate", Json.null)] ∧
    store.getWeightLog H (store.clearAll s) = (Json.arr [], store.clearAll s) ∧
    ∀ date : String, store.getWater H (store.clearAll s) date = (Json.num 0, store.clearAll s) := by
  refine ⟨?_, ?_, ?_, ?_, ?_, rfl, ?_, ?_⟩
  · exact store.get_absent H _ _ _ (store.getItem_clearAll_fixed s _ (by decide))
  · exact store.get_absent H _ _ _ (store.getItem_clearAll_fixed s _ (by decide))
  · exact store.get_absent H _ _ _ (store.getItem_clearAll_fixed s _ (by decide))
  · exact store.get_absent H _ _ _ (store.getItem_clearAll_fixed s _ (by decide))
  · exact store.get_absent H _ _ _ (store.getItem_clearAll_fixed s _ (by decide))
  · exact store.get_absent H _ _ _ (store.getItem_clearAll_fixed s _ (by decide))
  · intro date
    exact store.get_absent H _ _ _
      (store.getItem_clearAll_water s _ (store.isWaterKey_waterKey date))

theorem clearAll_usedStorage :
    store.clearAll usedStorage = { items := [("other_app", "1")], quota := 5000000 } := by
  decide


/-! ## Calendar -/

theorem isLeapYear_iff (y : Nat) :
    isLeapYear y = true ↔ (y % 4 = 0 ∧ y % 100 ≠ 0) ∨ y % 400 = 0 := by
  simp [isLeapYear]

theorem leapYearsBefore_succ (y : Nat) :
    leapYearsBefore (y + 1) = leapYearsBefore y + (if isLeapYear y = true then 1 else 0) := by
  unfold leapYearsBefore
  by_cases h : isLeapYear y = true
  · rw [if_pos h]
    rw [isLeapYear_iff] at h
    omega
  · rw [if_neg h]
    rw [isLeapYear_iff] at h
    omega

theorem daysBeforeMonthOf_succ (leap : Bool) (m : Nat) (h1 : 1 ≤ m) (h2 : m < 12) :
    daysBeforeMonthOf leap (m + 1) = daysBeforeMonthOf leap m + daysInMonthOf leap m := by
  interval_cases m <;> cases leap <;> rfl

theorem daysBeforeMonthOf_december (leap : Bool) :
    daysBeforeMonthOf leap 12 + daysInMonthOf leap 12 = 365 + (if leap = true then 1 else 0) := by
  cases leap <;> rfl

theorem daysInMonthOf_pos (leap : Bool) (m : Nat) : 28 ≤ daysInMonthOf leap m := by
  unfold daysInMonthOf
  split_ifs <;> omega

theorem epochDay_nextDay (ymd : Nat × Nat × Nat) (h : validDate ymd = true) :
    epochDay (nextDay ymd) = epochDay ymd + 1 := by
  obtain ⟨y, m, d⟩ := ymd
  simp only [validDate, Bool.and_eq_true, decide_eq_true_eq, daysInMonth] at h
  obtain ⟨⟨⟨h1, h2⟩, h3⟩, h4⟩ := h
  unfold nextDay
  simp only [daysInMonth]
  by_cases hd : d < daysInMonthOf (isLeapYear y) m
  · rw [if_pos hd]
    simp only [epochDay]
    push_cast
    ring
  · rw [if_neg hd]
    have hde : d = daysInMonthOf (isLeapYear y) m := by omega
    by_cases hm : m < 12
    · rw [if_pos hm]
      simp only [epochDay, daysBeforeMonth]
      rw [daysBeforeMonthOf_succ _ m h1 hm, hde]
      push_cast
      ring
    · rw [if_neg hm]
      have hm12 : m = 12 := by omega
      subst hm12
      have h31 : daysInMonthOf (isLeapYear y) 12 = 31 := by
        cases isLeapYear y <;> rfl
      have h334 : daysBeforeMonthOf (isLeapYear y) 12
          = 334 + (if isLeapYear y = true then 1 else 0) := by
        cases isLeapYear y <;> rfl
      have hs := leapYearsBefore_succ y
      have h0 : daysBeforeMonthOf (isLeapYear (y + 1)) 1 = 0 := by
        cases isLeapYear (y + 1) <;> rfl
      simp only [epochDay, daysBeforeMonth, h0]
      rw [hs, hde, h31, h334]
      split_ifs <;> push_cast <;> omega

theorem validDate_nextDay (ymd : Nat × Nat × Nat) (h : validDate ymd = true) :
    validDate (nextDay ymd) = true := by
  obtain ⟨y, m, d⟩ := ymd
  simp only [validDate, Bool.and_eq_true, decide_eq_true_eq, daysInMonth] at h
  obtain ⟨⟨⟨h1, h2⟩, h3⟩, h4⟩ := h
  unfold nextDay
  simp only [daysInMonth]
  by_cases hd : d < daysInMonthOf (isLeapYear y) m
  · rw [if_pos hd]
    simp only [validDate, Bool.and_eq_true, decide_eq_true_eq, daysInMonth]
    omega
  · rw [if_neg hd]
    by_cases hm : m < 12
    · rw [if_pos hm]
      have := daysInMonthOf_pos (isLeapYear y) (m + 1)
      simp only [validDate, Bool.and_eq_true, decide_eq_true_eq, daysInMonth]
      omega
    · rw [if_neg hm]
      have := daysInMonthOf_pos (isLeapYear (y + 1)) 1
      simp only [validDate, Bool.and_eq_true, decide_eq_true_eq, daysInMonth]
      omega

theorem epochDay_daysLater (n : Nat) (ymd : Nat × Nat × Nat) (h : validDate ymd = true) :
    validDate (daysLater n ymd) = true ∧ epochDay (daysLater n ymd) = epochDay ymd + n := by
  induction n with
  | zero => exact ⟨h, by simp [daysLater]⟩
  | succ n ih =>
    have e : daysLater (n + 1) ymd = nextDay (daysLater n ymd) := by
      simp only [daysLater, Function.iterate_succ_apply']
    rw [e]
    refine ⟨validDate_nextDay _ ih.1, ?_⟩
    rw [epochDay_nextDay _ ih.1, ih.2]
    push_cast
    ring

theorem refDateTime_readsDateKeys : ReadsDateKeys refDateTime := by
  intro s ymd hs hv
  simp [refDateTime, hs, hv]

/-! ## The streak update -/

theorem streak_ofJson_toJson (st : Streak) : Streak.ofJson st.toJson = some st := by
  obtain ⟨c, l⟩ := st
  cases l <;> simp [Streak.toJson, Streak.ofJson, List.lookup]

theorem mathRound_intCast (n : Int) : mathRound (n : ℚ) = n := by
  unfold mathRound
  rw [Int.floor_eq_iff]
  constructor <;> linarith

theorem diffDays_of_dates (dateTime : String → Option Int) (hP : ReadsDateKeys dateTime)
    (last d : String) (x y : Nat × Nat × Nat) (hl : parseDateKey last = some x)
    (hx : validDate x = true) (hd : parseDateKey d = some y) (hy : validDate y = true) :
    diffDays dateTime last d = some (epochDay y - epochDay x) := by
  unfold diffDays
  rw [hP d y hd hy, hP last x hl hx]
  simp only [Option.some.injEq]
  have e : (((epochDay y * 86400000 - epochDay x * 86400000 : Int) : ℚ)) / 86400000
      = ((epochDay y - epochDay x : Int) : ℚ) := by
    push_cast
    ring
  rw [e, mathRound_intCast]

theorem diffDays_self (dateTime : String → Option Int) (d : String) :
    diffDays dateTime d d = some 0 ∨ diffDays dateTime d d = none := by
  unfold diffDays
  cases dateTime d with
  | none => exact Or.inr rfl
  | some t =>
    left
    simp only [sub_self, Int.cast_zero, zero_div, Option.some.injEq]
    exact mathRound_intCast 0

theorem parseDateKey_ne_empty (s : String) (x : Nat × Nat × Nat)
    (h : parseDateKey s = some x) : s ≠ "" := by
  intro e
  subst e
  simp [parseDateKey, isDateKey] at h

theorem streakUpdate_of_no_prior (dateTime : String → Option Int) (st : Streak) (d : String)
    (h : st.lastCompletedDate = none ∨ st.lastCompletedDate = some "") :
    streakUpdate dateTime st d = some { count := 1, lastCompletedDate := some d } := by
  unfold streakUpdate
  rcases h with h | h <;> simp [h]

theorem streakUpdate_of_gap (dateTime : String → Option Int) (hP : ReadsDateKeys dateTime)
    (st : Streak) (last d : String) (x : Nat × Nat × Nat) (n : Nat)
    (h : st.lastCompletedDate = some last) (hl : parseDateKey last = some x)
    (hx : validDate x = true) (hd : parseDateKey d = some (daysLater n x)) :
    streakUpdate dateTime st d
      = if n = 1 then some { count := st.count + 1, lastCompletedDate := some d }
        else if 1 < n then some { count := 1, lastCompletedDate := some d }
        else none := by
  obtain ⟨hv, he⟩ := epochDay_daysLater n x hx
  have hdiff := diffDays_of_dates dateTime hP last d x _ hl hx hd hv
  rw [he] at hdiff
  have e : epochDay x + (n : Int) - epochDay x = (n : Int) := by ring
  rw [e] at hdiff
  unfold streakUpdate
  simp only [h, parseDateKey_ne_empty last x hl, if_false, hdiff]
  by_cases h1 : n = 1
  · simp [h1]
  · have h1i : ¬ ((n : Int) = 1) := by omega
    by_cases h2 : 1 < n
    · have h2i : (1 : Int) < n := by omega
      simp [h1, h1i, h2, h2i]
    · have h2i : ¬ ((1 : Int) < n) := by omega
      simp [h1, h1i, h2, h2i]

theorem streakUpdate_same_day (dateTime : String → Option Int) (st : Streak) (d : String)
    (h : st.lastCompletedDate = some d) (hd : d ≠ "") : streakUpdate dateTime st d = none := by
  unfold streakUpdate
  simp only [h, hd, if_false]
  rcases diffDays_self dateTime d with e | e <;> simp [e]

theorem streakUpdate_date (dateTime : String → Option Int) (st next : Streak) (d : String)
    (h : streakUpdate dateTime st d = some next) : next.lastCompletedDate = some d := by
  unfold streakUpdate at h
  split at h
  · injection h with h; rw [← h]
  · split at h
    · injection h with h; rw [← h]
    · split at h
      · split at h
        · injection h with h; rw [← h]
        · split at h
          · injection h with h; rw [← h]
          · exact absurd h (by simp)
      · exact absurd h (by simp)

theorem getStreak_storage_of_prior (H : Host) (s : LocalStorage) (st : Streak) (last : String)
    (hst : Streak.ofJson (store.getStreak H s).1 = some st)
    (h : st.lastCompletedDate = some last) : (store.getStreak H s).2 = s := by
  have hdef : Streak.ofJson defaultStreak.toJson = some defaultStreak :=
    streak_ofJson_toJson defaultStreak
  unfold store.getStreak at hst ⊢
  cases hg : s.getItem KEYS.STREAK with
  | none => rw [store.get_absent H s _ _ hg]
  | some raw =>
    cases hv : H.jsonParse raw with
    | some v => rw [store.get_valid H s _ raw _ v hg hv]
    | none =>
      rw [store.get_corrupted H s _ raw _ hg hv] at hst
      rw [hdef] at hst
      injection hst with hst
      rw [← hst] at h
      exact absurd h (by simp [defaultStreak])

theorem computeAndSaveStreak_of_update (H : Host) (hJ : H.JsonRoundTrip)
    (dateTime : String → Option Int) (s : LocalStorage) (st next : Streak) (d : String)
    (hst : Streak.ofJson (store.getStreak H s).1 = some st)
    (hu : streakUpdate dateTime st d = some next)
    (hw : store.writeAccepted H (store.getStreak H s).2 KEYS.STREAK next.toJson = true) :
    ∃ s1, computeAndSaveStreak H dateTime s d = some s1 ∧
      store.getStreak H s1 = (next.toJson, s1) :=
  ⟨store.setStreak H (store.getStreak H s).2 next, by simp [computeAndSaveStreak, hst, hu],
    store.get_set_self H hJ _ _ _ _ hw⟩

theorem computeAndSaveStreak_of_no_update (H : Host)
    (dateTime : String → Option Int) (s : LocalStorage) (st : Streak) (d : String)
    (hst : Streak.ofJson (store.getStreak H s).1 = some st)
    (hu : streakUpdate dateTime st d = none) :
    computeAndSaveStreak H dateTime s d = some (store.getStreak H s).2 := by
  simp [computeAndSaveStreak, hst, hu]

theorem computeAndSaveStreak_getStreak (H : Host) (dateTime : String → Option Int)
    (s : LocalStorage) (d : String) :
    computeAndSaveStreak H dateTime (store.getStreak H s).2 d
      = computeAndSaveStreak H dateTime s d := by
  have e : store.getStreak H (store.getStreak H s).2 = store.getStreak H s :=
    store.get_get H s _ _
  unfold computeAndSaveStreak
  rw [e]

theorem getStreak_streakStorage :
    store.getStreak refHost streakStorage
      = (Streak.toJson { count := 3, lastCompletedDate := some "2024-02-29" }, streakStorage) :=
  store.get_valid refHost streakStorage _ _ _ _ rfl (refHost_jsonRoundTrip _)

theorem ofJson_getStreak_streakStorage :
    Streak.ofJson (store.getStreak refHost streakStorage).1
      = some { count := 3, lastCompletedDate := some "2024-02-29" } := by
  rw [getStreak_streakStorage]
  exact streak_ofJson_toJson _

theorem getStreak_filledStreakStorage :
    store.getStreak refHost filledStreakStorage
      = (Streak.toJson { count := 9, lastCompletedDate := some "2024-02-29" },
          filledStreakStorage) :=
  store.get_valid refHost filledStreakStorage _ _ _ _ rfl (refHost_jsonRoundTrip _)

theorem writeAccepted_streakStorage :
    store.writeAccepted refHost (store.getStreak refHost streakStorage).2 KEYS.STREAK
      (Streak.toJson { count := 3 + 1, lastCompletedDate := some "2024-03-01" }) = true := by
  rw [getStreak_streakStorage]
  have e : ((3 : ℚ) + 1) = 4 := by norm_num
  rw [e]
  decide

/-- C11, as amended. Let `store.getStreak()` return the streak `{ count, lastCompletedDate }`
and let the host read date keys as midnight UTC. If there is no prior date (`null` or the
empty string) `computeAndSaveStreak(d)` writes `{ 1, d }`; if `d` is the calendar day after
`lastCompletedDate` it writes `{ count + 1, d }`; if `d` is two or more days after it writes
`{ 1, d }`; in each of these cases `getStreak()` returns the written streak afterwards
provided the host accepts the write. If `d` equals a non-empty `lastCompletedDate` the
storage is unchanged. -/
theorem computeAndSaveStreak_cases (H : Host) (hJ : H.JsonRoundTrip)
    (dateTime : String → Option Int) (hP : ReadsDateKeys dateTime) (s : LocalStorage)
    (st : Streak) (d : String)
    (hst : Streak.ofJson (store.getStreak H s).1 = some st) :
    ((st.lastCompletedDate = none ∨ st.lastCompletedDate = some "") →
      store.writeAccepted H (store.getStreak H s).2 KEYS.STREAK
        (Streak.toJson { count := 1, lastCompletedDate := some d }) = true →
      ∃ s1, computeAndSaveStreak H dateTime s d = some s1 ∧
        store.getStreak H s1
          = (Streak.toJson { count := 1, lastCompletedDate := some d }, s1)) ∧
    (∀ (last : String) (x : Nat × Nat × Nat), st.lastCompletedDate = some last →
      parseDateKey last = some x → validDate x = true → parseDateKey d = some (nextDay x) →
      store.writeAccepted H (store.getStreak H s).2 KEYS.STREAK
        (Streak.toJson { count := st.count + 1, lastCompletedDate := some d }) = true →
      ∃ s1, computeAndSaveStreak H dateTime s d = some s1 ∧
        store.getStreak H s1
          = (Streak.toJson { count := st.count + 1, lastCompletedDate := some d }, s1)) ∧
    (st.lastCompletedDate = some d → d ≠ "" →
      computeAndSaveStreak H dateTime s d = some s) ∧
    (∀ (last : String) (x : Nat × Nat × Nat) (n : Nat), st.lastCompletedDate = some last →
      parseDateKey last = some x → validDate x = true → 2 ≤ n →
      parseDateKey d = some (daysLater n x) →
      store.writeAccepted H (store.getStreak H s).2 KEYS.STREAK
        (Streak.toJson { count := 1, lastCompletedDate := some d }) = true →
      ∃ s1, computeAndSaveStreak H dateTime s d = some s1 ∧
        store.getStreak H s1
          = (Streak.toJson { count := 1, lastCompletedDate := some d }, s1)) := by
  refine ⟨?_, ?_, ?_, ?_⟩
  · intro h hw
    exact computeAndSaveStreak_of_update H hJ dateTime s st _ d hst
      (streakUpdate_of_no_prior dateTime st d h) hw
  · intro last x h hl hx hd hw
    have hu := streakUpdate_of_gap dateTime hP st last d x 1 h hl hx hd
    rw [if_pos rfl] at hu
    exact computeAndSaveStreak_of_update H hJ dateTime s st _ d hst hu hw
  · intro h hd
    rw [computeAndSaveStreak_of_no_update H dateTime s st d hst
      (streakUpdate_same_day dateTime st d h hd)]
    rw [getStreak_storage_of_prior H s st d hst h]
  · intro last x n h hl hx hn hd hw
    have hu := streakUpdate_of_gap dateTime hP st last d x n h hl hx hd
    rw [if_neg (by omega), if_pos (by omega)] at hu
    exact computeAndSaveStreak_of_update H hJ dateTime s st _ d hst hu hw

theorem computeAndSaveStreak_cases_witness :
    Streak.ofJson (store.getStreak refHost streakStorage).1
      = some { count := 3, lastCompletedDate := some "2024-02-29" } ∧
    parseDateKey "2024-02-29" = some (2024, 2, 29) ∧
    parseDateKey "2024-03-01" = some (nextDay (2024, 2, 29)) ∧
    ∃ s1, computeAndSaveStreak refHost refDateTime streakStorage "2024-03-01" = some s1 ∧
      store.getStreak refHost s1
        = (Streak.toJson { count := 3 + 1, lastCompletedDate := some "2024-03-01" }, s1) :=
  ⟨ofJson_getStreak_streakStorage, by decide, by decide,
    (computeAndSaveStreak_cases refHost refHost_jsonRoundTrip refDateTime
      refDateTime_readsDateKeys streakStorage
      { count := 3, lastCompletedDate := some "2024-02-29" } "2024-03-01"
      ofJson_getStreak_streakStorage).2.1 "2024-02-29" (2024, 2, 29) rfl (by decide)
      (by decide) (by decide) writeAccepted_streakStorage⟩

/-- C11, counterexample. The storage is filled to its quota and holds the streak
`{ count: 9, lastCompletedDate: '2024-02-29' }`; `computeAndSaveStreak('2024-03-01')`, one
calendar day later, leaves the storage as it was, so the stored streak is still
`{ 9, '2024-02-29' }` and not `{ 10, '2024-03-01' }`. -/
theorem computeAndSaveStreak_filledStreakStorage :
    parseDateKey "2024-02-29" = some (2024, 2, 29) ∧
    parseDateKey "2024-03-01" = some (nextDay (2024, 2, 29)) ∧
    computeAndSaveStreak refHost refDateTime filledStreakStorage "2024-03-01"
      = some filledStreakStorage ∧
    Streak.ofJson (store.getStreak refHost filledStreakStorage).1
      = some { count := 9, lastCompletedDate := some "2024-02-29" } ∧
    ({ count := 9, lastCompletedDate := some "2024-02-29" } : Streak)
      ≠ { count := 9 + 1, lastCompletedDate := some "2024-03-01" } := by
  have hst : Streak.ofJson (store.getStreak refHost filledStreakStorage).1
      = some { count := 9, lastCompletedDate := some "2024-02-29" } := by
    rw [getStreak_filledStreakStorage]
    exact streak_ofJson_toJson _
  refine ⟨by decide, by decide, ?_, hst, by simp⟩
  have hu := streakUpdate_of_gap refDateTime refDateTime_readsDateKeys
    { count := 9, lastCompletedDate := some "2024-02-29" } "2024-02-29" "2024-03-01"
    (2024, 2, 29) 1 rfl (by decide) (by decide) (by decide)
  rw [if_pos rfl] at hu
  have e : ((9 : ℚ) + 1) = 10 := by norm_num
  simp only [e] at hu
  unfold computeAndSaveStreak
  rw [hst]
  simp only [hu, getStreak_filledStreakStorage]
  rw [Option.some.injEq]
  exact store.set_of_rejected refHost _ _ _ (by decide)

/-- C12. For every stored streak and every non-empty completion date `d`,
`computeAndSaveStreak(d)` returns, and a second call right after it leaves the storage, and so
the stored streak, as the first call left it; this holds whether or not the host accepts the
write. -/
theorem computeAndSaveStreak_idempotent (H : Host) (hJ : H.JsonRoundTrip)
    (dateTime : String → Option Int) (s : LocalStorage) (st : Streak) (d : String)
    (hst : Streak.ofJson (store.getStreak H s).1 = some st) (hd : d ≠ "") :
    ∃ s1, computeAndSaveStreak H dateTime s d = some s1 ∧
      computeAndSaveStreak H dateTime s1 d = some s1 := by
  cases hu : streakUpdate dateTime st d with
  | none =>
    have h1 := computeAndSaveStreak_of_no_update H dateTime s st d hst hu
    exact ⟨_, h1, by rw [computeAndSaveStreak_getStreak]; exact h1⟩
  | some next =>
    by_cases hw : store.writeAccepted H (store.getStreak H s).2 KEYS.STREAK next.toJson = true
    · obtain ⟨s1, h1, h2⟩ := computeAndSaveStreak_of_update H hJ dateTime s st next d hst hu hw
      refine ⟨s1, h1, ?_⟩
      have hst1 : Streak.ofJson (store.getStreak H s1).1 = some next := by
        rw [h2]
        exact streak_ofJson_toJson next
      rw [computeAndSaveStreak_of_no_update H dateTime s1 next d hst1
        (streakUpdate_same_day dateTime next d (streakUpdate_date dateTime st next d hu) hd)]
      rw [h2]
    · have hn : (store.getStreak H s).2.setItem KEYS.STREAK (H.stringify next.toJson) = none := by
        unfold store.writeAccepted at hw
        cases hs : (store.getStreak H s).2.setItem KEYS.STREAK (H.stringify next.toJson) with
        | none => rfl
        | some s2 => rw [hs] at hw; simp at hw
      have h1 : computeAndSaveStreak H dateTime s d = some (store.getStreak H s).2 := by
        simp only [computeAndSaveStreak, hst, hu, store.setStreak]
        rw [store.set_of_rejected H _ _ _ hn]
      exact ⟨_, h1, by rw [computeAndSaveStreak_getStreak]; exact h1⟩

theorem computeAndSaveStreak_idempotent_witness :
    Streak.ofJson (store.getStreak refHost streakStorage).1
      = some { count := 3, lastCompletedDate := some "2024-02-29" } ∧
    "2024-03-01" ≠ "" ∧
    ∃ s1, computeAndSaveStreak refHost refDateTime streakStorage "2024-03-01" = some s1 ∧
      computeAndSaveStreak refHost refDateTime s1 "2024-03-01" = some s1 :=
  ⟨ofJson_getStreak_streakStorage, by decide,
    computeAndSaveStreak_idempotent refHost refHost_jsonRoundTrip refDateTime streakStorage
      { count := 3, lastCompletedDate := some "2024-02-29" } "2024-03-01"
      ofJson_getStreak_streakStorage (by decide)⟩


/-! ## The meal form -/

theorem calRejected_iff (cal : Option ℚ) :
    calRejected cal = true ↔ cal = none ∨ ∃ c, cal = some c ∧ (c ≤ 0 ∨ 9999 < c) := by
  cases cal with
  | none => simp [calRejected]
  | some c =>
    simp only [calRejected, Bool.or_eq_true, decide_eq_true_eq]
    constructor
    · rintro ((h | h) | h)
      · exact Or.inr ⟨c, rfl, Or.inl (le_of_eq h)⟩
      · exact Or.inr ⟨c, rfl, Or.inl h⟩
      · exact Or.inr ⟨c, rfl, Or.inr h⟩
    · rintro (h | ⟨c1, hc1, h⟩)
      · exact absurd h (by simp)
      · injection hc1 with hc1
        subst hc1
        rcases h with h | h
        · exact Or.inl (Or.inr h)
        · exact Or.inr h

theorem modifyDay_eq_set (days : List Day) (dayIdx : Nat) (f : List Meal → List Meal)
    (day : Day) (h : days[dayIdx]? = some day) :
    modifyDay days dayIdx f = some (days.set dayIdx { day with meals := f day.meals }) := by
  induction days generalizing dayIdx with
  | nil => simp at h
  | cons d rest ih =>
    cases dayIdx with
    | zero =>
      simp only [List.getElem?_cons_zero, Option.some.injEq] at h
      subst h
      rfl
    | succ i =>
      simp only [List.getElem?_cons_succ] at h
      simp [modifyDay, ih i h]

theorem mem_editMeal (meals : List Meal) (id name type : String) (calories : Option Int)
    (m : Meal) (h : m ∈ editMeal meals id name type calories) :
    m ∈ meals ∨ m.calories = calories := by
  induction meals with
  | nil => simp [editMeal] at h
  | cons a rest ih =>
    unfold editMeal at h
    split at h
    · rcases List.mem_cons.mp h with h1 | h1
      · exact Or.inr (by rw [h1])
      · exact Or.inl (List.mem_cons_of_mem _ h1)
    · rcases List.mem_cons.mp h with h1 | h1
      · exact Or.inl (by rw [h1]; exact List.mem_cons_self _ _)
      · rcases ih h1 with h2 | h2
        · exact Or.inl (List.mem_cons_of_mem _ h2)
        · exact Or.inr h2

theorem mem_saveMeal (editingMealId : Option String) (meals : List Meal) (name type : String)
    (calories : Option Int) (clock : Int) (m : Meal)
    (h : m ∈ saveMeal editingMealId meals name type calories clock) :
    m ∈ meals ∨ m.calories = calories := by
  unfold saveMeal at h
  split at h
  · split at h
    · rcases List.mem_append.mp h with h1 | h1
      · exact Or.inl h1
      · exact Or.inr (by rw [List.mem_singleton.mp h1])
    · exact mem_editMeal _ _ _ _ _ _ h
  · rcases List.mem_append.mp h with h1 | h1
    · exact Or.inl h1
    · exact Or.inr (by rw [List.mem_singleton.mp h1])

theorem mathRound_nonneg_of_pos (c : ℚ) (h : 0 < c) : 0 ≤ mathRound c := by
  unfold mathRound
  rw [Int.le_floor]
  push_cast
  linarith

theorem mathRound_le_of_le (c : ℚ) (h : c ≤ 9999) : mathRound c ≤ 9999 := by
  rw [mathRound_le_iff]
  linarith

/-- C20, as the code behaves. The meal form rejects a save, leaving the plan, `editingMealId`
and the storage as they were, when the trimmed name is empty or the parsed calories `cal` are
`NaN`, at most 0 or above 9999. With a non-empty name and `0 < cal ≤ 9999` it saves: the meals
of the day become those of the add or edit branch, in which every meal is an old one or has
the calories `Math.round(cal)`, and the plan is passed to `store.setPlan`. `Math.round(cal)`
is an integer from 0 to 9999 and is at least 1 only when `cal ≥ 0.5`; so inputs in
`(0, 0.5)` are accepted and store the calories 0. -/
theorem onMealFormSave_calories (H : Host) (st : TrackerState) (dayIdx : Nat)
    (name type : String) (cal : Option ℚ) (clock : Int) (now : String) :
    ((name = "" ∨ cal = none ∨ ∃ c, cal = some c ∧ (c ≤ 0 ∨ 9999 < c)) →
      onMealFormSave H st dayIdx name type cal clock now = some st) ∧
    (∀ (c : ℚ) (day : Day), name ≠ "" → cal = some c → 0 < c → c ≤ 9999 →
      st.plan.days[dayIdx]? = some day →
      onMealFormSave H st dayIdx name type cal clock now
        = some
          { plan :=
              { st.plan with
                days := st.plan.days.set dayIdx
                  { day with
                    meals := saveMeal st.editingMealId day.meals name type
                      (some (mathRound c)) clock }
                updatedAt := now }
            editingMealId := none
            storage := store.setPlan H st.storage
              ({ st.plan with
                  days := st.plan.days.set dayIdx
                    { day with
                      meals := saveMeal st.editingMealId day.meals name type
                        (some (mathRound c)) clock } }).fields now } ∧
      (∀ m ∈ saveMeal st.editingMealId day.meals name type (some (mathRound c)) clock,
        m ∈ day.meals ∨ m.calories = some (mathRound c)) ∧
      0 ≤ mathRound c ∧ mathRound c ≤ 9999 ∧ (1 ≤ mathRound c ↔ 1 / 2 ≤ c)) := by
  constructor
  · intro h
    have hr : name = "" ∨ calRejected cal = true := by
      rcases h with h | h
      · exact Or.inl h
      · exact Or.inr ((calRejected_iff cal).mpr h)
    unfold onMealFormSave
    rw [if_pos hr]
  · intro c day hn hc h0 h1 hday
    subst hc
    have hr : ¬ (name = "" ∨ calRejected (some c) = true) := by
      rw [calRejected_iff]
      rintro (h | h | ⟨c1, hc1, h⟩)
      · exact hn h
      · simp at h
      · injection hc1 with hc1
        subst hc1
        rcases h with h | h
        · exact absurd h0 (not_lt.mpr h)
        · exact absurd h1 (not_le.mpr h)
    refine ⟨?_, fun m hm => mem_saveMeal _ _ _ _ _ _ m hm, mathRound_nonneg_of_pos c h0,
      mathRound_le_of_le c h1, mathRound_ge_one_iff c⟩
    unfold onMealFormSave
    rw [if_neg hr, modifyDay_eq_set _ _ _ day hday]
    rfl

theorem onMealFormSave_calories_witness :
    (3 / 10 : ℚ) < 1 ∧
    ∃ st1, onMealFormSave refHost sampleTracker 0 "Tea" "Snack" (some (3 / 10)) 1709280000000
        "2024-03-01T08:00:00.000Z" = some st1 ∧
      st1.plan.days.map (fun d => d.meals.map Meal.calories) = [[some 0]] := by
  refine ⟨by norm_num, ?_⟩
  obtain ⟨h, _, _⟩ := (onMealFormSave_calories refHost sampleTracker 0 "Tea" "Snack"
    (some (3 / 10)) 1709280000000 "2024-03-01T08:00:00.000Z").2 (3 / 10)
    { dayIndex := 0, meals := [] } (by decide) rfl (by norm_num) (by norm_num) rfl
  refine ⟨_, h, ?_⟩
  have e : mathRound (3 / 10 : ℚ) = 0 := by
    unfold mathRound
    rw [Int.floor_eq_iff]
    constructor <;> norm_num
  simp [sampleTracker, saveMeal, e]


/-! ## The calorie goal as a function of the profile -/

/-- C27. `computeGoal` is a function of the six fields sex, weightKg, heightCm, age,
activityLevel and goal: two profiles that agree on them, whatever their dietaryPreference and
createdAt, get the same calorie goal (also when it is `NaN`). -/
theorem computeGoal_six_fields (p q : Profile) (hsex : p.sex = q.sex)
    (hweight : p.weightKg = q.weightKg) (hheight : p.heightCm = q.heightCm)
    (hage : p.age = q.age) (hactivity : p.activityLevel = q.activityLevel)
    (hgoal : p.goal = q.goal) : utils.computeGoal p = utils.computeGoal q := by
  simp only [utils.computeGoal, utils.activityMultiplier, utils.goalAdjustment, utils.bmr, hsex,
    hweight, hheight, hage, hactivity, hgoal]

theorem computeGoal_six_fields_witness :
    exampleProfile.dietaryPreference ≠ veganProfile.dietaryPreference ∧
    exampleProfile.createdAt ≠ veganProfile.createdAt ∧
    utils.computeGoal exampleProfile = utils.computeGoal veganProfile :=
  ⟨by decide, by decide,
    computeGoal_six_fields exampleProfile veganProfile rfl rfl rfl rfl rfl rfl⟩

/-! ## The theme -/

/-- C26, as amended. For every theme, in particular 'light' and 'dark', and every storage
that accepts the write, `store.setTheme(theme)` followed by `store.getTheme()` returns the
theme and leaves the storage as `setTheme` left it. The store keeps no state of its own,
so a fresh store instance over the same storage reads the same. -/
theorem setTheme_getTheme (H : Host) (hJ : H.JsonRoundTrip) (s : LocalStorage)
    (theme : String) (hw : store.writeAccepted H s KEYS.THEME (Json.str theme) = true) :
    store.getTheme H (store.setTheme H s theme)
      = (Json.str theme, store.setTheme H s theme) := by
  unfold store.getTheme store.setTheme
  exact store.get_set_self H hJ s KEYS.THEME _ _ hw

theorem setTheme_getTheme_witness :
    store.writeAccepted refHost emptyStorage KEYS.THEME (Json.str "dark") = true ∧
    store.getTheme refHost (store.setTheme refHost emptyStorage "dark")
      = (Json.str "dark", store.setTheme refHost emptyStorage "dark") :=
  ⟨by decide, setTheme_getTheme refHost refHost_jsonRoundTrip emptyStorage "dark" (by decide)⟩

/-- C26, counterexample. On a storage that rejects the write, `setTheme('dark')` followed by
`getTheme()` returns 'light'. -/
theorem setTheme_getTheme_fullStorage :
    (store.getTheme refHost (store.setTheme refHost fullStorage "dark")).1 = Json.str "light" ∧
    Json.str "light" ≠ Json.str "dark" := by
  constructor
  · unfold store.getTheme store.setTheme fullStorage
    rw [store.set_of_quota_zero refHost [] _ _ (by decide)]
    rfl
  · intro h
    injection h with h
    exact absurd h (by decide)


/-! ## The weight chart -/

theorem foldl_min_le (rest : List ℚ) (w : ℚ) :
    rest.foldl min w ≤ w ∧ ∀ v ∈ rest, rest.foldl min w ≤ v := by
  induction rest generalizing w with
  | nil => exact ⟨le_refl _, fun v hv => absurd hv (List.not_mem_nil _)⟩
  | cons a rest ih =>
    obtain ⟨h1, h2⟩ := ih (min w a)
    simp only [List.foldl_cons]
    refine ⟨le_trans h1 (min_le_left _ _), ?_⟩
    intro v hv
    rcases List.mem_cons.mp hv with e | e
    · rw [e]; exact le_trans h1 (min_le_right _ _)
    · exact h2 v e

theorem foldl_min_mem (rest : List ℚ) (w : ℚ) : rest.foldl min w ∈ w :: rest := by
  induction rest generalizing w with
  | nil => simp
  | cons a rest ih =>
    simp only [List.foldl_cons]
    rcases List.mem_cons.mp (ih (min w a)) with e | e
    · rw [e]
      rcases min_choice w a with h | h
      · rw [h]; exact List.mem_cons_self _ _
      · rw [h]; exact List.mem_cons_of_mem _ (List.mem_cons_self _ _)
    · exact List.mem_cons_of_mem _ (List.mem_cons_of_mem _ e)

theorem le_foldl_max (rest : List ℚ) (w : ℚ) :
    w ≤ rest.foldl max w ∧ ∀ v ∈ rest, v ≤ rest.foldl max w := by
  induction rest generalizing w with
  | nil => exact ⟨le_refl _, fun v hv => absurd hv (List.not_mem_nil _)⟩
  | cons a rest ih =>
    obtain ⟨h1, h2⟩ := ih (max w a)
    simp only [List.foldl_cons]
    refine ⟨le_trans (le_max_left _ _) h1, ?_⟩
    intro v hv
    rcases List.mem_cons.mp hv with e | e
    · rw [e]; exact le_trans (le_max_right _ _) h1
    · exact h2 v e

theorem foldl_max_mem (rest : List ℚ) (w : ℚ) : rest.foldl max w ∈ w :: rest := by
  induction rest generalizing w with
  | nil => simp
  | cons a rest ih =>
    simp only [List.foldl_cons]
    rcases List.mem_cons.mp (ih (max w a)) with e | e
    · rw [e]
      rcases max_choice w a with h | h
      · rw [h]; exact List.mem_cons_self _ _
      · rw [h]; exact List.mem_cons_of_mem _ (List.mem_cons_self _ _)
    · exact List.mem_cons_of_mem _ (List.mem_cons_of_mem _ e)

theorem mathMin_spec (ws : List ℚ) (h : ws ≠ []) :
    mathMin ws ∈ ws ∧ ∀ v ∈ ws, mathMin ws ≤ v := by
  cases ws with
  | nil => exact absurd rfl h
  | cons w rest =>
    obtain ⟨h1, h2⟩ := foldl_min_le rest w
    refine ⟨foldl_min_mem rest w, ?_⟩
    intro v hv
    rcases List.mem_cons.mp hv with e | e
    · rw [e]; exact h1
    · exact h2 v e

theorem mathMax_spec (ws : List ℚ) (h : ws ≠ []) :
    mathMax ws ∈ ws ∧ ∀ v ∈ ws, v ≤ mathMax ws := by
  cases ws with
  | nil => exact absurd rfl h
  | cons w rest =>
    obtain ⟨h1, h2⟩ := le_foldl_max rest w
    refine ⟨foldl_max_mem rest w, ?_⟩
    intro v hv
    rcases List.mem_cons.mp hv with e | e
    · rw [e]; exact h1
    · exact h2 v e

theorem chartRange_pos (entries : List WeightEntry) (h : entries ≠ []) :
    0 < utils.chartRange entries ∧
    mathMax (entries.map WeightEntry.weight) - mathMin (entries.map WeightEntry.weight)
      ≤ utils.chartRange entries := by
  have hne : entries.map WeightEntry.weight ≠ [] := by simpa using h
  obtain ⟨hm, hle⟩ := mathMin_spec _ hne
  obtain ⟨_, hge⟩ := mathMax_spec _ hne
  have h0 : mathMin (entries.map WeightEntry.weight) ≤ mathMax (entries.map WeightEntry.weight) :=
    hge _ hm
  unfold utils.chartRange
  split
  · rename_i e
    rw [e]
    exact ⟨one_pos, zero_le_one⟩
  · rename_i e
    exact ⟨lt_of_le_of_ne (sub_nonneg.mpr h0) (Ne.symm e), le_refl _⟩

theorem toX_bounds (entries : List WeightEntry) (width : ℚ) (i : Nat)
    (hn : 2 ≤ entries.length) (hi : i < entries.length) (hw : 56 ≤ width) :
    40 ≤ utils.toX entries width i ∧ utils.toX entries width i ≤ width - 16 := by
  have hn1 : (0 : ℚ) < (entries.length : ℚ) - 1 := by
    have : (2 : ℚ) ≤ (entries.length : ℚ) := by exact_mod_cast hn
    linarith
  have hi1 : (i : ℚ) ≤ (entries.length : ℚ) - 1 := by
    have : (i : ℚ) + 1 ≤ (entries.length : ℚ) := by exact_mod_cast hi
    linarith
  have t0 : 0 ≤ (i : ℚ) / ((entries.length : ℚ) - 1) :=
    div_nonneg (Nat.cast_nonneg i) (le_of_lt hn1)
  have t1 : (i : ℚ) / ((entries.length : ℚ) - 1) ≤ 1 := (div_le_one hn1).mpr hi1
  have c0 : 0 ≤ width - 40 - 16 := by linarith
  unfold utils.toX
  constructor
  · have := mul_nonneg t0 c0
    linarith
  · have := mul_le_mul_of_nonneg_right t1 c0
    linarith

theorem toY_bounds (entries : List WeightEntry) (height : ℚ) (e : WeightEntry)
    (he : e ∈ entries) (hh : 48 ≤ height) :
    16 ≤ utils.toY entries height e.weight ∧ utils.toY entries height e.weight ≤ height - 32 := by
  have hne : entries ≠ [] := List.ne_nil_of_mem he
  have hne2 : entries.map WeightEntry.weight ≠ [] := by simpa using hne
  obtain ⟨hpos, hle⟩ := chartRange_pos entries hne
  have hmem : e.weight ∈ entries.map WeightEntry.weight := List.mem_map_of_mem _ he
  have h1 := (mathMin_spec _ hne2).2 _ hmem
  have h2 := (mathMax_spec _ hne2).2 _ hmem
  have t0 : 0 ≤ (e.weight - mathMin (entries.map WeightEntry.weight)) / utils.chartRange entries :=
    div_nonneg (sub_nonneg.mpr h1) (le_of_lt hpos)
  have t1 : (e.weight - mathMin (entries.map WeightEntry.weight)) / utils.chartRange entries ≤ 1 :=
    (div_le_one hpos).mpr (by linarith)
  have c0 : 0 ≤ height - 16 - 32 := by linarith
  unfold utils.toY
  constructor
  · have := mul_le_mul_of_nonneg_right t1 c0
    linarith
  · have := mul_nonneg t0 c0
    linarith

/-- C25. `formatWeightChartSVG` gives the 'Not enough data' placeholder, without points, for
fewer than 2 entries. For `n ≥ 2` entries it gives `n` points, entry `i` with weight `w` being
mapped to `x = 40 + (i / (n - 1)) * (width - 56)` and
`y = 16 + H - ((w - min) / range) * H`, where `H = height - 48`, `min` and `max` are the least
and the greatest weight, and `range` is `max - min`, or 1 when `max = min`; neither divisor
is zero. For `width ≥ 56` and `height ≥ 48` every point has `40 ≤ x ≤ width - 16` and
`16 ≤ y ≤ height - 32`. -/
theorem formatWeightChartSVG_layout (entries : List WeightEntry) (width height : ℚ) :
    (entries.length < 2 → utils.formatWeightChartSVG entries width height = none) ∧
    (2 ≤ entries.length →
      (mathMin (entries.map WeightEntry.weight) ∈ entries.map WeightEntry.weight ∧
        mathMax (entries.map WeightEntry.weight) ∈ entries.map WeightEntry.weight ∧
        ∀ e ∈ entries, mathMin (entries.map WeightEntry.weight) ≤ e.weight ∧
          e.weight ≤ mathMax (entries.map WeightEntry.weight)) ∧
      (utils.chartRange entries
          = mathMax (entries.map WeightEntry.weight) - mathMin (entries.map WeightEntry.weight) ∨
        mathMax (entries.map WeightEntry.weight) = mathMin (entries.map WeightEntry.weight) ∧
          utils.chartRange entries = 1) ∧
      utils.chartRange entries ≠ 0 ∧ (entries.length : ℚ) - 1 ≠ 0 ∧
      ∃ points, utils.formatWeightChartSVG entries width height = some points ∧
        points.length = entries.length ∧
        (∀ (i : Nat) (e : WeightEntry), entries[i]? = some e →
          points[i]? = some
            (40 + ((i : ℚ) / ((entries.length : ℚ) - 1)) * (width - 56),
              16 + (height - 48)
                - ((e.weight - mathMin (entries.map WeightEntry.weight))
                    / utils.chartRange entries) * (height - 48))) ∧
        (56 ≤ width → 48 ≤ height → ∀ pt ∈ points,
          40 ≤ pt.1 ∧ pt.1 ≤ width - 16 ∧ 16 ≤ pt.2 ∧ pt.2 ≤ height - 32)) := by
  constructor
  · intro h
    simp [utils.formatWeightChartSVG, h]
  · intro hn
    have hne : entries ≠ [] := by
      intro e
      rw [e] at hn
      simp at hn
    have hne2 : entries.map WeightEntry.weight ≠ [] := by simpa using hne
    obtain ⟨hminMem, hminLe⟩ := mathMin_spec _ hne2
    obtain ⟨hmaxMem, hmaxGe⟩ := mathMax_spec _ hne2
    obtain ⟨hpos, _⟩ := chartRange_pos entries hne
    refine ⟨⟨hminMem, hmaxMem, fun e he =>
      ⟨hminLe _ (List.mem_map_of_mem _ he), hmaxGe _ (List.mem_map_of_mem _ he)⟩⟩, ?_,
      ne_of_gt hpos, ?_, ?_⟩
    · unfold utils.chartRange
      split
      · rename_i e
        exact Or.inr ⟨by linarith, rfl⟩
      · exact Or.inl rfl
    · have : (2 : ℚ) ≤ (entries.length : ℚ) := by exact_mod_cast hn
      intro e
      linarith
    · have hdef : utils.formatWeightChartSVG entries width height
          = some ((List.zip entries (List.range entries.length)).map fun ei =>
              (utils.toX entries width ei.2, utils.toY entries height ei.1.weight)) := by
        unfold utils.formatWeightChartSVG
        rw [if_neg (not_lt.mpr hn)]
      refine ⟨_, hdef, by simp, ?_, ?_⟩
      · intro i e hi
        have hlt : i < entries.length := by
          by_contra hc
          rw [List.getElem?_eq_none (not_lt.mp hc)] at hi
          exact absurd hi (by simp)
        have hz : (List.zip entries (List.range entries.length))[i]? = some (e, i) := by
          rw [List.getElem?_zip_eq_some]
          exact ⟨hi, List.getElem?_range hlt⟩
        rw [List.getElem?_map, hz]
        simp only [Option.map_some', utils.toX, utils.toY, Option.some.injEq, Prod.mk.injEq]
        constructor <;> ring
      · intro hw hh pt hpt
        obtain ⟨ei, hei, rfl⟩ := List.mem_map.mp hpt
        obtain ⟨e, i⟩ := ei
        obtain ⟨he, hi⟩ := List.of_mem_zip hei
        have hi2 : i < entries.length := List.mem_range.mp hi
        obtain ⟨x1, x2⟩ := toX_bounds entries width i hn hi2 hw
        obtain ⟨y1, y2⟩ := toY_bounds entries height e he hh
        exact ⟨x1, x2, y1, y2⟩

theorem formatWeightChartSVG_layout_witness :
    2 ≤ chartEntries.length ∧
    ∃ points, utils.formatWeightChartSVG chartEntries 320 160 = some points ∧
      points.length = chartEntries.length ∧
      ∀ pt ∈ points, 40 ≤ pt.1 ∧ pt.1 ≤ 320 - 16 ∧ 16 ≤ pt.2 ∧ pt.2 ≤ 160 - 32 := by
  obtain ⟨_, _, _, _, points, h1, h2, _, h4⟩ :=
    (formatWeightChartSVG_layout chartEntries 320 160).2 (by decide)
  exact ⟨by decide, points, h1, h2, h4 (by norm_num) (by norm_num)⟩


/-! ## The weekly summary -/

theorem addCalories_zero_left (x : Option Int) : addCalories (some 0) x = x := by
  cases x <;> simp [addCalories]

theorem addCalories_zero_right (x : Option Int) : addCalories x (some 0) = x := by
  cases x <;> simp [addCalories]

theorem addCalories_assoc (x y z : Option Int) :
    addCalories (addCalories x y) z = addCalories x (addCalories y z) := by
  cases x <;> cases y <;> cases z <;> simp [addCalories, add_assoc]

theorem foldl_addCalories (meals : List Meal) (s : Option Int) :
    meals.foldl (fun s m => addCalories s m.calories) s = addCalories s (sumCalories meals) := by
  induction meals generalizing s with
  | nil => simp [sumCalories, addCalories_zero_right]
  | cons m rest ih =>
    simp only [List.foldl_cons, sumCalories]
    rw [ih (addCalories s m.calories), ih (addCalories (some 0) m.calories),
      addCalories_zero_left, addCalories_assoc]

theorem sumCalories_append (a b : List Meal) :
    sumCalories (a ++ b) = addCalories (sumCalories a) (sumCalories b) := by
  unfold sumCalories
  rw [List.foldl_append, foldl_addCalories]
  rfl

theorem foldl_summaryStep (days : List Day) (acc : SummaryTotals) :
    days.foldl summaryStep acc
      = { totalConsumed := addCalories acc.totalConsumed
            (sumCalories (days.map fun d => d.meals.filter fun m => m.completed).flatten)
          totalPlanned := addCalories acc.totalPlanned
            (sumCalories (days.map fun d => d.meals).flatten)
          daysCompleted := acc.daysCompleted + days.countP allDone
          daysWithData := acc.daysWithData
            + days.countP fun d => isPositive (dayConsumed d) } := by
  induction days generalizing acc with
  | nil =>
    simp [sumCalories, addCalories_zero_right]
  | cons d rest ih =>
    simp only [List.foldl_cons, ih, List.map_cons, List.flatten_cons, sumCalories_append,
      List.countP_cons, summaryStep, dayConsumed, dayPlanned, addCalories_assoc]
    congr 1
    · by_cases h : allDone d = true <;>
        first | (simp [h]; done) | (simp [h]; omega)
    · by_cases h : isPositive (sumCalories (d.meals.filter fun m => m.completed)) = true <;>
        first | (simp [h]; done) | (simp [h]; omega)

theorem renderSummary_eq (plan : Plan) (goal : Option ℚ) :
    renderSummary (some plan) goal
      = some
        { totalConsumed := sumCalories (completedMeals plan)
          totalPlanned := sumCalories (allMeals plan)
          daysCompleted := plan.days.countP allDone
          daysWithData := plan.days.countP fun d => isPositive (dayConsumed d)
          weeklyGoal := goal.map fun g : ℚ => g * 7
          avgConsumed :=
            if 0 < plan.days.countP (fun d => isPositive (dayConsumed d)) then
              (sumCalories (completedMeals plan)).map fun t : Int =>
                mathRound ((t : ℚ)
                  / ((plan.days.countP fun d => isPositive (dayConsumed d) : Nat) : ℚ))
            else some 0 } := by
  simp only [renderSummary, foldl_summaryStep, addCalories_zero_left, Nat.zero_add,
    completedMeals, allMeals]

theorem sumCalories_nonneg (meals : List Meal)
    (h : ∀ m ∈ meals, ∃ c : Int, m.calories = some c ∧ 0 ≤ c) :
    ∃ t : Int, sumCalories meals = some t ∧ 0 ≤ t := by
  induction meals with
  | nil => exact ⟨0, rfl, le_refl _⟩
  | cons m rest ih =>
    obtain ⟨c, hc, hc0⟩ := h m (List.mem_cons_self _ _)
    obtain ⟨t, ht, ht0⟩ := ih fun x hx => h x (List.mem_cons_of_mem _ hx)
    have e : sumCalories (m :: rest) = addCalories (sumCalories [m]) (sumCalories rest) :=
      sumCalories_append [m] rest
    refine ⟨c + t, ?_, by omega⟩
    rw [e, ht]
    simp [sumCalories, addCalories, hc]

/-- C23, as amended. For every plan, the weekly summary's days-completed count equals the
number of days of the plan that have at least one meal and in which every meal is completed;
for a plan in which every day has a meal this is the number of days in which every meal is
completed. -/
theorem renderSummary_daysCompleted (plan : Plan) (goal : Option ℚ) :
    ∃ summary, renderSummary (some plan) goal = some summary ∧
      summary.daysCompleted
        = plan.days.countP (fun d => decide (d.meals ≠ []) && d.meals.all fun m => m.completed) ∧
      ((∀ d ∈ plan.days, d.meals ≠ []) →
        summary.daysCompleted = plan.days.countP fun d => d.meals.all fun m => m.completed) := by
  refine ⟨_, renderSummary_eq plan goal, ?_, ?_⟩
  · apply List.countP_congr
    intro d _
    cases hm : d.meals <;> simp [allDone, hm]
  · intro h
    apply List.countP_congr
    intro d hd
    have := h d hd
    cases hm : d.meals with
    | nil => exact absurd hm this
    | cons m rest => simp [allDone, hm]

theorem renderSummary_daysCompleted_witness :
    (∀ d ∈ weekPlan.days, d.meals ≠ []) ∧
    ∃ summary, renderSummary (some weekPlan) (some 2056) = some summary ∧
      summary.daysCompleted = 1 := by
  obtain ⟨summary, h1, h2, _⟩ := renderSummary_daysCompleted weekPlan (some 2056)
  exact ⟨by decide, summary, h1, by rw [h2]; decide⟩

/-- C23, counterexample. In a plan whose second day has no meals, every meal of either day
is completed, so both days are days in which every meal is completed; the summary counts one
day. -/
theorem renderSummary_daysCompleted_emptyDay :
    (emptyDayPlan.days.countP fun d => d.meals.all fun m => m.completed) = 2 ∧
    ∃ summary, renderSummary (some emptyDayPlan) (some 2056) = some summary ∧
      summary.daysCompleted = 1 := by
  refine ⟨by decide, _, renderSummary_eq emptyDayPlan (some 2056), by decide⟩

/-- C24, as amended. For every plan, the weekly summary's total consumed is the sum of the
calories of the completed meals of all days, total planned is the sum over all meals (the
sums are `NaN` when a summand is), and the average per active day is
`round(total consumed / k)` where `k` is the number of days with consumption above 0, or 0
when `k = 0`, so nothing is divided by zero. When no meal has negative or `NaN` calories, `k`
is the number of days with nonzero consumption. -/
theorem renderSummary_totals (plan : Plan) (goal : Option ℚ) :
    ∃ summary, renderSummary (some plan) goal = some summary ∧
      summary.totalConsumed = sumCalories (completedMeals plan) ∧
      summary.totalPlanned = sumCalories (allMeals plan) ∧
      summary.daysWithData = plan.days.countP (fun d => isPositive (dayConsumed d)) ∧
      (summary.daysWithData = 0 → summary.avgConsumed = some 0) ∧
      (0 < summary.daysWithData →
        ((summary.daysWithData : Nat) : ℚ) ≠ 0 ∧
        summary.avgConsumed = summary.totalConsumed.map fun t : Int =>
          mathRound ((t : ℚ) / ((summary.daysWithData : Nat) : ℚ))) ∧
      ((∀ m ∈ allMeals plan, ∃ c : Int, m.calories = some c ∧ 0 ≤ c) →
        summary.daysWithData
          = plan.days.countP fun d => decide (dayConsumed d ≠ some 0)) := by
  refine ⟨_, renderSummary_eq plan goal, rfl, rfl, rfl, ?_, ?_, ?_⟩
  · intro h
    simp only at h
    simp only [h, lt_irrefl, if_false]
  · intro h
    simp only at h
    refine ⟨?_, ?_⟩
    · simp only
      exact_mod_cast (ne_of_gt h)
    · simp only [h, if_true]
  · intro h
    simp only
    apply List.countP_congr
    intro d hd
    have hm : ∀ m ∈ d.meals.filter (fun m => m.completed),
        ∃ c : Int, m.calories = some c ∧ 0 ≤ c := by
      intro m hmem
      apply h
      unfold allMeals
      rw [List.mem_flatten]
      exact ⟨d.meals, List.mem_map_of_mem _ hd, (List.mem_filter.mp hmem).1⟩
    obtain ⟨t, ht, ht0⟩ := sumCalories_nonneg _ hm
    simp only [dayConsumed, ht, isPositive, decide_eq_true_eq, ne_eq, Option.some.injEq]
    omega

theorem renderSummary_totals_witness :
    (∀ m ∈ allMeals weekPlan, ∃ c : Int, m.calories = some c ∧ 0 ≤ c) ∧
    ∃ summary, renderSummary (some weekPlan) (some 2056) = some summary ∧
      summary.totalConsumed = some 1748 ∧ summary.totalPlanned = some 2468 ∧
      summary.daysWithData = 2 ∧ summary.avgConsumed = some 874 := by
  obtain ⟨summary, h1, h2, h3, h4, _, h6, _⟩ := renderSummary_totals weekPlan (some 2056)
  have e4 : summary.daysWithData = 2 := by rw [h4]; decide
  have e2 : summary.totalConsumed = some 1748 := by rw [h2]; decide
  refine ⟨by decide, summary, h1, e2, by rw [h3]; decide, e4, ?_⟩
  rw [(h6 (by rw [e4]; decide)).2, e2, e4]
  simp only [Option.map_some', mathRound, Option.some.injEq]
  norm_num

/-- C24, counterexample. The plan holds one day of default meals with the calories -1, -1,
0, -1, the first being completed: the day's consumption is -1, which is not zero, and the
total consumed is -1, yet the summary counts no active day and shows the average 0, not
`round(-1 / 1) = -1`. -/
theorem renderSummary_totals_frailPlan :
    (frailPlan.days.countP fun d => decide (dayConsumed d ≠ some 0)) = 1 ∧
    ∃ summary, renderSummary (some frailPlan) (some (-3)) = some summary ∧
      summary.totalConsumed = some (-1) ∧ summary.daysWithData = 0 ∧
      summary.avgConsumed = some 0 ∧ mathRound (((-1 : Int) : ℚ) / ((1 : Nat) : ℚ)) = -1 := by
  refine ⟨by decide, _, renderSummary_eq frailPlan (some (-3)), by decide, by decide, by decide,
    ?_⟩
  unfold mathRound
  norm_num


/-! ## The goal in use -/

theorem orGoal_of_ne_zero (q : ℚ) (computed : Option ℚ) (h : q ≠ 0) :
    orGoal (some q) computed = some q := by
  simp [orGoal, h]

theorem getGoalOverride_goalStorage :
    store.getGoalOverride refHost goalStorage = (Json.num 1800, goalStorage) :=
  store.get_valid refHost goalStorage _ _ _ _ rfl (refHost_jsonRoundTrip _)

/-- C22. Let `store.getGoalOverride()` return an integer `n` from 500 to 9999. Then, whatever
the profile, the goal of the tracker's day column is `n` (remaining, ratio and the exceeded
flag are computed from `n`), the goal the progress page passes on is `n`, so the summary's
weekly goal is `7 n` and every row of the daily breakdown is measured against `n`, and the
text `onDownloadPDF` exports is `planToText(plan, n)`, in which every day's header line
carries the label `n`. When `getGoalOverride()` returns `null`, as it does when no override
is stored, the tracker and the progress page use `computeGoal(profile)`. -/
theorem goal_override_in_use (H : Host) (s : LocalStorage) (profile : Profile) (day : Day)
    (plan : Plan) (numberText : ℚ → String) :
    (∀ n : Int, 500 ≤ n → n ≤ 9999 → (store.getGoalOverride H s).1 = Json.num (n : ℚ) →
      renderDayColumn H s profile day
        = some
          { goal := some (n : ℚ)
            consumed := toNumber (dayConsumed day)
            remaining := subNumber (some (n : ℚ)) (toNumber (dayConsumed day))
            ratio := minOne (utils.progressRatio (toNumber (dayConsumed day)) (some (n : ℚ)))
            exceeded := gtNumber (toNumber (dayConsumed day)) (some (n : ℚ))
            allDone := allDone day } ∧
      progressGoal H s profile = some (some (n : ℚ)) ∧
      (∃ summary, renderSummary (some plan) (some (n : ℚ)) = some summary ∧
        summary.weeklyGoal = some ((n : ℚ) * 7)) ∧
      (∀ row ∈ renderDailyBreakdown (some plan) (some (n : ℚ)), row.goal = some (n : ℚ)) ∧
      onDownloadPDF H numberText s plan
        = some (utils.planToText numberText (some plan) (some (n : ℚ))) ∧
      ∀ (d : Day) (i : Nat),
        (dayLines numberText (some (n : ℚ)) d i).head?
          = some (dayTitle numberText i ++ "  (Goal: " ++ numberText (n : ℚ) ++ " kcal)")) ∧
    ((store.getGoalOverride H s).1 = Json.null →
      (∃ column, renderDayColumn H s profile day = some column ∧
        column.goal = toNumber (utils.computeGoal profile)) ∧
      progressGoal H s profile = some (toNumber (utils.computeGoal profile))) ∧
    (s.getItem KEYS.GOAL = none → (store.getGoalOverride H s).1 = Json.null) := by
  refine ⟨?_, ?_, ?_⟩
  · intro n h1 h2 hs
    have hn : (n : ℚ) ≠ 0 := by
      have : n ≠ 0 := by omega
      exact_mod_cast this
    refine ⟨?_, ?_, ⟨_, rfl, rfl⟩, ?_, ?_, ?_⟩
    · simp only [renderDayColumn, hs, goalOverrideOfJson, orGoal_of_ne_zero _ _ hn]
    · simp only [progressGoal, hs, goalOverrideOfJson, orGoal_of_ne_zero _ _ hn]
    · intro row hrow
      simp only [renderDailyBreakdown, List.mem_map] at hrow
      obtain ⟨d, _, rfl⟩ := hrow
      rfl
    · simp only [onDownloadPDF, hs, goalOverrideOfJson, Option.map_some']
    · intro d i
      simp only [dayLines, dayGoalText, hn, if_false, List.cons_append, List.head?_cons]
  · intro hs
    have e : renderDayColumn H s profile day
        = some
          { goal := toNumber (utils.computeGoal profile)
            consumed := toNumber (dayConsumed day)
            remaining := subNumber (toNumber (utils.computeGoal profile))
              (toNumber (dayConsumed day))
            ratio := minOne (utils.progressRatio (toNumber (dayConsumed day))
              (toNumber (utils.computeGoal profile)))
            exceeded := gtNumber (toNumber (dayConsumed day))
              (toNumber (utils.computeGoal profile))
            allDone := allDone day } := by
      simp only [renderDayColumn, hs, goalOverrideOfJson, orGoal]
    refine ⟨⟨_, e, rfl⟩, ?_⟩
    simp only [progressGoal, hs, goalOverrideOfJson, orGoal]
  · intro h
    unfold store.getGoalOverride
    rw [store.get_absent H s _ _ h]

theorem goal_override_in_use_witness :
    (store.getGoalOverride refHost goalStorage).1 = Json.num ((1800 : Int) : ℚ) ∧
    utils.computeGoal exampleProfile = some 2056 ∧
    progressGoal refHost goalStorage exampleProfile = some (some ((1800 : Int) : ℚ)) ∧
    progressGoal refHost emptyStorage exampleProfile
      = some (toNumber (utils.computeGoal exampleProfile)) := by
  have hs : (store.getGoalOverride refHost goalStorage).1 = Json.num ((1800 : Int) : ℚ) := by
    rw [getGoalOverride_goalStorage]
    simp
  refine ⟨hs, computeGoal_exampleProfile, ?_, ?_⟩
  · exact ((goal_override_in_use refHost goalStorage exampleProfile
      { dayIndex := 0, meals := [] } weekPlan refNumberText).1 1800 (by decide) (by decide) hs).2.1
  · have h := goal_override_in_use refHost emptyStorage exampleProfile
      { dayIndex := 0, meals := [] } weekPlan refNumberText
    exact (h.2.1 (h.2.2 rfl)).2


/-! ## Sequences of streak updates -/

theorem calendarDay_eq_some (d : String) (a : Int) (h : calendarDay d = some a) :
    ∃ x, parseDateKey d = some x ∧ validDate x = true ∧ epochDay x = a := by
  unfold calendarDay at h
  cases hp : parseDateKey d with
  | none => rw [hp] at h; exact absurd h (by simp)
  | some x =>
    rw [hp] at h
    by_cases hv : validDate x = true
    · simp only [hv, if_true, Option.some.injEq] at h
      exact ⟨x, rfl, hv, h⟩
    · simp [hv] at h

theorem diffDays_of_calendarDay (dateTime : String → Option Int) (hP : ReadsDateKeys dateTime)
    (last d : String) (a b : Int) (hl : calendarDay last = some a)
    (hd : calendarDay d = some b) : diffDays dateTime last d = some (b - a) := by
  obtain ⟨x, hx1, hx2, hx3⟩ := calendarDay_eq_some last a hl
  obtain ⟨y, hy1, hy2, hy3⟩ := calendarDay_eq_some d b hd
  rw [diffDays_of_dates dateTime hP last d x y hx1 hx2 hy1 hy2, hx3, hy3]

theorem calendarDay_ne_empty (d : String) (a : Int) (h : calendarDay d = some a) : d ≠ "" := by
  obtain ⟨x, hx, _, _⟩ := calendarDay_eq_some d a h
  exact parseDateKey_ne_empty d x hx

theorem streakUpdate_of_calendarDays (dateTime : String → Option Int)
    (hP : ReadsDateKeys dateTime) (st : Streak) (last d : String) (a b : Int)
    (h : st.lastCompletedDate = some last) (hl : calendarDay last = some a)
    (hd : calendarDay d = some b) :
    streakUpdate dateTime st d
      = if b - a = 1 then some { count := st.count + 1, lastCompletedDate := some d }
        else if 1 < b - a then some { count := 1, lastCompletedDate := some d }
        else none := by
  unfold streakUpdate
  simp only [h, calendarDay_ne_empty last a hl, if_false,
    diffDays_of_calendarDay dateTime hP last d a b hl hd]

theorem streakUpdate_earlier (dateTime : String → Option Int) (hP : ReadsDateKeys dateTime)
    (st : Streak) (last d : String) (a b : Int) (h : st.lastCompletedDate = some last)
    (hl : calendarDay last = some a) (hd : calendarDay d = some b) (hlt : b < a) :
    streakUpdate dateTime st d = none := by
  rw [streakUpdate_of_calendarDays dateTime hP st last d a b h hl hd,
    if_neg (by omega), if_neg (by omega)]

theorem streakUpdate_later (dateTime : String → Option Int) (hP : ReadsDateKeys dateTime)
    (st next : Streak) (d : String) (b : Int) (hd : calendarDay d = some b)
    (hok : st = defaultStreak ∨ (1 ≤ st.count ∧ (streakDay st).isSome = true))
    (hu : streakUpdate dateTime st d = some next) :
    1 ≤ next.count ∧ next.lastCompletedDate = some d ∧ streakDay next = some b ∧
      ∀ a, streakDay st = some a → a < b := by
  have hdate := streakUpdate_date dateTime st next d hu
  have hday : streakDay next = some b := by
    simp only [streakDay, hdate, Option.some_bind, hd]
  rcases hok with e | ⟨hc, hs⟩
  · subst e
    rw [streakUpdate_of_no_prior dateTime defaultStreak d (Or.inl rfl)] at hu
    injection hu with hu
    subst hu
    refine ⟨le_refl _, rfl, hday, ?_⟩
    intro a ha
    simp [streakDay, defaultStreak] at ha
  · cases hl : st.lastCompletedDate with
    | none => simp [streakDay, hl] at hs
    | some last =>
      cases ha : calendarDay last with
      | none => simp [streakDay, hl, ha] at hs
      | some a =>
        rw [streakUpdate_of_calendarDays dateTime hP st last d a b hl ha hd] at hu
        have hsd : streakDay st = some a := by
          simp only [streakDay, hl, Option.some_bind, ha]
        by_cases h1 : b - a = 1
        · rw [if_pos h1] at hu
          injection hu with hu
          subst hu
          refine ⟨by simp only; linarith, rfl, hday, ?_⟩
          intro a1 ha1
          rw [hsd] at ha1
          injection ha1 with ha1
          omega
        · rw [if_neg h1] at hu
          by_cases h2 : 1 < b - a
          · rw [if_pos h2] at hu
            injection hu with hu
            subst hu
            refine ⟨le_refl _, rfl, hday, ?_⟩
            intro a1 ha1
            rw [hsd] at ha1
            injection ha1 with ha1
            omega
          · rw [if_neg h2] at hu
            exact absurd hu (by simp)

theorem computeAndSaveStreak_stored (H : Host) (hJ : H.JsonRoundTrip)
    (dateTime : String → Option Int) (s : LocalStorage) (st : Streak) (d : String)
    (hst : Streak.ofJson (store.getStreak H s).1 = some st) :
    ∃ s1, computeAndSaveStreak H dateTime s d = some s1 ∧
      (Streak.ofJson (store.getStreak H s1).1 = some st ∨
        ∃ next, streakUpdate dateTime st d = some next ∧
          Streak.ofJson (store.getStreak H s1).1 = some next) := by
  have hkeep : Streak.ofJson (store.getStreak H (store.getStreak H s).2).1 = some st := by
    have e : store.getStreak H (store.getStreak H s).2 = store.getStreak H s :=
      store.get_get H s _ _
    rw [e]
    exact hst
  cases hu : streakUpdate dateTime st d with
  | none =>
    exact ⟨_, computeAndSaveStreak_of_no_update H dateTime s st d hst hu, Or.inl hkeep⟩
  | some next =>
    by_cases hw : store.writeAccepted H (store.getStreak H s).2 KEYS.STREAK next.toJson = true
    · obtain ⟨s1, h1, h2⟩ := computeAndSaveStreak_of_update H hJ dateTime s st next d hst hu hw
      refine ⟨s1, h1, Or.inr ⟨next, rfl, ?_⟩⟩
      rw [h2]
      exact streak_ofJson_toJson next
    · have hn : (store.getStreak H s).2.setItem KEYS.STREAK (H.stringify next.toJson) = none := by
        unfold store.writeAccepted at hw
        cases hs : (store.getStreak H s).2.setItem KEYS.STREAK (H.stringify next.toJson) with
        | none => rfl
        | some s2 => rw [hs] at hw; simp at hw
      have h1 : computeAndSaveStreak H dateTime s d = some (store.getStreak H s).2 := by
        simp only [computeAndSaveStreak, hst, hu, store.setStreak]
        rw [store.set_of_rejected H _ _ _ hn]
      exact ⟨_, h1, Or.inl hkeep⟩

theorem computeAndSaveStreak_step (H : Host) (hJ : H.JsonRoundTrip)
    (dateTime : String → Option Int) (hP : ReadsDateKeys dateTime) (s : LocalStorage)
    (st : Streak) (d : String) (hst : Streak.ofJson (store.getStreak H s).1 = some st)
    (hok : st = defaultStreak ∨ (1 ≤ st.count ∧ (streakDay st).isSome = true))
    (hd : (calendarDay d).isSome = true) :
    ∃ s1 st1, computeAndSaveStreak H dateTime s d = some s1 ∧
      Streak.ofJson (store.getStreak H s1).1 = some st1 ∧
      (st1 = defaultStreak ∨ (1 ≤ st1.count ∧ (streakDay st1).isSome = true)) ∧
      (∀ a, streakDay st = some a → ∃ b, streakDay st1 = some b ∧ a ≤ b) ∧
      (1 ≤ st.count → 1 ≤ st1.count) := by
  obtain ⟨s1, h1, h2⟩ := computeAndSaveStreak_stored H hJ dateTime s st d hst
  rcases h2 with h2 | ⟨next, hu, h2⟩
  · exact ⟨s1, st, h1, h2, hok, fun a ha => ⟨a, ha, le_refl a⟩, fun h => h⟩
  · cases hb : calendarDay d with
    | none => rw [hb] at hd; simp at hd
    | some b =>
      obtain ⟨n1, n2, n3, n4⟩ := streakUpdate_later dateTime hP st next d b hb hok hu
      refine ⟨s1, next, h1, h2, Or.inr ⟨n1, by rw [n3]; rfl⟩, ?_, fun _ => n1⟩
      intro a ha
      exact ⟨b, n3, le_of_lt (n4 a ha)⟩

theorem runStreakUpdates_ok (H : Host) (hJ : H.JsonRoundTrip)
    (dateTime : String → Option Int) (hP : ReadsDateKeys dateTime) (ds : List String)
    (hds : ∀ d ∈ ds, (calendarDay d).isSome = true) (s : LocalStorage) (st : Streak)
    (hst : Streak.ofJson (store.getStreak H s).1 = some st)
    (hok : st = defaultStreak ∨ (1 ≤ st.count ∧ (streakDay st).isSome = true)) :
    ∃ s1 st1, runStreakUpdates H dateTime s ds = some s1 ∧
      Streak.ofJson (store.getStreak H s1).1 = some st1 ∧
      (st1 = defaultStreak ∨ (1 ≤ st1.count ∧ (streakDay st1).isSome = true)) ∧
      (∀ a, streakDay st = some a → ∃ b, streakDay st1 = some b ∧ a ≤ b) ∧
      (1 ≤ st.count → 1 ≤ st1.count) := by
  induction ds generalizing s st with
  | nil => exact ⟨s, st, rfl, hst, hok, fun a ha => ⟨a, ha, le_refl a⟩, fun h => h⟩
  | cons d ds ih =>
    obtain ⟨s1, st1, h1, h2, h3, h4, h5⟩ := computeAndSaveStreak_step H hJ dateTime hP s st d hst
      hok (hds d (List.mem_cons_self _ _))
    obtain ⟨s2, st2, k1, k2, k3, k4, k5⟩ :=
      ih (fun x hx => hds x (List.mem_cons_of_mem _ hx)) s1 st1 h2 h3
    refine ⟨s2, st2, by simp only [runStreakUpdates, h1, k1], k2, k3, ?_, fun h => k5 (h5 h)⟩
    intro a ha
    obtain ⟨b, hb, hab⟩ := h4 a ha
    obtain ⟨c, hc, hbc⟩ := k4 b hb
    exact ⟨c, hc, le_trans hab hbc⟩

theorem runStreakUpdates_append (H : Host) (dateTime : String → Option Int)
    (ds ds2 : List String) (s s1 : LocalStorage)
    (h : runStreakUpdates H dateTime s ds = some s1) :
    runStreakUpdates H dateTime s (ds ++ ds2) = runStreakUpdates H dateTime s1 ds2 := by
  induction ds generalizing s with
  | nil =>
    simp only [runStreakUpdates, Option.some.injEq] at h
    rw [h]
    rfl
  | cons d ds ih =>
    simp only [List.cons_append, runStreakUpdates] at h ⊢
    cases hc : computeAndSaveStreak H dateTime s d with
    | none => rw [hc] at h; exact absurd h (by simp)
    | some s0 =>
      rw [hc] at h
      simp only
      exact ih s0 h

/-- C30, as amended. Let `store.getStreak()` return a streak and let the host read date keys
as midnight UTC. A completion date `d` earlier than the streak's `lastCompletedDate` leaves
the storage, and so count and `lastCompletedDate`, unchanged. Over any sequence of updates
with calendar dates that starts from the default streak, every update returns, the stored
streak is the default one or has a count of at least 1, and `lastCompletedDate` never moves
backward: once it is the day `a`, after any further updates it is a day `b ≥ a`. If the host
accepts the write of the first update, the count is at least 1 after that update and after
every later one. -/
theorem computeAndSaveStreak_never_backward (H : Host) (hJ : H.JsonRoundTrip)
    (dateTime : String → Option Int) (hP : ReadsDateKeys dateTime) (s : LocalStorage)
    (st : Streak) (hst : Streak.ofJson (store.getStreak H s).1 = some st) :
    (∀ (last d : String) (a b : Int), st.lastCompletedDate = some last →
      calendarDay last = some a → calendarDay d = some b → b < a →
      computeAndSaveStreak H dateTime s d = some s) ∧
    (st = defaultStreak → ∀ ds : List String, (∀ d ∈ ds, (calendarDay d).isSome = true) →
      ∃ s1 st1, runStreakUpdates H dateTime s ds = some s1 ∧
        Streak.ofJson (store.getStreak H s1).1 = some st1 ∧
        (st1 = defaultStreak ∨ (1 ≤ st1.count ∧ (streakDay st1).isSome = true)) ∧
        ∀ ds2 : List String, (∀ d ∈ ds2, (calendarDay d).isSome = true) →
          ∃ s2 st2, runStreakUpdates H dateTime s (ds ++ ds2) = some s2 ∧
            Streak.ofJson (store.getStreak H s2).1 = some st2 ∧
            ∀ a, streakDay st1 = some a → ∃ b, streakDay st2 = some b ∧ a ≤ b) ∧
    (st = defaultStreak → ∀ (d : String) (ds : List String),
      (∀ x ∈ d :: ds, (calendarDay x).isSome = true) →
      store.writeAccepted H (store.getStreak H s).2 KEYS.STREAK
        (Streak.toJson { count := 1, lastCompletedDate := some d }) = true →
      ∃ s1 st1, runStreakUpdates H dateTime s (d :: ds) = some s1 ∧
        Streak.ofJson (store.getStreak H s1).1 = some st1 ∧ 1 ≤ st1.count) := by
  refine ⟨?_, ?_, ?_⟩
  · intro last d a b hl ha hb hlt
    rw [computeAndSaveStreak_of_no_update H dateTime s st d hst
      (streakUpdate_earlier dateTime hP st last d a b hl ha hb hlt)]
    rw [getStreak_storage_of_prior H s st last hst hl]
  · intro hdef ds hds
    obtain ⟨s1, st1, h1, h2, h3, _, _⟩ :=
      runStreakUpdates_ok H hJ dateTime hP ds hds s st hst (Or.inl hdef)
    refine ⟨s1, st1, h1, h2, h3, ?_⟩
    intro ds2 hds2
    obtain ⟨s2, st2, k1, k2, _, k4, _⟩ :=
      runStreakUpdates_ok H hJ dateTime hP ds2 hds2 s1 st1 h2 h3
    exact ⟨s2, st2, by rw [runStreakUpdates_append H dateTime ds ds2 s s1 h1]; exact k1, k2, k4⟩
  · intro hdef d ds hds hw
    have hu : streakUpdate dateTime st d = some { count := 1, lastCompletedDate := some d } := by
      rw [hdef]
      exact streakUpdate_of_no_prior dateTime defaultStreak d (Or.inl rfl)
    obtain ⟨s1, h1, h2⟩ := computeAndSaveStreak_of_update H hJ dateTime s st _ d hst hu hw
    have hst1 : Streak.ofJson (store.getStreak H s1).1
        = some { count := 1, lastCompletedDate := some d } := by
      rw [h2]
      exact streak_ofJson_toJson _
    have hday : (streakDay { count := 1, lastCompletedDate := some d }).isSome = true := by
      simp only [streakDay, Option.some_bind]
      exact hds d (List.mem_cons_self _ _)
    obtain ⟨s2, st2, k1, k2, _, _, k5⟩ := runStreakUpdates_ok H hJ dateTime hP ds
      (fun x hx => hds x (List.mem_cons_of_mem _ hx)) s1 _ hst1 (Or.inr ⟨le_refl _, hday⟩)
    exact ⟨s2, st2, by simp only [runStreakUpdates, h1, k1], k2, k5 (le_refl _)⟩

theorem ofJson_getStreak_emptyStorage :
    Streak.ofJson (store.getStreak refHost emptyStorage).1 = some defaultStreak := by
  have e : store.getStreak refHost emptyStorage = (defaultStreak.toJson, emptyStorage) :=
    store.get_absent refHost emptyStorage _ _ rfl
  rw [e]
  exact streak_ofJson_toJson _

theorem computeAndSaveStreak_never_backward_witness :
    Streak.ofJson (store.getStreak refHost emptyStorage).1 = some defaultStreak ∧
    ∃ s1 st1, runStreakUpdates refHost refDateTime emptyStorage
        ["2024-03-01", "2024-02-28", "2024-03-02"] = some s1 ∧
      Streak.ofJson (store.getStreak refHost s1).1 = some st1 ∧ 1 ≤ st1.count := by
  refine ⟨ofJson_getStreak_emptyStorage, ?_⟩
  have hget : (store.getStreak refHost emptyStorage).2 = emptyStorage := by
    rw [store.getStreak, store.get_absent refHost emptyStorage _ _ rfl]
  exact (computeAndSaveStreak_never_backward refHost refHost_jsonRoundTrip refDateTime
    refDateTime_readsDateKeys emptyStorage defaultStreak ofJson_getStreak_emptyStorage).2.2 rfl
    "2024-03-01" ["2024-02-28", "2024-03-02"] (by decide) (by rw [hget]; decide)

/-- C30, counterexample. On a storage that rejects every write, the first update from the
default streak returns and leaves the stored streak as it was: the count is still 0. -/
theorem runStreakUpdates_fullStorage :
    Streak.ofJson (store.getStreak refHost fullStorage).1 = some defaultStreak ∧
    (calendarDay "2024-03-01").isSome = true ∧
    runStreakUpdates refHost refDateTime fullStorage ["2024-03-01"] = some fullStorage ∧
    defaultStreak.count = 0 := by
  have hget : store.getStreak refHost fullStorage = (defaultStreak.toJson, fullStorage) :=
    store.get_absent refHost fullStorage _ _ rfl
  have hst : Streak.ofJson (store.getStreak refHost fullStorage).1 = some defaultStreak := by
    rw [hget]
    exact streak_ofJson_toJson _
  refine ⟨hst, by decide, ?_, rfl⟩
  have hu : streakUpdate refDateTime defaultStreak "2024-03-01"
      = some { count := 1, lastCompletedDate := some "2024-03-01" } :=
    streakUpdate_of_no_prior refDateTime defaultStreak _ (Or.inl rfl)
  have h1 : computeAndSaveStreak refHost refDateTime fullStorage "2024-03-01"
      = some fullStorage := by
    unfold computeAndSaveStreak
    rw [hst]
    simp only [hu, hget, store.setStreak]
    unfold fullStorage
    rw [store.set_of_quota_zero refHost [] _ _ (by decide)]
  simp only [runStreakUpdates, h1]


/-! ## Meal ids under the events of the tracker -/

theorem modifyDay_some (days : List Day) (dayIdx : Nat) (f : List Meal → List Meal)
    (days1 : List Day) (h : modifyDay days dayIdx f = some days1) :
    ∃ day, days[dayIdx]? = some day ∧
      days1 = days.set dayIdx { day with meals := f day.meals } := by
  cases hd : days[dayIdx]? with
  | none =>
    exfalso
    induction days generalizing dayIdx days1 with
    | nil => simp [modifyDay] at h
    | cons d rest ih =>
      cases dayIdx with
      | zero => simp at hd
      | succ i =>
        simp only [List.getElem?_cons_succ] at hd
        simp only [modifyDay, Option.map_eq_some'] at h
        obtain ⟨r, hr, _⟩ := h
        exact ih i r hr hd
  | some day =>
    rw [modifyDay_eq_set days dayIdx f day hd] at h
    injection h with h
    exact ⟨day, rfl, h.symm⟩

theorem idsDistinct_set (days : List Day) (i : Nat) (day : Day)
    (h : idsDistinct days) (hn : (day.meals.map Meal.id).Nodup) :
    idsDistinct (days.set i day) := by
  intro d hd
  rcases List.mem_or_eq_of_mem_set hd with h1 | h1
  · exact h d h1
  · rw [h1]; exact hn

theorem ids_editMeal (meals : List Meal) (id name type : String) (calories : Option Int) :
    (editMeal meals id name type calories).map Meal.id = meals.map Meal.id := by
  induction meals with
  | nil => rfl
  | cons m rest ih =>
    unfold editMeal
    split
    · rfl
    · simp only [List.map_cons, ih]

theorem ids_updateMeal (meals : List Meal) (id : String) (f : Meal → Meal)
    (hf : ∀ m, (f m).id = m.id) : (updateMeal meals id f).map Meal.id = meals.map Meal.id := by
  induction meals with
  | nil => rfl
  | cons m rest ih =>
    unfold updateMeal
    split
    · simp only [List.map_cons, hf]
    · simp only [List.map_cons, ih]

theorem ids_filter_nodup (meals : List Meal) (p : Meal → Bool)
    (h : (meals.map Meal.id).Nodup) : ((meals.filter p).map Meal.id).Nodup :=
  List.Nodup.sublist (List.Sublist.map _ (List.filter_sublist meals)) h

theorem ids_saveMeal_nodup (editingMealId : Option String) (meals : List Meal)
    (name type : String) (calories : Option Int) (clock : Int)
    (h : (meals.map Meal.id).Nodup)
    (hf : ((match editingMealId with
            | some id => decide (id ≠ "")
            | none => false)
          || decide (dateNowString clock ∉ meals.map Meal.id)) = true) :
    ((saveMeal editingMealId meals name type calories clock).map Meal.id).Nodup := by
  have happ : ∀ m : Meal, m.id = dateNowString clock →
      dateNowString clock ∉ meals.map Meal.id → ((meals ++ [m]).map Meal.id).Nodup := by
    intro m hm hnot
    rw [List.map_append]
    refine List.Nodup.append h (by simp) ?_
    intro x hx1 hx2
    simp only [List.map_cons, List.map_nil, List.mem_singleton] at hx2
    rw [hx2, hm] at hx1
    exact hnot hx1
  unfold saveMeal
  cases editingMealId with
  | none =>
    simp only [Bool.false_or, decide_eq_true_eq] at hf
    exact happ _ rfl hf
  | some id =>
    by_cases hid : id = ""
    · simp only [hid, ne_eq, not_true_eq_false, decide_False, Bool.false_or,
        decide_eq_true_eq] at hf
      simp only [hid, if_true]
      exact happ _ rfl hf
    · simp only [hid, if_false]
      rw [ids_editMeal]
      exact h

theorem onMealFormSave_accepted (H : Host) (st : TrackerState) (dayIdx : Nat)
    (name type : String) (c : ℚ) (clock : Int) (now : String) (day : Day)
    (hn : name ≠ "") (h0 : 0 < c) (h1 : c ≤ 9999) (hday : st.plan.days[dayIdx]? = some day) :
    onMealFormSave H st dayIdx name type (some c) clock now
      = some
        { plan :=
            { st.plan with
              days := st.plan.days.set dayIdx
                { day with
                  meals := saveMeal st.editingMealId day.meals name type
                    (some (mathRound c)) clock }
              updatedAt := now }
          editingMealId := none
          storage := store.setPlan H st.storage
            ({ st.plan with
                days := st.plan.days.set dayIdx
                  { day with
                    meals := saveMeal st.editingMealId day.meals name type
                      (some (mathRound c)) clock } }).fields now } := by
  have hr : ¬ (name = "" ∨ calRejected (some c) = true) := by
    rw [calRejected_iff]
    rintro (h | h | ⟨c1, hc1, h⟩)
    · exact hn h
    · simp at h
    · injection hc1 with hc1
      subst hc1
      rcases h with h | h
      · exact absurd h0 (not_lt.mpr h)
      · exact absurd h1 (not_le.mpr h)
  unfold onMealFormSave
  rw [if_neg hr, modifyDay_eq_set _ _ _ day hday]
  rfl

theorem applyEvent_idsDistinct (H : Host) (dateTime : String → Option Int)
    (ev : TrackerEvent) (st st1 : TrackerState) (h : idsDistinct st.plan.days)
    (hf : freshAt ev st = true) (hrun : applyEvent H dateTime ev st = some st1) :
    idsDistinct st1.plan.days := by
  cases ev with
  | addMeal dayIdx =>
    simp only [applyEvent, onAddMealClick, Option.some.injEq] at hrun
    rw [← hrun]; exact h
  | editMeal dayIdx mealId =>
    simp only [applyEvent, onEditMeal, Option.some.injEq] at hrun
    rw [← hrun]; exact h
  | save dayIdx name type cal clock now =>
    simp only [applyEvent, onMealFormSave] at hrun
    split at hrun
    · injection hrun with hrun
      rw [← hrun]; exact h
    · cases hm : modifyDay st.plan.days dayIdx
          (fun meals => saveMeal st.editingMealId meals name type (cal.map mathRound) clock) with
      | none => rw [hm] at hrun; exact absurd hrun (by simp)
      | some days =>
        rw [hm] at hrun
        injection hrun with hrun
        obtain ⟨day, hday, hdays⟩ := modifyDay_some _ _ _ _ hm
        rw [← hrun]
        simp only
        rw [hdays]
        apply idsDistinct_set _ _ _ h
        simp only [freshAt, hday] at hf
        exact ids_saveMeal_nodup _ _ _ _ _ _ (h day (List.getElem?_mem hday)) hf
  | delete dayIdx mealId now =>
    simp only [applyEvent, onDeleteMeal] at hrun
    cases hm : modifyDay st.plan.days dayIdx
        (fun meals => meals.filter fun m => decide (m.id ≠ mealId)) with
    | none => rw [hm] at hrun; exact absurd hrun (by simp)
    | some days =>
      rw [hm] at hrun
      injection hrun with hrun
      obtain ⟨day, hday, hdays⟩ := modifyDay_some _ _ _ _ hm
      rw [← hrun]
      simp only
      rw [hdays]
      apply idsDistinct_set _ _ _ h
      exact ids_filter_nodup _ _ (h day (List.getElem?_mem hday))
  | toggle dayIdx mealId checked today now =>
    simp only [applyEvent, onMealToggle] at hrun
    cases hday : st.plan.days[dayIdx]? with
    | none => rw [hday] at hrun; exact absurd hrun (by simp)
    | some day =>
      rw [hday] at hrun
      simp only at hrun
      have hset : idsDistinct (st.plan.days.set dayIdx
          { day with
            meals := updateMeal day.meals mealId fun m => { m with completed := checked } }) := by
        apply idsDistinct_set _ _ _ h
        simp only
        rw [ids_updateMeal day.meals mealId (fun m => { m with completed := checked })
          (fun m => rfl)]
        exact h day (List.getElem?_mem hday)
      split at hrun
      · split at hrun
        · simp only [Option.map_eq_some'] at hrun
          obtain ⟨s2, _, hrun⟩ := hrun
          rw [← hrun]
          exact hset
        · injection hrun with hrun
          rw [← hrun]
          exact hset
      · injection hrun with hrun
        rw [← hrun]; exact h
  | note dayIdx mealId text now =>
    simp only [applyEvent, onMealNoteInput] at hrun
    cases hday : st.plan.days[dayIdx]? with
    | none => rw [hday] at hrun; exact absurd hrun (by simp)
    | some day =>
      rw [hday] at hrun
      simp only at hrun
      split at hrun
      · injection hrun with hrun
        rw [← hrun]
        simp only
        apply idsDistinct_set _ _ _ h
        simp only
        rw [ids_updateMeal day.meals mealId (fun m => { m with note := text }) (fun m => rfl)]
        exact h day (List.getElem?_mem hday)
      · injection hrun with hrun
        rw [← hrun]; exact h

theorem defaultMeals_ids_nodup (p : Profile) (days : List (List Meal))
    (h : utils.defaultMeals p = some days) : ∀ day ∈ days, (day.map Meal.id).Nodup := by
  intro day hday
  have hmem : day.map Meal.id ∈ days.map (fun day => day.map Meal.id) :=
    List.mem_map_of_mem _ hday
  rw [defaultMeals_ids p days h] at hmem
  have hall : ∀ ids ∈ defaultIds, ids.Nodup := by
    rw [defaultIds_eq]; decide
  exact hall _ hmem

/-- C21, as amended. Let each day's meal ids be pairwise distinct, as they are in the default
plan. After any sequence of add, edit, delete, toggle and note events of the tracker whose
handlers return, each day's meal ids are still pairwise distinct, provided that the clock
reading of every meal added is, as a decimal numeral, not already the id of a meal of that
day. -/
theorem runEvents_ids_distinct (H : Host) (dateTime : String → Option Int)
    (events : List TrackerEvent) (st st1 : TrackerState) (h : idsDistinct st.plan.days)
    (hfresh : freshClock H dateTime events st = true)
    (hrun : runEvents H dateTime events st = some st1) :
    idsDistinct st1.plan.days ∧
    ∀ (p : Profile) (days : List (List Meal)), utils.defaultMeals p = some days →
      ∀ day ∈ days, (day.map Meal.id).Nodup := by
  refine ⟨?_, defaultMeals_ids_nodup⟩
  induction events generalizing st with
  | nil =>
    simp only [runEvents, Option.some.injEq] at hrun
    rw [← hrun]; exact h
  | cons ev rest ih =>
    simp only [freshClock, Bool.and_eq_true] at hfresh
    simp only [runEvents] at hrun
    cases ha : applyEvent H dateTime ev st with
    | none => rw [ha] at hrun; exact absurd hrun (by simp)
    | some st0 =>
      rw [ha] at hrun hfresh
      exact ih st0 (applyEvent_idsDistinct H dateTime ev st st0 h hfresh.1 ha) hfresh.2 hrun

theorem runEvents_ids_distinct_witness :
    idsDistinct sampleTracker.plan.days ∧
    freshClock refHost refDateTime sampleEvents sampleTracker = true ∧
    ∃ st1, runEvents refHost refDateTime sampleEvents sampleTracker = some st1 ∧
      st1.plan.days.map (fun d => d.meals.map Meal.id) = [["1709280120000"]] ∧
      idsDistinct st1.plan.days := by
  have h0 : idsDistinct sampleTracker.plan.days := by
    unfold idsDistinct
    decide
  have hf : freshClock refHost refDateTime sampleEvents sampleTracker = true := by decide
  have hsome : (runEvents refHost refDateTime sampleEvents sampleTracker).isSome = true := by
    decide
  have hids : ∀ st1, runEvents refHost refDateTime sampleEvents sampleTracker = some st1 →
      st1.plan.days.map (fun d => d.meals.map Meal.id)
        = [["1709280120000"]] := by
    decide
  obtain ⟨st1, hrun⟩ := Option.isSome_iff_exists.mp hsome
  exact ⟨h0, hf, st1, hrun, hids st1 hrun,
    (runEvents_ids_distinct refHost refDateTime sampleEvents sampleTracker st1 h0 hf hrun).1⟩

/-- C21, counterexample. The plan has one day without meals, so its ids are pairwise
distinct. Two meals are added through the form while the clock returns the same reading
1709280000000: both handlers return, and the day then holds two meals with the id
'1709280000000'. -/
theorem runEvents_sameClock_duplicate_ids :
    idsDistinct sampleTracker.plan.days ∧
    ∃ st1, runEvents refHost refDateTime sameClockEvents sampleTracker = some st1 ∧
      st1.plan.days.map (fun d => d.meals.map Meal.id)
        = [["1709280000000", "1709280000000"]] ∧
      ¬ idsDistinct st1.plan.days := by
  have h0 : idsDistinct sampleTracker.plan.days := by
    unfold idsDistinct
    decide
  have hsome : (runEvents refHost refDateTime sameClockEvents sampleTracker).isSome = true := by
    decide
  have hids : ∀ st1, runEvents refHost refDateTime sameClockEvents sampleTracker = some st1 →
      st1.plan.days.map (fun d => d.meals.map Meal.id)
        = [["1709280000000", "1709280000000"]] := by
    decide
  obtain ⟨st1, hrun⟩ := Option.isSome_iff_exists.mp hsome
  refine ⟨h0, st1, hrun, hids st1 hrun, ?_⟩
  intro hd
  have hall : ∀ ids ∈ st1.plan.days.map (fun d => d.meals.map Meal.id), ids.Nodup := by
    intro ids hmem
    obtain ⟨d, hd1, rfl⟩ := List.mem_map.mp hmem
    exact hd d hd1
  rw [hids st1 hrun] at hall
  exact absurd (hall _ (List.mem_singleton.mpr rfl)) (by decide)


end Nutrify
